import Mathlib

/-!
# secsync: the libsodium JNI shim (`sodium-jni.c`) and the bridge header (`RCTSodium.h`)

A shallow embedding of the JNI wrappers of
`packages/react-native-sodium-expo-plugin/android/src/main/cpp/sodium-jni.c`.

* The Java heap is a map from array references to byte lists.
* Native memory is a map from pointers to byte buffers; pointer `0` is `NULL`.
* `GetByteArrayElements` hands out a buffer holding the array's bytes,
  `ReleaseByteArrayElements` with mode `0` writes the buffer back.
* libsodium is external to the repository: it is a parameter `sodium : Lib`
  of every wrapper, and what is assumed about it is a hypothesis of the theorem
  that needs it.
* Every JNI event (pin, library call, release) is appended to a trace.
-/

namespace SodiumJNI

/-! ## Machine integers -/

/-- Reduction of an integer into the signed `w`-bit range (a C conversion to a signed type). -/
def wrapSigned (w : Nat) (v : Int) : Int :=
  (v + 2 ^ (w - 1)) % 2 ^ w - 2 ^ (w - 1)

/-- Reduction of an integer modulo `2 ^ w` (a C conversion to an unsigned type). -/
def wrapUnsigned (w : Nat) (v : Int) : Nat :=
  (v % 2 ^ w).toNat

/-- The cast `(jint) v`, also `(int) v`: both are 32-bit signed. -/
def toJint (v : Int) : Int := wrapSigned 32 v

/-- The cast `(jlong) v`. -/
def toJlong (v : Int) : Int := wrapSigned 64 v

/-- The cast `(uint32_t) v`, also `(unsigned int) v`. -/
def toUint32 (v : Int) : Nat := wrapUnsigned 32 v

/-- The cast `(unsigned long long) v`. -/
def toULL (v : Int) : Nat := wrapUnsigned 64 v

/-- A Java `int` value. -/
def IsJint (v : Int) : Prop := -2 ^ 31 ≤ v ∧ v < 2 ^ 31

/-- A Java `long` value. -/
def IsJlong (v : Int) : Prop := -2 ^ 63 ≤ v ∧ v < 2 ^ 63

instance (v : Int) : Decidable (IsJint v) := by unfold IsJint; infer_instance

instance (v : Int) : Decidable (IsJlong v) := by unfold IsJlong; infer_instance

/-! ## Data model -/

/-- A byte. -/
abbrev Byte := Nat

/-- A `jbyteArray` reference. -/
abbrev JArray := Nat

/-- A native pointer; `0` is `NULL`. -/
abbrev Ptr := Nat

/-- The pointer `NULL`. -/
abbrev NULL : Ptr := 0

/-- Native side of the process: the buffers behind the pointers and the library's own state
(its random generator). -/
structure Native where
  mem : Ptr → List Byte
  rng : Nat

/-- A call of a libsodium function, with the arguments in the positions of the C call. -/
inductive LibCall where
  | sodium_init
  | randombytes_random
  | randombytes_uniform (upper_bound : Nat)
  | randombytes_buf (buf : Ptr) (size : Nat)
  | randombytes_close
  | randombytes_stir
  | crypto_secretbox_keygen (k : Ptr)
  | crypto_secretbox_easy (c m : Ptr) (mlen : Nat) (n k : Ptr)
  | crypto_secretbox_open_easy (m c : Ptr) (clen : Nat) (n k : Ptr)
  | crypto_auth_keygen (k : Ptr)
  | crypto_auth (out inp : Ptr) (inlen : Nat) (k : Ptr)
  | crypto_auth_verify (h inp : Ptr) (inlen : Nat) (k : Ptr)
  | crypto_box_keypair (pk sk : Ptr)
  | crypto_box_easy (c m : Ptr) (mlen : Nat) (n pk sk : Ptr)
  | crypto_box_open_easy (m c : Ptr) (clen : Nat) (n pk sk : Ptr)
  | crypto_box_beforenm (k pk sk : Ptr)
  | crypto_box_easy_afternm (c m : Ptr) (mlen : Nat) (n k : Ptr)
  | crypto_box_open_easy_afternm (m c : Ptr) (clen : Nat) (n k : Ptr)
  | crypto_box_seal (c m : Ptr) (mlen : Nat) (pk : Ptr)
  | crypto_box_seal_open (m c : Ptr) (clen : Nat) (pk sk : Ptr)
  | crypto_pwhash (out : Ptr) (outlen : Nat) (passwd : Ptr) (passwdlen : Nat) (salt : Ptr)
      (opslimit memlimit alg : Nat)
  | crypto_scalarmult_base (q n : Ptr)
  | crypto_scalarmult (q n p : Ptr)
  | crypto_sign_detached (sig siglen_p m : Ptr) (mlen : Nat) (sk : Ptr)
  | crypto_sign_verify_detached (sig m : Ptr) (mlen : Nat) (pk : Ptr)
  | crypto_sign_keypair (pk sk : Ptr)
  | crypto_sign_seed_keypair (pk sk seed : Ptr)
  | crypto_sign_ed25519_sk_to_seed (seed sk : Ptr)
  | crypto_sign_ed25519_pk_to_curve25519 (curve ed : Ptr)
  | crypto_sign_ed25519_sk_to_curve25519 (curve ed : Ptr)
  | crypto_sign_ed25519_sk_to_pk (pk sk : Ptr)
  deriving DecidableEq, Repr

/-- The byte-buffer arguments of a library call, in the order of the call. -/
def LibCall.bufs : LibCall → List Ptr
  | .sodium_init => []
  | .randombytes_random => []
  | .randombytes_uniform _ => []
  | .randombytes_buf buf _ => [buf]
  | .randombytes_close => []
  | .randombytes_stir => []
  | .crypto_secretbox_keygen k => [k]
  | .crypto_secretbox_easy c m _ n k => [c, m, n, k]
  | .crypto_secretbox_open_easy m c _ n k => [m, c, n, k]
  | .crypto_auth_keygen k => [k]
  | .crypto_auth out inp _ k => [out, inp, k]
  | .crypto_auth_verify h inp _ k => [h, inp, k]
  | .crypto_box_keypair pk sk => [pk, sk]
  | .crypto_box_easy c m _ n pk sk => [c, m, n, pk, sk]
  | .crypto_box_open_easy m c _ n pk sk => [m, c, n, pk, sk]
  | .crypto_box_beforenm k pk sk => [k, pk, sk]
  | .crypto_box_easy_afternm c m _ n k => [c, m, n, k]
  | .crypto_box_open_easy_afternm m c _ n k => [m, c, n, k]
  | .crypto_box_seal c m _ pk => [c, m, pk]
  | .crypto_box_seal_open m c _ pk sk => [m, c, pk, sk]
  | .crypto_pwhash out _ passwd _ salt _ _ _ => [out, passwd, salt]
  | .crypto_scalarmult_base q n => [q, n]
  | .crypto_scalarmult q n p => [q, n, p]
  | .crypto_sign_detached sig _ m _ sk => [sig, m, sk]
  | .crypto_sign_verify_detached sig m _ pk => [sig, m, pk]
  | .crypto_sign_keypair pk sk => [pk, sk]
  | .crypto_sign_seed_keypair pk sk seed => [pk, sk, seed]
  | .crypto_sign_ed25519_sk_to_seed seed sk => [seed, sk]
  | .crypto_sign_ed25519_pk_to_curve25519 curve ed => [curve, ed]
  | .crypto_sign_ed25519_sk_to_curve25519 curve ed => [curve, ed]
  | .crypto_sign_ed25519_sk_to_pk pk sk => [pk, sk]

/-- The linked libsodium: what a call does to the native side and the value it returns
(`0` for a `void` function). It is not part of the repository and stays a parameter. -/
abbrev Lib := LibCall → Native → Native × Int

/-- An event of a wrapper's run. -/
inductive Event where
  | get (array : JArray) (elems : Ptr)
  | call (c : LibCall) (ret : Int)
  | release (array : JArray) (elems : Ptr) (mode : Nat)
  deriving DecidableEq, Repr

/-- The JNI environment `jenv`: `alloc i` is the pointer that the `i`-th call of
`GetByteArrayElements` returns, `NULL` when the pin fails. -/
structure JNIEnv where
  alloc : Nat → Ptr

/-- State of the process around a wrapper call. -/
structure JState where
  heap : JArray → List Byte
  native : Native
  npins : Nat
  trace : List Event

/-- A computation of the JNI side: a state transformer. -/
def JNI (α : Type) : Type := JState → α × JState

instance : Monad JNI where
  pure a := fun s => (a, s)
  bind m f := fun s => f (m s).1 (m s).2

/-- The release mode `JNI_ABORT`: free the buffer without copying back. -/
def JNI_ABORT : Nat := 2

/-- Model of `(*jenv)->GetByteArrayElements(jenv, array, 0)`: the environment chooses the
pointer; unless it is `NULL`, the buffer behind it receives the array's bytes. -/
def GetByteArrayElements (jenv : JNIEnv) (array : JArray) : JNI Ptr := fun s =>
  let elems := jenv.alloc s.npins
  (elems,
    { s with
      native :=
        { s.native with
          mem := if elems = NULL then s.native.mem
                 else Function.update s.native.mem elems (s.heap array) }
      npins := s.npins + 1
      trace := s.trace ++ [Event.get array elems] })

/-- Model of `(*jenv)->ReleaseByteArrayElements(jenv, array, elems, mode)`: unless the mode
is `JNI_ABORT` (or the pointer is `NULL`), the buffer is written back to the array. -/
def ReleaseByteArrayElements (_jenv : JNIEnv) (array : JArray) (elems : Ptr) (mode : Nat) :
    JNI Unit := fun s =>
  ((),
    { s with
      heap := if elems = NULL ∨ mode = JNI_ABORT then s.heap
              else Function.update s.heap array (s.native.mem elems)
      trace := s.trace ++ [Event.release array elems mode] })

/-- A call into the linked library. -/
def libcall (sodium : Lib) (c : LibCall) : JNI Int := fun s =>
  ((sodium c s.native).2,
    { s with
      native := (sodium c s.native).1
      trace := s.trace ++ [Event.call c (sodium c s.native).2] })

/-! ## The wrappers of `sodium-jni.c`

The parameter `jcls` is unused by every wrapper and is left out. An integer argument that the C
call converts to `unsigned long long` goes through `toULL`, also where the conversion is implicit
(`j_msg_len` of `crypto_sign_detached`). -/

/-- The JNI wrapper `sodium_1init` of `sodium-jni.c`. -/
def Java_org_libsodium_jni_SodiumJNI_sodium_1init (sodium : Lib) (_jenv : JNIEnv) :
    JNI Int := do
  let result := toJint (← libcall sodium .sodium_init)
  return toJint result

/-- The JNI wrapper `randombytes_1random` of `sodium-jni.c`. -/
def Java_org_libsodium_jni_SodiumJNI_randombytes_1random (sodium : Lib) (_jenv : JNIEnv) :
    JNI Int := do
  let result := toUint32 (← libcall sodium .randombytes_random)
  return toJlong result

/-- The JNI wrapper `randombytes_1uniform` of `sodium-jni.c`. -/
def Java_org_libsodium_jni_SodiumJNI_randombytes_1uniform (sodium : Lib)
    (_jenv : JNIEnv) (j_upper_bound : Int) : JNI Int := do
  let result := toUint32 (← libcall sodium (.randombytes_uniform (toUint32 j_upper_bound)))
  return toJlong result

/-- The JNI wrapper `randombytes_1buf` of `sodium-jni.c`. -/
def Java_org_libsodium_jni_SodiumJNI_randombytes_1buf (sodium : Lib)
    (jenv : JNIEnv) (j_buf : JArray) (j_size : Int) : JNI Unit := do
  let buf ← GetByteArrayElements jenv j_buf
  let _ ← libcall sodium (.randombytes_buf buf (toULL j_size))
  ReleaseByteArrayElements jenv j_buf buf 0

/-- The JNI wrapper `randombytes_1close` of `sodium-jni.c`. -/
def Java_org_libsodium_jni_SodiumJNI_randombytes_1close (sodium : Lib) (_jenv : JNIEnv) :
    JNI Int := do
  let result := toJint (← libcall sodium .randombytes_close)
  return toJint result

/-- The JNI wrapper `randombytes_1stir` of `sodium-jni.c`. -/
def Java_org_libsodium_jni_SodiumJNI_randombytes_1stir (sodium : Lib) (_jenv : JNIEnv) :
    JNI Unit := do
  let _ ← libcall sodium .randombytes_stir
  return ()

/-- The JNI wrapper `crypto_1secretbox_1keygen` of `sodium-jni.c`. -/
def Java_org_libsodium_jni_SodiumJNI_crypto_1secretbox_1keygen (sodium : Lib)
    (jenv : JNIEnv) (j_key : JArray) : JNI Unit := do
  let key ← GetByteArrayElements jenv j_key
  let _ ← libcall sodium (.crypto_secretbox_keygen key)
  ReleaseByteArrayElements jenv j_key key 0

/-- The JNI wrapper `crypto_1secretbox_1easy` of `sodium-jni.c`. -/
def Java_org_libsodium_jni_SodiumJNI_crypto_1secretbox_1easy (sodium : Lib)
    (jenv : JNIEnv) (j_c : JArray) (j_m : JArray) (j_mlen : Int) (j_n : JArray) (j_k : JArray)
    : JNI Int := do
  let c ← GetByteArrayElements jenv j_c
  let m ← GetByteArrayElements jenv j_m
  let n ← GetByteArrayElements jenv j_n
  let k ← GetByteArrayElements jenv j_k
  let result ← libcall sodium (.crypto_secretbox_easy c m (toULL j_mlen) n k)
  ReleaseByteArrayElements jenv j_c c 0
  ReleaseByteArrayElements jenv j_m m 0
  ReleaseByteArrayElements jenv j_n n 0
  ReleaseByteArrayElements jenv j_k k 0
  return toJint result

/-- The JNI wrapper `crypto_1secretbox_1open_1easy` of `sodium-jni.c`. -/
def Java_org_libsodium_jni_SodiumJNI_crypto_1secretbox_1open_1easy (sodium : Lib)
    (jenv : JNIEnv) (j_m : JArray) (j_c : JArray) (j_clen : Int) (j_n : JArray) (j_k : JArray)
    : JNI Int := do
  let m ← GetByteArrayElements jenv j_m
  let c ← GetByteArrayElements jenv j_c
  let n ← GetByteArrayElements jenv j_n
  let k ← GetByteArrayElements jenv j_k
  let result ← libcall sodium (.crypto_secretbox_open_easy m c (toULL j_clen) n k)
  ReleaseByteArrayElements jenv j_m m 0
  ReleaseByteArrayElements jenv j_c c 0
  ReleaseByteArrayElements jenv j_n n 0
  ReleaseByteArrayElements jenv j_k k 0
  return toJint result

/-- The JNI wrapper `crypto_1auth_1keygen` of `sodium-jni.c`. -/
def Java_org_libsodium_jni_SodiumJNI_crypto_1auth_1keygen (sodium : Lib)
    (jenv : JNIEnv) (j_key : JArray) : JNI Unit := do
  let key ← GetByteArrayElements jenv j_key
  let _ ← libcall sodium (.crypto_auth_keygen key)
  ReleaseByteArrayElements jenv j_key key 0

/-- The JNI wrapper `crypto_1auth` of `sodium-jni.c`. -/
def Java_org_libsodium_jni_SodiumJNI_crypto_1auth (sodium : Lib)
    (jenv : JNIEnv) (j_out : JArray) (j_in : JArray) (j_inlen : Int) (j_k : JArray) : JNI Int := do
  let out ← GetByteArrayElements jenv j_out
  let inp ← GetByteArrayElements jenv j_in
  let k ← GetByteArrayElements jenv j_k
  let result ← libcall sodium (.crypto_auth out inp (toULL j_inlen) k)
  ReleaseByteArrayElements jenv j_out out 0
  ReleaseByteArrayElements jenv j_in inp 0
  ReleaseByteArrayElements jenv j_k k 0
  return toJint result

/-- The JNI wrapper `crypto_1auth_1verify` of `sodium-jni.c`. -/
def Java_org_libsodium_jni_SodiumJNI_crypto_1auth_1verify (sodium : Lib)
    (jenv : JNIEnv) (j_h : JArray) (j_in : JArray) (j_inlen : Int) (j_k : JArray) : JNI Int := do
  let h ← GetByteArrayElements jenv j_h
  let inp ← GetByteArrayElements jenv j_in
  let k ← GetByteArrayElements jenv j_k
  let result ← libcall sodium (.crypto_auth_verify h inp (toULL j_inlen) k)
  ReleaseByteArrayElements jenv j_h h 0
  ReleaseByteArrayElements jenv j_in inp 0
  ReleaseByteArrayElements jenv j_k k 0
  return toJint result

/-- The JNI wrapper `crypto_1box_1keypair` of `sodium-jni.c`. -/
def Java_org_libsodium_jni_SodiumJNI_crypto_1box_1keypair (sodium : Lib)
    (jenv : JNIEnv) (j_pk : JArray) (j_sk : JArray) : JNI Int := do
  let pk ← GetByteArrayElements jenv j_pk
  let sk ← GetByteArrayElements jenv j_sk
  let result := toJint (← libcall sodium (.crypto_box_keypair pk sk))
  ReleaseByteArrayElements jenv j_pk pk 0
  ReleaseByteArrayElements jenv j_sk sk 0
  return toJint result

/-- The JNI wrapper `crypto_1box_1easy` of `sodium-jni.c`. -/
def Java_org_libsodium_jni_SodiumJNI_crypto_1box_1easy (sodium : Lib)
    (jenv : JNIEnv) (j_c : JArray) (j_m : JArray) (j_mlen : Int) (j_n : JArray) (j_pk : JArray)
    (j_sk : JArray) : JNI Int := do
  let c ← GetByteArrayElements jenv j_c
  let m ← GetByteArrayElements jenv j_m
  let n ← GetByteArrayElements jenv j_n
  let pk ← GetByteArrayElements jenv j_pk
  let sk ← GetByteArrayElements jenv j_sk
  let result ← libcall sodium (.crypto_box_easy c m (toULL j_mlen) n pk sk)
  ReleaseByteArrayElements jenv j_c c 0
  ReleaseByteArrayElements jenv j_m m 0
  ReleaseByteArrayElements jenv j_n n 0
  ReleaseByteArrayElements jenv j_pk pk 0
  ReleaseByteArrayElements jenv j_sk sk 0
  return toJint result

/-- The JNI wrapper `crypto_1box_1open_1easy` of `sodium-jni.c`. -/
def Java_org_libsodium_jni_SodiumJNI_crypto_1box_1open_1easy (sodium : Lib)
    (jenv : JNIEnv) (j_m : JArray) (j_c : JArray) (j_clen : Int) (j_n : JArray) (j_pk : JArray)
    (j_sk : JArray) : JNI Int := do
  let m ← GetByteArrayElements jenv j_m
  let c ← GetByteArrayElements jenv j_c
  let n ← GetByteArrayElements jenv j_n
  let pk ← GetByteArrayElements jenv j_pk
  let sk ← GetByteArrayElements jenv j_sk
  let result ← libcall sodium (.crypto_box_open_easy m c (toULL j_clen) n pk sk)
  ReleaseByteArrayElements jenv j_m m 0
  ReleaseByteArrayElements jenv j_c c 0
  ReleaseByteArrayElements jenv j_n n 0
  ReleaseByteArrayElements jenv j_pk pk 0
  ReleaseByteArrayElements jenv j_sk sk 0
  return toJint result

/-- The JNI wrapper `crypto_1box_1beforenm` of `sodium-jni.c`. -/
def Java_org_libsodium_jni_SodiumJNI_crypto_1box_1beforenm (sodium : Lib)
    (jenv : JNIEnv) (j_s : JArray) (j_pk : JArray) (j_sk : JArray) : JNI Int := do
  let s ← GetByteArrayElements jenv j_s
  let pk ← GetByteArrayElements jenv j_pk
  let sk ← GetByteArrayElements jenv j_sk
  let result ← libcall sodium (.crypto_box_beforenm s pk sk)
  ReleaseByteArrayElements jenv j_s s 0
  ReleaseByteArrayElements jenv j_pk pk 0
  ReleaseByteArrayElements jenv j_sk sk 0
  return toJint result

/-- The JNI wrapper `crypto_1box_1easy_1afternm` of `sodium-jni.c`. -/
def Java_org_libsodium_jni_SodiumJNI_crypto_1box_1easy_1afternm (sodium : Lib)
    (jenv : JNIEnv) (j_c : JArray) (j_m : JArray) (j_mlen : Int) (j_n : JArray) (j_k : JArray)
    : JNI Int := do
  let c ← GetByteArrayElements jenv j_c
  let m ← GetByteArrayElements jenv j_m
  let n ← GetByteArrayElements jenv j_n
  let k ← GetByteArrayElements jenv j_k
  let result ← libcall sodium (.crypto_box_easy_afternm c m (toULL j_mlen) n k)
  ReleaseByteArrayElements jenv j_c c 0
  ReleaseByteArrayElements jenv j_m m 0
  ReleaseByteArrayElements jenv j_n n 0
  ReleaseByteArrayElements jenv j_k k 0
  return toJint result

/-- The JNI wrapper `crypto_1box_1open_1easy_1afternm` of `sodium-jni.c`. -/
def Java_org_libsodium_jni_SodiumJNI_crypto_1box_1open_1easy_1afternm (sodium : Lib)
    (jenv : JNIEnv) (j_m : JArray) (j_c : JArray) (j_clen : Int) (j_n : JArray) (j_k : JArray)
    : JNI Int := do
  let m ← GetByteArrayElements jenv j_m
  let c ← GetByteArrayElements jenv j_c
  let n ← GetByteArrayElements jenv j_n
  let k ← GetByteArrayElements jenv j_k
  let result ← libcall sodium (.crypto_box_open_easy_afternm m c (toULL j_clen) n k)
  ReleaseByteArrayElements jenv j_m m 0
  ReleaseByteArrayElements jenv j_c c 0
  ReleaseByteArrayElements jenv j_n n 0
  ReleaseByteArrayElements jenv j_k k 0
  return toJint result

/-- The JNI wrapper `crypto_1box_1seal` of `sodium-jni.c`. -/
def Java_org_libsodium_jni_SodiumJNI_crypto_1box_1seal (sodium : Lib)
    (jenv : JNIEnv) (j_c : JArray) (j_m : JArray) (j_mlen : Int) (j_pk : JArray) : JNI Int := do
  let m ← GetByteArrayElements jenv j_m
  let c ← GetByteArrayElements jenv j_c
  let pk ← GetByteArrayElements jenv j_pk
  let result ← libcall sodium (.crypto_box_seal c m (toULL j_mlen) pk)
  ReleaseByteArrayElements jenv j_m m 0
  ReleaseByteArrayElements jenv j_c c 0
  ReleaseByteArrayElements jenv j_pk pk 0
  return toJint result

/-- The JNI wrapper `crypto_1box_1seal_1open` of `sodium-jni.c`. -/
def Java_org_libsodium_jni_SodiumJNI_crypto_1box_1seal_1open (sodium : Lib)
    (jenv : JNIEnv) (j_m : JArray) (j_c : JArray) (j_clen : Int) (j_pk : JArray) (j_sk : JArray)
    : JNI Int := do
  let c ← GetByteArrayElements jenv j_c
  let m ← GetByteArrayElements jenv j_m
  let pk ← GetByteArrayElements jenv j_pk
  let sk ← GetByteArrayElements jenv j_sk
  let result ← libcall sodium (.crypto_box_seal_open m c (toULL j_clen) pk sk)
  ReleaseByteArrayElements jenv j_m m 0
  ReleaseByteArrayElements jenv j_c c 0
  ReleaseByteArrayElements jenv j_pk pk 0
  ReleaseByteArrayElements jenv j_sk sk 0
  return toJint result

/-- The JNI wrapper `crypto_1pwhash` of `sodium-jni.c`. -/
def Java_org_libsodium_jni_SodiumJNI_crypto_1pwhash (sodium : Lib)
    (jenv : JNIEnv) (j_out : JArray) (j_olong : Int) (j_p : JArray) (j_plen : Int)
    (j_salt : JArray) (j_opslimit : Int) (jmemlimit : Int) (j_algo : Int) : JNI Int := do
  let password ← GetByteArrayElements jenv j_p
  let salt ← GetByteArrayElements jenv j_salt
  let out ← GetByteArrayElements jenv j_out
  let result ← libcall sodium
    (.crypto_pwhash out (toULL j_olong) password (toULL j_plen) salt (toULL j_opslimit)
      (toULL jmemlimit) (toUint32 j_algo))
  ReleaseByteArrayElements jenv j_p password 0
  ReleaseByteArrayElements jenv j_salt salt 0
  ReleaseByteArrayElements jenv j_out out 0
  return toJint result

/-- The JNI wrapper `crypto_1scalarmult_1base` of `sodium-jni.c`. -/
def Java_org_libsodium_jni_SodiumJNI_crypto_1scalarmult_1base (sodium : Lib)
    (jenv : JNIEnv) (j_q : JArray) (j_n : JArray) : JNI Int := do
  let q ← GetByteArrayElements jenv j_q
  let n ← GetByteArrayElements jenv j_n
  let result := toJint (← libcall sodium (.crypto_scalarmult_base q n))
  ReleaseByteArrayElements jenv j_q q 0
  ReleaseByteArrayElements jenv j_n n 0
  return toJint result

/-- The JNI wrapper `crypto_1scalarmult` of `sodium-jni.c`. -/
def Java_org_libsodium_jni_SodiumJNI_crypto_1scalarmult (sodium : Lib)
    (jenv : JNIEnv) (j_q : JArray) (j_n : JArray) (j_p : JArray) : JNI Int := do
  let q ← GetByteArrayElements jenv j_q
  let n ← GetByteArrayElements jenv j_n
  let p ← GetByteArrayElements jenv j_p
  let result := toJint (← libcall sodium (.crypto_scalarmult q n p))
  ReleaseByteArrayElements jenv j_q q 0
  ReleaseByteArrayElements jenv j_n n 0
  ReleaseByteArrayElements jenv j_p p 0
  return toJint result

/-- The JNI wrapper `crypto_1sign_1detached` of `sodium-jni.c`. -/
def Java_org_libsodium_jni_SodiumJNI_crypto_1sign_1detached (sodium : Lib)
    (jenv : JNIEnv) (j_sig : JArray) (j_msg : JArray) (j_msg_len : Int) (j_sk : JArray)
    : JNI Int := do
  let sig ← GetByteArrayElements jenv j_sig
  let msg ← GetByteArrayElements jenv j_msg
  let sk ← GetByteArrayElements jenv j_sk
  let result ← libcall sodium (.crypto_sign_detached sig NULL msg (toULL j_msg_len) sk)
  ReleaseByteArrayElements jenv j_sig sig 0
  ReleaseByteArrayElements jenv j_msg msg 0
  ReleaseByteArrayElements jenv j_sk sk 0
  return toJint result

/-- The JNI wrapper `crypto_1sign_1verify_1detached` of `sodium-jni.c`. -/
def Java_org_libsodium_jni_SodiumJNI_crypto_1sign_1verify_1detached (sodium : Lib)
    (jenv : JNIEnv) (j_sig : JArray) (j_msg : JArray) (j_msg_len : Int) (j_pk : JArray)
    : JNI Int := do
  let sig ← GetByteArrayElements jenv j_sig
  let msg ← GetByteArrayElements jenv j_msg
  let pk ← GetByteArrayElements jenv j_pk
  let result ← libcall sodium (.crypto_sign_verify_detached sig msg (toULL j_msg_len) pk)
  ReleaseByteArrayElements jenv j_sig sig 0
  ReleaseByteArrayElements jenv j_msg msg 0
  ReleaseByteArrayElements jenv j_pk pk 0
  return toJint result

/-- The JNI wrapper `crypto_1sign_1keypair` of `sodium-jni.c`. -/
def Java_org_libsodium_jni_SodiumJNI_crypto_1sign_1keypair (sodium : Lib)
    (jenv : JNIEnv) (j_pk : JArray) (j_sk : JArray) : JNI Int := do
  let sk ← GetByteArrayElements jenv j_sk
  let pk ← GetByteArrayElements jenv j_pk
  let result ← libcall sodium (.crypto_sign_keypair pk sk)
  ReleaseByteArrayElements jenv j_pk pk 0
  ReleaseByteArrayElements jenv j_sk sk 0
  return toJint result

/-- The JNI wrapper `crypto_1sign_1seed_1keypair` of `sodium-jni.c`. -/
def Java_org_libsodium_jni_SodiumJNI_crypto_1sign_1seed_1keypair (sodium : Lib)
    (jenv : JNIEnv) (j_pk : JArray) (j_sk : JArray) (j_seed : JArray) : JNI Int := do
  let seed ← GetByteArrayElements jenv j_seed
  let sk ← GetByteArrayElements jenv j_sk
  let pk ← GetByteArrayElements jenv j_pk
  let result ← libcall sodium (.crypto_sign_seed_keypair pk sk seed)
  ReleaseByteArrayElements jenv j_seed seed 0
  ReleaseByteArrayElements jenv j_pk pk 0
  ReleaseByteArrayElements jenv j_sk sk 0
  return toJint result

/-- The JNI wrapper `crypto_1sign_1ed25519_1sk_1to_1seed` of `sodium-jni.c`. -/
def Java_org_libsodium_jni_SodiumJNI_crypto_1sign_1ed25519_1sk_1to_1seed (sodium : Lib)
    (jenv : JNIEnv) (j_seed : JArray) (j_sk : JArray) : JNI Int := do
  let seed ← GetByteArrayElements jenv j_seed
  let sk ← GetByteArrayElements jenv j_sk
  let result ← libcall sodium (.crypto_sign_ed25519_sk_to_seed seed sk)
  ReleaseByteArrayElements jenv j_seed seed 0
  ReleaseByteArrayElements jenv j_sk sk 0
  return toJint result

/-- The JNI wrapper `crypto_1sign_1ed25519_1pk_1to_1curve25519` of `sodium-jni.c`. -/
def Java_org_libsodium_jni_SodiumJNI_crypto_1sign_1ed25519_1pk_1to_1curve25519 (sodium : Lib)
    (jenv : JNIEnv) (j_curve : JArray) (j_ed : JArray) : JNI Int := do
  let curve ← GetByteArrayElements jenv j_curve
  let ed ← GetByteArrayElements jenv j_ed
  let result ← libcall sodium (.crypto_sign_ed25519_pk_to_curve25519 curve ed)
  ReleaseByteArrayElements jenv j_curve curve 0
  ReleaseByteArrayElements jenv j_ed ed 0
  return toJint result

/-- The JNI wrapper `crypto_1sign_1ed25519_1sk_1to_1curve25519` of `sodium-jni.c`. -/
def Java_org_libsodium_jni_SodiumJNI_crypto_1sign_1ed25519_1sk_1to_1curve25519 (sodium : Lib)
    (jenv : JNIEnv) (j_curve : JArray) (j_ed : JArray) : JNI Int := do
  let curve ← GetByteArrayElements jenv j_curve
  let ed ← GetByteArrayElements jenv j_ed
  let result ← libcall sodium (.crypto_sign_ed25519_sk_to_curve25519 curve ed)
  ReleaseByteArrayElements jenv j_curve curve 0
  ReleaseByteArrayElements jenv j_ed ed 0
  return toJint result

/-- The JNI wrapper `crypto_1sign_1ed25519_1sk_1to_1pk` of `sodium-jni.c`. -/
def Java_org_libsodium_jni_SodiumJNI_crypto_1sign_1ed25519_1sk_1to_1pk (sodium : Lib)
    (jenv : JNIEnv) (j_sk : JArray) (j_pk : JArray) : JNI Int := do
  let sk ← GetByteArrayElements jenv j_sk
  let pk ← GetByteArrayElements jenv j_pk
  let result ← libcall sodium (.crypto_sign_ed25519_sk_to_pk pk sk)
  ReleaseByteArrayElements jenv j_sk sk 0
  ReleaseByteArrayElements jenv j_pk pk 0
  return toJint result

/-- A value handed back to Java by a wrapper. -/
inductive JValue where
  | void
  | jint (v : Int)
  | jlong (v : Int)
  deriving DecidableEq, Repr

/-- A call of one of the operation wrappers of `sodium-jni.c` with its Java arguments (the
wrappers that only return a constant of `sodium.h`, and `sodium_version_string`, which
returns a `jstring`, are not operations on byte arrays or return codes). -/
inductive JCall where
  | sodium_init
  | randombytes_random
  | randombytes_uniform (j_upper_bound : Int)
  | randombytes_buf (j_buf : JArray) (j_size : Int)
  | randombytes_close
  | randombytes_stir
  | crypto_secretbox_keygen (j_key : JArray)
  | crypto_secretbox_easy (j_c : JArray) (j_m : JArray) (j_mlen : Int) (j_n : JArray) (j_k :
      JArray)
  | crypto_secretbox_open_easy (j_m : JArray) (j_c : JArray) (j_clen : Int) (j_n : JArray) (j_k :
      JArray)
  | crypto_auth_keygen (j_key : JArray)
  | crypto_auth (j_out : JArray) (j_in : JArray) (j_inlen : Int) (j_k : JArray)
  | crypto_auth_verify (j_h : JArray) (j_in : JArray) (j_inlen : Int) (j_k : JArray)
  | crypto_box_keypair (j_pk : JArray) (j_sk : JArray)
  | crypto_box_easy (j_c : JArray) (j_m : JArray) (j_mlen : Int) (j_n : JArray) (j_pk : JArray)
      (j_sk : JArray)
  | crypto_box_open_easy (j_m : JArray) (j_c : JArray) (j_clen : Int) (j_n : JArray) (j_pk :
      JArray) (j_sk : JArray)
  | crypto_box_beforenm (j_s : JArray) (j_pk : JArray) (j_sk : JArray)
  | crypto_box_easy_afternm (j_c : JArray) (j_m : JArray) (j_mlen : Int) (j_n : JArray) (j_k :
      JArray)
  | crypto_box_open_easy_afternm (j_m : JArray) (j_c : JArray) (j_clen : Int) (j_n : JArray) (j_k :
      JArray)
  | crypto_box_seal (j_c : JArray) (j_m : JArray) (j_mlen : Int) (j_pk : JArray)
  | crypto_box_seal_open (j_m : JArray) (j_c : JArray) (j_clen : Int) (j_pk : JArray) (j_sk :
      JArray)
  | crypto_pwhash (j_out : JArray) (j_olong : Int) (j_p : JArray) (j_plen : Int) (j_salt : JArray)
      (j_opslimit : Int) (jmemlimit : Int) (j_algo : Int)
  | crypto_scalarmult_base (j_q : JArray) (j_n : JArray)
  | crypto_scalarmult (j_q : JArray) (j_n : JArray) (j_p : JArray)
  | crypto_sign_detached (j_sig : JArray) (j_msg : JArray) (j_msg_len : Int) (j_sk : JArray)
  | crypto_sign_verify_detached (j_sig : JArray) (j_msg : JArray) (j_msg_len : Int) (j_pk : JArray)
  | crypto_sign_keypair (j_pk : JArray) (j_sk : JArray)
  | crypto_sign_seed_keypair (j_pk : JArray) (j_sk : JArray) (j_seed : JArray)
  | crypto_sign_ed25519_sk_to_seed (j_seed : JArray) (j_sk : JArray)
  | crypto_sign_ed25519_pk_to_curve25519 (j_curve : JArray) (j_ed : JArray)
  | crypto_sign_ed25519_sk_to_curve25519 (j_curve : JArray) (j_ed : JArray)
  | crypto_sign_ed25519_sk_to_pk (j_sk : JArray) (j_pk : JArray)
  deriving DecidableEq, Repr

/-- Running a wrapper call. -/
def JCall.run (sodium : Lib) (jenv : JNIEnv) : JCall → JNI JValue
  | .sodium_init =>
    JValue.jint <$> Java_org_libsodium_jni_SodiumJNI_sodium_1init sodium jenv
  | .randombytes_random =>
    JValue.jlong <$> Java_org_libsodium_jni_SodiumJNI_randombytes_1random sodium jenv
  | .randombytes_uniform j_upper_bound =>
    JValue.jlong <$> Java_org_libsodium_jni_SodiumJNI_randombytes_1uniform sodium jenv
      j_upper_bound
  | .randombytes_buf j_buf j_size =>
    (fun _ => JValue.void) <$> Java_org_libsodium_jni_SodiumJNI_randombytes_1buf sodium jenv j_buf
      j_size
  | .randombytes_close =>
    JValue.jint <$> Java_org_libsodium_jni_SodiumJNI_randombytes_1close sodium jenv
  | .randombytes_stir =>
    (fun _ => JValue.void) <$> Java_org_libsodium_jni_SodiumJNI_randombytes_1stir sodium jenv
  | .crypto_secretbox_keygen j_key =>
    (fun _ => JValue.void) <$> Java_org_libsodium_jni_SodiumJNI_crypto_1secretbox_1keygen sodium
      jenv j_key
  | .crypto_secretbox_easy j_c j_m j_mlen j_n j_k =>
    JValue.jint <$> Java_org_libsodium_jni_SodiumJNI_crypto_1secretbox_1easy sodium jenv j_c j_m
      j_mlen j_n j_k
  | .crypto_secretbox_open_easy j_m j_c j_clen j_n j_k =>
    JValue.jint <$> Java_org_libsodium_jni_SodiumJNI_crypto_1secretbox_1open_1easy sodium jenv j_m
      j_c j_clen j_n j_k
  | .crypto_auth_keygen j_key =>
    (fun _ => JValue.void) <$> Java_org_libsodium_jni_SodiumJNI_crypto_1auth_1keygen sodium jenv
      j_key
  | .crypto_auth j_out j_in j_inlen j_k =>
    JValue.jint <$> Java_org_libsodium_jni_SodiumJNI_crypto_1auth sodium jenv j_out j_in j_inlen
      j_k
  | .crypto_auth_verify j_h j_in j_inlen j_k =>
    JValue.jint <$> Java_org_libsodium_jni_SodiumJNI_crypto_1auth_1verify sodium jenv j_h j_in
      j_inlen j_k
  | .crypto_box_keypair j_pk j_sk =>
    JValue.jint <$> Java_org_libsodium_jni_SodiumJNI_crypto_1box_1keypair sodium jenv j_pk j_sk
  | .crypto_box_easy j_c j_m j_mlen j_n j_pk j_sk =>
    JValue.jint <$> Java_org_libsodium_jni_SodiumJNI_crypto_1box_1easy sodium jenv j_c j_m j_mlen
      j_n j_pk j_sk
  | .crypto_box_open_easy j_m j_c j_clen j_n j_pk j_sk =>
    JValue.jint <$> Java_org_libsodium_jni_SodiumJNI_crypto_1box_1open_1easy sodium jenv j_m j_c
      j_clen j_n j_pk j_sk
  | .crypto_box_beforenm j_s j_pk j_sk =>
    JValue.jint <$> Java_org_libsodium_jni_SodiumJNI_crypto_1box_1beforenm sodium jenv j_s j_pk
      j_sk
  | .crypto_box_easy_afternm j_c j_m j_mlen j_n j_k =>
    JValue.jint <$> Java_org_libsodium_jni_SodiumJNI_crypto_1box_1easy_1afternm sodium jenv j_c j_m
      j_mlen j_n j_k
  | .crypto_box_open_easy_afternm j_m j_c j_clen j_n j_k =>
    JValue.jint <$> Java_org_libsodium_jni_SodiumJNI_crypto_1box_1open_1easy_1afternm sodium jenv
      j_m j_c j_clen j_n j_k
  | .crypto_box_seal j_c j_m j_mlen j_pk =>
    JValue.jint <$> Java_org_libsodium_jni_SodiumJNI_crypto_1box_1seal sodium jenv j_c j_m j_mlen
      j_pk
  | .crypto_box_seal_open j_m j_c j_clen j_pk j_sk =>
    JValue.jint <$> Java_org_libsodium_jni_SodiumJNI_crypto_1box_1seal_1open sodium jenv j_m j_c
      j_clen j_pk j_sk
  | .crypto_pwhash j_out j_olong j_p j_plen j_salt j_opslimit jmemlimit j_algo =>
    JValue.jint <$> Java_org_libsodium_jni_SodiumJNI_crypto_1pwhash sodium jenv j_out j_olong j_p
      j_plen j_salt j_opslimit jmemlimit j_algo
  | .crypto_scalarmult_base j_q j_n =>
    JValue.jint <$> Java_org_libsodium_jni_SodiumJNI_crypto_1scalarmult_1base sodium jenv j_q j_n
  | .crypto_scalarmult j_q j_n j_p =>
    JValue.jint <$> Java_org_libsodium_jni_SodiumJNI_crypto_1scalarmult sodium jenv j_q j_n j_p
  | .crypto_sign_detached j_sig j_msg j_msg_len j_sk =>
    JValue.jint <$> Java_org_libsodium_jni_SodiumJNI_crypto_1sign_1detached sodium jenv j_sig j_msg
      j_msg_len j_sk
  | .crypto_sign_verify_detached j_sig j_msg j_msg_len j_pk =>
    JValue.jint <$> Java_org_libsodium_jni_SodiumJNI_crypto_1sign_1verify_1detached sodium jenv
      j_sig j_msg j_msg_len j_pk
  | .crypto_sign_keypair j_pk j_sk =>
    JValue.jint <$> Java_org_libsodium_jni_SodiumJNI_crypto_1sign_1keypair sodium jenv j_pk j_sk
  | .crypto_sign_seed_keypair j_pk j_sk j_seed =>
    JValue.jint <$> Java_org_libsodium_jni_SodiumJNI_crypto_1sign_1seed_1keypair sodium jenv j_pk
      j_sk j_seed
  | .crypto_sign_ed25519_sk_to_seed j_seed j_sk =>
    JValue.jint <$> Java_org_libsodium_jni_SodiumJNI_crypto_1sign_1ed25519_1sk_1to_1seed sodium
      jenv j_seed j_sk
  | .crypto_sign_ed25519_pk_to_curve25519 j_curve j_ed =>
    JValue.jint <$> Java_org_libsodium_jni_SodiumJNI_crypto_1sign_1ed25519_1pk_1to_1curve25519
      sodium jenv j_curve j_ed
  | .crypto_sign_ed25519_sk_to_curve25519 j_curve j_ed =>
    JValue.jint <$> Java_org_libsodium_jni_SodiumJNI_crypto_1sign_1ed25519_1sk_1to_1curve25519
      sodium jenv j_curve j_ed
  | .crypto_sign_ed25519_sk_to_pk j_sk j_pk =>
    JValue.jint <$> Java_org_libsodium_jni_SodiumJNI_crypto_1sign_1ed25519_1sk_1to_1pk sodium jenv
      j_sk j_pk

/-- The `jbyteArray` parameters of a wrapper call, in the order of the C signature. -/
def JCall.arrays : JCall → List JArray
  | .sodium_init => []
  | .randombytes_random => []
  | .randombytes_uniform _ => []
  | .randombytes_buf j_buf _ => [j_buf]
  | .randombytes_close => []
  | .randombytes_stir => []
  | .crypto_secretbox_keygen j_key => [j_key]
  | .crypto_secretbox_easy j_c j_m _ j_n j_k => [j_c, j_m, j_n, j_k]
  | .crypto_secretbox_open_easy j_m j_c _ j_n j_k => [j_m, j_c, j_n, j_k]
  | .crypto_auth_keygen j_key => [j_key]
  | .crypto_auth j_out j_in _ j_k => [j_out, j_in, j_k]
  | .crypto_auth_verify j_h j_in _ j_k => [j_h, j_in, j_k]
  | .crypto_box_keypair j_pk j_sk => [j_pk, j_sk]
  | .crypto_box_easy j_c j_m _ j_n j_pk j_sk => [j_c, j_m, j_n, j_pk, j_sk]
  | .crypto_box_open_easy j_m j_c _ j_n j_pk j_sk => [j_m, j_c, j_n, j_pk, j_sk]
  | .crypto_box_beforenm j_s j_pk j_sk => [j_s, j_pk, j_sk]
  | .crypto_box_easy_afternm j_c j_m _ j_n j_k => [j_c, j_m, j_n, j_k]
  | .crypto_box_open_easy_afternm j_m j_c _ j_n j_k => [j_m, j_c, j_n, j_k]
  | .crypto_box_seal j_c j_m _ j_pk => [j_c, j_m, j_pk]
  | .crypto_box_seal_open j_m j_c _ j_pk j_sk => [j_m, j_c, j_pk, j_sk]
  | .crypto_pwhash j_out _ j_p _ j_salt _ _ _ => [j_out, j_p, j_salt]
  | .crypto_scalarmult_base j_q j_n => [j_q, j_n]
  | .crypto_scalarmult j_q j_n j_p => [j_q, j_n, j_p]
  | .crypto_sign_detached j_sig j_msg _ j_sk => [j_sig, j_msg, j_sk]
  | .crypto_sign_verify_detached j_sig j_msg _ j_pk => [j_sig, j_msg, j_pk]
  | .crypto_sign_keypair j_pk j_sk => [j_pk, j_sk]
  | .crypto_sign_seed_keypair j_pk j_sk j_seed => [j_pk, j_sk, j_seed]
  | .crypto_sign_ed25519_sk_to_seed j_seed j_sk => [j_seed, j_sk]
  | .crypto_sign_ed25519_pk_to_curve25519 j_curve j_ed => [j_curve, j_ed]
  | .crypto_sign_ed25519_sk_to_curve25519 j_curve j_ed => [j_curve, j_ed]
  | .crypto_sign_ed25519_sk_to_pk j_sk j_pk => [j_sk, j_pk]

/-- Whether the wrapper is declared `JNIEXPORT jint JNICALL`. -/
def JCall.returnsJint : JCall → Bool
  | .sodium_init => true
  | .randombytes_random => false
  | .randombytes_uniform .. => false
  | .randombytes_buf .. => false
  | .randombytes_close => true
  | .randombytes_stir => false
  | .crypto_secretbox_keygen .. => false
  | .crypto_secretbox_easy .. => true
  | .crypto_secretbox_open_easy .. => true
  | .crypto_auth_keygen .. => false
  | .crypto_auth .. => true
  | .crypto_auth_verify .. => true
  | .crypto_box_keypair .. => true
  | .crypto_box_easy .. => true
  | .crypto_box_open_easy .. => true
  | .crypto_box_beforenm .. => true
  | .crypto_box_easy_afternm .. => true
  | .crypto_box_open_easy_afternm .. => true
  | .crypto_box_seal .. => true
  | .crypto_box_seal_open .. => true
  | .crypto_pwhash .. => true
  | .crypto_scalarmult_base .. => true
  | .crypto_scalarmult .. => true
  | .crypto_sign_detached .. => true
  | .crypto_sign_verify_detached .. => true
  | .crypto_sign_keypair .. => true
  | .crypto_sign_seed_keypair .. => true
  | .crypto_sign_ed25519_sk_to_seed .. => true
  | .crypto_sign_ed25519_pk_to_curve25519 .. => true
  | .crypto_sign_ed25519_sk_to_curve25519 .. => true
  | .crypto_sign_ed25519_sk_to_pk .. => true

/-! ## Reading a trace -/

/-- The pins of a trace, in order: the array and the pointer of each `GetByteArrayElements`. -/
def pinsOf : List Event → List (JArray × Ptr)
  | [] => []
  | .get array elems :: t => (array, elems) :: pinsOf t
  | _ :: t => pinsOf t

/-- The releases of a trace, in order: the array and the pointer of each
`ReleaseByteArrayElements`. -/
def releasesOf : List Event → List (JArray × Ptr)
  | [] => []
  | .release array elems _ :: t => (array, elems) :: releasesOf t
  | _ :: t => releasesOf t

/-- The release modes of a trace, in order. -/
def releaseModesOf : List Event → List Nat
  | [] => []
  | .release _ _ mode :: t => mode :: releaseModesOf t
  | _ :: t => releaseModesOf t

/-- The library calls of a trace, in order, each with the value it returned. -/
def callsOf : List Event → List (LibCall × Int)
  | [] => []
  | .call c ret :: t => (c, ret) :: callsOf t
  | _ :: t => callsOf t

/-- The trace holds releases only. -/
def onlyReleases : List Event → Bool
  | [] => true
  | .release _ _ _ :: t => onlyReleases t
  | _ :: _ => false

/-- The trace is a run of pins, then exactly one library call, then a run of releases. -/
def pinsCallReleases : List Event → Bool
  | .get _ _ :: t => pinsCallReleases t
  | .call _ _ :: t => onlyReleases t
  | _ => false

/-- The events that a wrapper call appends to the trace. -/
def JCall.events (sodium : Lib) (jenv : JNIEnv) (w : JCall) (s : JState) : List Event :=
  ((w.run sodium jenv s).2.trace).drop s.trace.length

/-- The pointers that the environment hands to the next `n` pins, in order. -/
def JNIEnv.nextPins (jenv : JNIEnv) (s : JState) (n : Nat) : List Ptr :=
  (List.range n).map (fun i => jenv.alloc (s.npins + i))

/-! ## What is assumed of libsodium

libsodium is not part of the repository. Its documented behaviour enters as hypotheses on the
parameter `sodium : Lib`: which buffer a call writes, what it returns, and the algebraic law
that relates a pair of calls. The sizes (16-byte authenticator, 24-byte nonce, 32-byte keys,
48-byte seal overhead, 64-byte signature and signing key) are those of `sodium.h`. -/

/-- Writing `out` over the first bytes of a buffer. -/
def overwrite (buf out : List Byte) : List Byte :=
  out ++ buf.drop out.length

/-- Native memory after the library wrote each listed output over the start of its buffer. -/
def writeAll (mem : Ptr → List Byte) : List (Ptr × List Byte) → Ptr → List Byte
  | [] => mem
  | (p, out) :: rest => writeAll (Function.update mem p (overwrite (mem p) out)) rest

/-- The call `c` on the native side `N` returns `r` and writes the listed outputs, nothing
else. -/
def LibWrites (sodium : Lib) (c : LibCall) (N : Native) (r : Int)
    (outs : List (Ptr × List Byte)) : Prop :=
  (sodium c N).2 = r ∧ (sodium c N).1.mem = writeAll N.mem outs

/-- Buffers a library call may be given: pairwise distinct and none `NULL`. -/
def GoodBufs (ps : List Ptr) : Prop :=
  ps.Nodup ∧ NULL ∉ ps

/-- An environment whose pins succeed: every pin returns a buffer of its own, never `NULL`. -/
def GoodEnv (jenv : JNIEnv) : Prop :=
  Function.Injective jenv.alloc ∧ ∀ i, jenv.alloc i ≠ NULL

/-- Contract of `crypto_secretbox_easy` / `crypto_secretbox_open_easy`: `easy` writes the
ciphertext `enc m n k` (16 bytes longer than `m`) to `c`; `open_easy` on a ciphertext made
under the same nonce and key writes the message to `m`; both return `0`. -/
structure SecretboxContract (sodium : Lib)
    (enc : List Byte → List Byte → List Byte → List Byte) : Prop where
  length_enc : ∀ m n k, (enc m n k).length = m.length + 16
  easy : ∀ (N : Native) (c m : Ptr) (mlen : Nat) (n k : Ptr),
    GoodBufs [c, m, n, k] → mlen ≤ (N.mem m).length → (N.mem n).length = 24 →
    (N.mem k).length = 32 → mlen + 16 ≤ (N.mem c).length →
    LibWrites sodium (.crypto_secretbox_easy c m mlen n k) N 0
      [(c, enc ((N.mem m).take mlen) (N.mem n) (N.mem k))]
  open_easy : ∀ (N : Native) (m c : Ptr) (clen : Nat) (n k : Ptr) (msg : List Byte),
    GoodBufs [m, c, n, k] → clen ≤ (N.mem c).length → (N.mem n).length = 24 →
    (N.mem k).length = 32 → (N.mem c).take clen = enc msg (N.mem n) (N.mem k) →
    msg.length ≤ (N.mem m).length →
    LibWrites sodium (.crypto_secretbox_open_easy m c clen n k) N 0 [(m, msg)]

/-- Contract of `crypto_box_keypair`: it writes a key pair (32-byte public key, 32-byte
secret key) and returns `0`. `KeyPair pk sk` says that `pk` is the public key of `sk`. -/
structure BoxKeypairContract (sodium : Lib) (KeyPair : List Byte → List Byte → Prop) :
    Prop where
  length_keys : ∀ pk sk, KeyPair pk sk → pk.length = 32 ∧ sk.length = 32
  keypair : ∀ (N : Native) (pk sk : Ptr),
    GoodBufs [pk, sk] → 32 ≤ (N.mem pk).length → 32 ≤ (N.mem sk).length →
    ∃ pkb skb, KeyPair pkb skb ∧
      LibWrites sodium (.crypto_box_keypair pk sk) N 0 [(pk, pkb), (sk, skb)]

/-- Contract of `crypto_box_easy` / `crypto_box_open_easy`: `easy` writes
`box m n pk sk` (16 bytes longer than `m`) to `c`; `open_easy` with the sender's public key
and the recipient's secret key, on a box made for the recipient's public key with the sender's
secret key, writes the message to `m`; both return `0`. -/
structure BoxContract (sodium : Lib) (KeyPair : List Byte → List Byte → Prop)
    (box : List Byte → List Byte → List Byte → List Byte → List Byte) : Prop where
  length_box : ∀ m n pk sk, (box m n pk sk).length = m.length + 16
  easy : ∀ (N : Native) (c m : Ptr) (mlen : Nat) (n pk sk : Ptr),
    GoodBufs [c, m, n, pk, sk] → mlen ≤ (N.mem m).length → (N.mem n).length = 24 →
    (∃ sk0, KeyPair (N.mem pk) sk0) → (∃ pk0, KeyPair pk0 (N.mem sk)) →
    mlen + 16 ≤ (N.mem c).length →
    LibWrites sodium (.crypto_box_easy c m mlen n pk sk) N 0
      [(c, box ((N.mem m).take mlen) (N.mem n) (N.mem pk) (N.mem sk))]
  open_easy : ∀ (N : Native) (m c : Ptr) (clen : Nat) (n pk sk : Ptr)
    (msg skSender pkRecipient : List Byte),
    GoodBufs [m, c, n, pk, sk] → clen ≤ (N.mem c).length → (N.mem n).length = 24 →
    KeyPair (N.mem pk) skSender → KeyPair pkRecipient (N.mem sk) →
    (N.mem c).take clen = box msg (N.mem n) pkRecipient skSender →
    msg.length ≤ (N.mem m).length →
    LibWrites sodium (.crypto_box_open_easy m c clen n pk sk) N 0 [(m, msg)]

/-- Contract of `crypto_box_beforenm` and the `_afternm` pair: `beforenm` writes the 32-byte
shared key to `k`; `easy_afternm` writes `afternm m n k` to `c`; `open_easy_afternm` on a
ciphertext made under the same nonce and shared key writes the message to `m`; all return
`0`. The box is the `afternm` encryption under the shared key, and the two parties compute
the same shared key. -/
structure AfternmContract (sodium : Lib) (KeyPair : List Byte → List Byte → Prop)
    (box : List Byte → List Byte → List Byte → List Byte → List Byte)
    (shared : List Byte → List Byte → List Byte)
    (afternm : List Byte → List Byte → List Byte → List Byte) : Prop where
  length_shared : ∀ pk sk, (shared pk sk).length = 32
  length_afternm : ∀ m n k, (afternm m n k).length = m.length + 16
  box_eq : ∀ m n pk sk, box m n pk sk = afternm m n (shared pk sk)
  shared_comm : ∀ pkA skA pkB skB, KeyPair pkA skA → KeyPair pkB skB →
    shared pkB skA = shared pkA skB
  beforenm : ∀ (N : Native) (k pk sk : Ptr),
    GoodBufs [k, pk, sk] → (∃ sk0, KeyPair (N.mem pk) sk0) →
    (∃ pk0, KeyPair pk0 (N.mem sk)) → 32 ≤ (N.mem k).length →
    LibWrites sodium (.crypto_box_beforenm k pk sk) N 0 [(k, shared (N.mem pk) (N.mem sk))]
  easy_afternm : ∀ (N : Native) (c m : Ptr) (mlen : Nat) (n k : Ptr),
    GoodBufs [c, m, n, k] → mlen ≤ (N.mem m).length → (N.mem n).length = 24 →
    (N.mem k).length = 32 → mlen + 16 ≤ (N.mem c).length →
    LibWrites sodium (.crypto_box_easy_afternm c m mlen n k) N 0
      [(c, afternm ((N.mem m).take mlen) (N.mem n) (N.mem k))]
  open_easy_afternm : ∀ (N : Native) (m c : Ptr) (clen : Nat) (n k : Ptr) (msg : List Byte),
    GoodBufs [m, c, n, k] → clen ≤ (N.mem c).length → (N.mem n).length = 24 →
    (N.mem k).length = 32 → (N.mem c).take clen = afternm msg (N.mem n) (N.mem k) →
    msg.length ≤ (N.mem m).length →
    LibWrites sodium (.crypto_box_open_easy_afternm m c clen n k) N 0 [(m, msg)]

/-- Contract of `crypto_box_seal` / `crypto_box_seal_open`: `seal` writes a sealed box of
the message for `pk` (48 bytes longer than the message) to `c`; `seal_open` with the key pair
of `pk` writes the message to `m`; both return `0`. `Sealed ct m pk` says that `ct` is a
sealed box of `m` for `pk` (sealing is randomised). -/
structure SealContract (sodium : Lib) (KeyPair : List Byte → List Byte → Prop)
    (Sealed : List Byte → List Byte → List Byte → Prop) : Prop where
  box_seal : ∀ (N : Native) (c m : Ptr) (mlen : Nat) (pk : Ptr),
    GoodBufs [c, m, pk] → mlen ≤ (N.mem m).length → (∃ sk0, KeyPair (N.mem pk) sk0) →
    mlen + 48 ≤ (N.mem c).length →
    ∃ ct, Sealed ct ((N.mem m).take mlen) (N.mem pk) ∧ ct.length = mlen + 48 ∧
      LibWrites sodium (.crypto_box_seal c m mlen pk) N 0 [(c, ct)]
  box_seal_open : ∀ (N : Native) (m c : Ptr) (clen : Nat) (pk sk : Ptr) (msg : List Byte),
    GoodBufs [m, c, pk, sk] → clen ≤ (N.mem c).length → KeyPair (N.mem pk) (N.mem sk) →
    Sealed ((N.mem c).take clen) msg (N.mem pk) → msg.length ≤ (N.mem m).length →
    LibWrites sodium (.crypto_box_seal_open m c clen pk sk) N 0 [(m, msg)]

/-- Contract of `crypto_sign_keypair`, `crypto_sign_detached` and
`crypto_sign_verify_detached`: `keypair` writes a key pair (32-byte public key, 64-byte
secret key); `detached`, called with `siglen_p = NULL`, writes the 64-byte signature
`sign m sk` to `sig`; `verify_detached` accepts a signature made with the secret key of `pk`
over the same message and writes nothing; all return `0`. -/
structure SignContract (sodium : Lib) (KeyPair : List Byte → List Byte → Prop)
    (sign : List Byte → List Byte → List Byte) : Prop where
  length_keys : ∀ pk sk, KeyPair pk sk → pk.length = 32 ∧ sk.length = 64
  length_sign : ∀ m sk, (sign m sk).length = 64
  keypair : ∀ (N : Native) (pk sk : Ptr),
    GoodBufs [pk, sk] → 32 ≤ (N.mem pk).length → 64 ≤ (N.mem sk).length →
    ∃ pkb skb, KeyPair pkb skb ∧
      LibWrites sodium (.crypto_sign_keypair pk sk) N 0 [(pk, pkb), (sk, skb)]
  detached : ∀ (N : Native) (sig m : Ptr) (mlen : Nat) (sk : Ptr),
    GoodBufs [sig, m, sk] → mlen ≤ (N.mem m).length → (∃ pk0, KeyPair pk0 (N.mem sk)) →
    64 ≤ (N.mem sig).length →
    LibWrites sodium (.crypto_sign_detached sig NULL m mlen sk) N 0
      [(sig, sign ((N.mem m).take mlen) (N.mem sk))]
  verify_detached : ∀ (N : Native) (sig m : Ptr) (mlen : Nat) (pk : Ptr) (sk : List Byte),
    GoodBufs [sig, m, pk] → mlen ≤ (N.mem m).length → KeyPair (N.mem pk) sk →
    (N.mem sig).take 64 = sign ((N.mem m).take mlen) sk →
    LibWrites sodium (.crypto_sign_verify_detached sig m mlen pk) N 0 []

/-- Contract of `randombytes_uniform`: for a 32-bit bound `b`, a value in `[0, b)` when
`b ≥ 2`, and `0` when `b < 2`. -/
def UniformContract (sodium : Lib) : Prop :=
  ∀ (N : Native) (b : Nat), b < 2 ^ 32 →
    (2 ≤ b → 0 ≤ (sodium (.randombytes_uniform b) N).2 ∧
      (sodium (.randombytes_uniform b) N).2 < b) ∧
    (b < 2 → (sodium (.randombytes_uniform b) N).2 = 0)

/-! ## Java-side scenarios

Sequences of wrapper calls as a Java caller makes them; each returns the return codes of its
calls, in order. -/

/-- Two key pairs from `crypto_box_keypair`, then `crypto_box_easy` from A to B and
`crypto_box_open_easy` by B. -/
def boxRoundTrip (sodium : Lib) (jenv : JNIEnv) (j_pkA j_skA j_pkB j_skB j_c j_m : JArray)
    (mlen : Nat) (j_n j_m2 : JArray) : JNI (List Int) := do
  let r1 ← Java_org_libsodium_jni_SodiumJNI_crypto_1box_1keypair sodium jenv j_pkA j_skA
  let r2 ← Java_org_libsodium_jni_SodiumJNI_crypto_1box_1keypair sodium jenv j_pkB j_skB
  let r3 ← Java_org_libsodium_jni_SodiumJNI_crypto_1box_1easy sodium jenv
    j_c j_m mlen j_n j_pkB j_skA
  let r4 ← Java_org_libsodium_jni_SodiumJNI_crypto_1box_1open_1easy sodium jenv
    j_m2 j_c (mlen + 16 : Nat) j_n j_pkA j_skB
  return [r1, r2, r3, r4]

/-- A key pair from `crypto_sign_keypair`, then `crypto_sign_detached` and
`crypto_sign_verify_detached` on the same message and length. -/
def signRoundTrip (sodium : Lib) (jenv : JNIEnv) (j_pk j_sk j_sig j_msg : JArray)
    (len : Nat) : JNI (List Int) := do
  let r1 ← Java_org_libsodium_jni_SodiumJNI_crypto_1sign_1keypair sodium jenv j_pk j_sk
  let r2 ← Java_org_libsodium_jni_SodiumJNI_crypto_1sign_1detached sodium jenv
    j_sig j_msg len j_sk
  let r3 ← Java_org_libsodium_jni_SodiumJNI_crypto_1sign_1verify_1detached sodium jenv
    j_sig j_msg len j_pk
  return [r1, r2, r3]

/-- A key pair from `crypto_box_keypair`, then `crypto_box_seal` and
`crypto_box_seal_open`. -/
def sealRoundTrip (sodium : Lib) (jenv : JNIEnv) (j_pk j_sk j_c j_m : JArray) (mlen : Nat)
    (j_m2 : JArray) : JNI (List Int) := do
  let r1 ← Java_org_libsodium_jni_SodiumJNI_crypto_1box_1keypair sodium jenv j_pk j_sk
  let r2 ← Java_org_libsodium_jni_SodiumJNI_crypto_1box_1seal sodium jenv j_c j_m mlen j_pk
  let r3 ← Java_org_libsodium_jni_SodiumJNI_crypto_1box_1seal_1open sodium jenv
    j_m2 j_c (mlen + 48 : Nat) j_pk j_sk
  return [r1, r2, r3]

/-- A's shared key from `crypto_box_beforenm(s, pkB, skA)`, `crypto_box_easy_afternm` into
`j_c`, `crypto_box_easy` of the same message into `j_c2`, B's shared key from
`crypto_box_beforenm(s2, pkA, skB)`, and `crypto_box_open_easy_afternm` of `j_c` by B. -/
def afternmScenario (sodium : Lib) (jenv : JNIEnv)
    (j_s j_s2 j_pkA j_skA j_pkB j_skB j_c j_c2 j_m : JArray) (mlen : Nat)
    (j_n j_m2 : JArray) : JNI (List Int) := do
  let r1 ← Java_org_libsodium_jni_SodiumJNI_crypto_1box_1beforenm sodium jenv j_s j_pkB j_skA
  let r2 ← Java_org_libsodium_jni_SodiumJNI_crypto_1box_1easy_1afternm sodium jenv
    j_c j_m mlen j_n j_s
  let r3 ← Java_org_libsodium_jni_SodiumJNI_crypto_1box_1easy sodium jenv
    j_c2 j_m mlen j_n j_pkB j_skA
  let r4 ← Java_org_libsodium_jni_SodiumJNI_crypto_1box_1beforenm sodium jenv j_s2 j_pkA j_skB
  let r5 ← Java_org_libsodium_jni_SodiumJNI_crypto_1box_1open_1easy_1afternm sodium jenv
    j_m2 j_c (mlen + 16 : Nat) j_n j_s2
  return [r1, r2, r3, r4, r5]

/-! ## A stand-in library and a sample process

A small library that meets the contracts above: the "cipher" prepends a constant
authenticator, keys and signatures are constant bytes. It only serves to run the wrappers on
concrete inputs. -/

/-- The native side after writing `out` over the start of the buffer behind `p`. -/
def Native.write (N : Native) (p : Ptr) (out : List Byte) : Native :=
  { N with mem := Function.update N.mem p (overwrite (N.mem p) out) }

/-- Stand-in authenticator or key material: `n` bytes of value `b`. -/
def toyBytes (n : Nat) (b : Byte) : List Byte := List.replicate n b

/-- Stand-in secretbox: 16 authenticator bytes, then the message. -/
def toyEnc (m _n _k : List Byte) : List Byte := toyBytes 16 0 ++ m

/-- Stand-in box: 16 authenticator bytes, then the message. -/
def toyBox (m _n _pk _sk : List Byte) : List Byte := toyBytes 16 0 ++ m

/-- Stand-in shared key. -/
def toyShared (_pk _sk : List Byte) : List Byte := toyBytes 32 5

/-- Stand-in signature. -/
def toySign (_m _sk : List Byte) : List Byte := toyBytes 64 3

/-- Stand-in box key pairs: any 32-byte public key with any 32-byte secret key. -/
def ToyBoxKeyPair (pk sk : List Byte) : Prop := pk.length = 32 ∧ sk.length = 32

/-- Stand-in signing key pairs: any 32-byte public key with any 64-byte secret key. -/
def ToySignKeyPair (pk sk : List Byte) : Prop := pk.length = 32 ∧ sk.length = 64

/-- Stand-in sealed boxes: 48 bytes of overhead, then the message. -/
def ToySealed (ct m _pk : List Byte) : Prop := ct = toyBytes 48 0 ++ m

/-- The stand-in library. An opening call checks the authenticator and returns `-1` when it
is wrong; the calls that are not listed do nothing and return `0`. -/
def toySodium : Lib := fun call N =>
  match call with
  | .sodium_init => (N, if N.rng = 0 then 0 else 1)
  | .randombytes_uniform b => ({ N with rng := N.rng + 1 }, if b < 2 then 0 else (N.rng % b : Nat))
  | .crypto_secretbox_easy c m mlen _ _ => (N.write c (toyBytes 16 0 ++ (N.mem m).take mlen), 0)
  | .crypto_secretbox_open_easy m c clen _ _ =>
    if ((N.mem c).take clen).take 16 = toyBytes 16 0 then
      (N.write m (((N.mem c).take clen).drop 16), 0)
    else (N, -1)
  | .crypto_box_keypair pk sk =>
    (({ N with rng := N.rng + 1 }.write pk (toyBytes 32 1)).write sk (toyBytes 32 2), 0)
  | .crypto_box_easy c m mlen _ _ _ => (N.write c (toyBytes 16 0 ++ (N.mem m).take mlen), 0)
  | .crypto_box_open_easy m c clen _ _ _ =>
    if ((N.mem c).take clen).take 16 = toyBytes 16 0 then
      (N.write m (((N.mem c).take clen).drop 16), 0)
    else (N, -1)
  | .crypto_box_beforenm k _ _ => (N.write k (toyBytes 32 5), 0)
  | .crypto_box_easy_afternm c m mlen _ _ =>
    (N.write c (toyBytes 16 0 ++ (N.mem m).take mlen), 0)
  | .crypto_box_open_easy_afternm m c clen _ _ =>
    if ((N.mem c).take clen).take 16 = toyBytes 16 0 then
      (N.write m (((N.mem c).take clen).drop 16), 0)
    else (N, -1)
  | .crypto_box_seal c m mlen _ => (N.write c (toyBytes 48 0 ++ (N.mem m).take mlen), 0)
  | .crypto_box_seal_open m c clen _ _ =>
    if ((N.mem c).take clen).take 48 = toyBytes 48 0 then
      (N.write m (((N.mem c).take clen).drop 48), 0)
    else (N, -1)
  | .crypto_sign_keypair pk sk =>
    (({ N with rng := N.rng + 1 }.write pk (toyBytes 32 1)).write sk (toyBytes 64 2), 0)
  | .crypto_sign_detached sig _ _ _ _ => (N.write sig (toyBytes 64 3), 0)
  | .crypto_sign_verify_detached sig _ _ _ =>
    (N, if (N.mem sig).take 64 = toyBytes 64 3 then 0 else -1)
  | _ => (N, 0)

/-- A sample environment whose `i`-th pin returns the pointer `i + 1`. -/
def sampleEnv : JNIEnv := ⟨fun i => i + 1⟩

/-- An environment in which every pin fails. -/
def failingEnv : JNIEnv := ⟨fun _ => NULL⟩

/-- A sample Java heap: array 1 holds a 3-byte message, array 2 a 24-byte nonce, arrays 3 to
6, 8 and 9 hold 32 bytes each, array 7 holds 64 bytes, arrays 10 and 13 are buffers of 19
bytes, array 11 of 51 bytes, array 12 of 64 bytes, and every other array is a 3-byte
buffer. -/
def sampleHeap : JArray → List Byte := fun a =>
  if a = 1 then [104, 105, 33]
  else if a = 2 then toyBytes 24 7
  else if a = 3 ∨ a = 4 ∨ a = 5 ∨ a = 6 ∨ a = 8 ∨ a = 9 then toyBytes 32 9
  else if a = 7 then toyBytes 64 9
  else if a = 10 ∨ a = 13 then toyBytes 19 0
  else if a = 11 then toyBytes 51 0
  else if a = 12 then toyBytes 64 0
  else [0, 0, 0]

/-- A sample process state: the sample heap, empty native buffers, no pin and no event yet. -/
def sampleState : JState := ⟨sampleHeap, ⟨fun _ => [], 0⟩, 0, []⟩

/-! ## The two forwarding surfaces -/

/-- An exported function of `sodium-jni.c`: its symbol, and whether its body is only
`return (jint) CONSTANT;` for a constant of `sodium.h`. -/
structure JniExport where
  symbol : String
  constantOnly : Bool
  deriving DecidableEq, Repr

/-- The exported functions of `sodium-jni.c`, in the order of the file. -/
def jniExports : List JniExport :=
  [⟨"Java_org_libsodium_jni_SodiumJNI_sodium_1init", false⟩,
   ⟨"Java_org_libsodium_jni_SodiumJNI_sodium_1version_1string", false⟩,
   ⟨"Java_org_libsodium_jni_SodiumJNI_randombytes_1random", false⟩,
   ⟨"Java_org_libsodium_jni_SodiumJNI_randombytes_1uniform", false⟩,
   ⟨"Java_org_libsodium_jni_SodiumJNI_randombytes_1buf", false⟩,
   ⟨"Java_org_libsodium_jni_SodiumJNI_randombytes_1close", false⟩,
   ⟨"Java_org_libsodium_jni_SodiumJNI_randombytes_1stir", false⟩,
   ⟨"Java_org_libsodium_jni_SodiumJNI_crypto_1secretbox_1keybytes", true⟩,
   ⟨"Java_org_libsodium_jni_SodiumJNI_crypto_1secretbox_1noncebytes", true⟩,
   ⟨"Java_org_libsodium_jni_SodiumJNI_crypto_1secretbox_1macbytes", true⟩,
   ⟨"Java_org_libsodium_jni_SodiumJNI_crypto_1secretbox_1keygen", false⟩,
   ⟨"Java_org_libsodium_jni_SodiumJNI_crypto_1secretbox_1easy", false⟩,
   ⟨"Java_org_libsodium_jni_SodiumJNI_crypto_1secretbox_1open_1easy", false⟩,
   ⟨"Java_org_libsodium_jni_SodiumJNI_crypto_1auth_1bytes", true⟩,
   ⟨"Java_org_libsodium_jni_SodiumJNI_crypto_1auth_1keybytes", true⟩,
   ⟨"Java_org_libsodium_jni_SodiumJNI_crypto_1auth_1keygen", false⟩,
   ⟨"Java_org_libsodium_jni_SodiumJNI_crypto_1auth", false⟩,
   ⟨"Java_org_libsodium_jni_SodiumJNI_crypto_1auth_1verify", false⟩,
   ⟨"Java_org_libsodium_jni_SodiumJNI_crypto_1box_1publickeybytes", true⟩,
   ⟨"Java_org_libsodium_jni_SodiumJNI_crypto_1box_1secretkeybytes", true⟩,
   ⟨"Java_org_libsodium_jni_SodiumJNI_crypto_1box_1beforenmbytes", true⟩,
   ⟨"Java_org_libsodium_jni_SodiumJNI_crypto_1box_1seedbytes", true⟩,
   ⟨"Java_org_libsodium_jni_SodiumJNI_crypto_1box_1noncebytes", true⟩,
   ⟨"Java_org_libsodium_jni_SodiumJNI_crypto_1box_1macbytes", true⟩,
   ⟨"Java_org_libsodium_jni_SodiumJNI_crypto_1box_1zerobytes", true⟩,
   ⟨"Java_org_libsodium_jni_SodiumJNI_crypto_1box_1boxzerobytes", true⟩,
   ⟨"Java_org_libsodium_jni_SodiumJNI_crypto_1box_1sealbytes", true⟩,
   ⟨"Java_org_libsodium_jni_SodiumJNI_crypto_1box_1keypair", false⟩,
   ⟨"Java_org_libsodium_jni_SodiumJNI_crypto_1box_1easy", false⟩,
   ⟨"Java_org_libsodium_jni_SodiumJNI_crypto_1box_1open_1easy", false⟩,
   ⟨"Java_org_libsodium_jni_SodiumJNI_crypto_1box_1beforenm", false⟩,
   ⟨"Java_org_libsodium_jni_SodiumJNI_crypto_1box_1easy_1afternm", false⟩,
   ⟨"Java_org_libsodium_jni_SodiumJNI_crypto_1box_1open_1easy_1afternm", false⟩,
   ⟨"Java_org_libsodium_jni_SodiumJNI_crypto_1box_1seal", false⟩,
   ⟨"Java_org_libsodium_jni_SodiumJNI_crypto_1box_1seal_1open", false⟩,
   ⟨"Java_org_libsodium_jni_SodiumJNI_crypto_1pwhash", false⟩,
   ⟨"Java_org_libsodium_jni_SodiumJNI_crypto_1pwhash_1salt_1bytes", true⟩,
   ⟨"Java_org_libsodium_jni_SodiumJNI_crypto_1pwhash_1opslimit_1moderate", true⟩,
   ⟨"Java_org_libsodium_jni_SodiumJNI_crypto_1pwhash_1opslimit_1min", true⟩,
   ⟨"Java_org_libsodium_jni_SodiumJNI_crypto_1pwhash_1opslimit_1max", true⟩,
   ⟨"Java_org_libsodium_jni_SodiumJNI_crypto_1pwhash_1memlimit_1moderate", true⟩,
   ⟨"Java_org_libsodium_jni_SodiumJNI_crypto_1pwhash_1memlimit_1min", true⟩,
   ⟨"Java_org_libsodium_jni_SodiumJNI_crypto_1pwhash_1memlimit_1max", true⟩,
   ⟨"Java_org_libsodium_jni_SodiumJNI_crypto_1pwhash_1algo_1default", true⟩,
   ⟨"Java_org_libsodium_jni_SodiumJNI_crypto_1pwhash_1algo_1argon2i13", true⟩,
   ⟨"Java_org_libsodium_jni_SodiumJNI_crypto_1pwhash_1algo_1argon2id13", true⟩,
   ⟨"Java_org_libsodium_jni_SodiumJNI_crypto_1scalarmult_1bytes", true⟩,
   ⟨"Java_org_libsodium_jni_SodiumJNI_crypto_1scalarmult_1scalarbytes", true⟩,
   ⟨"Java_org_libsodium_jni_SodiumJNI_crypto_1scalarmult_1base", false⟩,
   ⟨"Java_org_libsodium_jni_SodiumJNI_crypto_1scalarmult", false⟩,
   ⟨"Java_org_libsodium_jni_SodiumJNI_crypto_1sign_1secretkeybytes", true⟩,
   ⟨"Java_org_libsodium_jni_SodiumJNI_crypto_1sign_1publickeybytes", true⟩,
   ⟨"Java_org_libsodium_jni_SodiumJNI_crypto_1sign_1seedbytes", true⟩,
   ⟨"Java_org_libsodium_jni_SodiumJNI_crypto_1sign_1bytes", true⟩,
   ⟨"Java_org_libsodium_jni_SodiumJNI_crypto_1sign_1detached", false⟩,
   ⟨"Java_org_libsodium_jni_SodiumJNI_crypto_1sign_1verify_1detached", false⟩,
   ⟨"Java_org_libsodium_jni_SodiumJNI_crypto_1sign_1keypair", false⟩,
   ⟨"Java_org_libsodium_jni_SodiumJNI_crypto_1sign_1seed_1keypair", false⟩,
   ⟨"Java_org_libsodium_jni_SodiumJNI_crypto_1sign_1ed25519_1sk_1to_1seed", false⟩,
   ⟨"Java_org_libsodium_jni_SodiumJNI_crypto_1sign_1ed25519_1pk_1to_1curve25519", false⟩,
   ⟨"Java_org_libsodium_jni_SodiumJNI_crypto_1sign_1ed25519_1sk_1to_1curve25519", false⟩,
   ⟨"Java_org_libsodium_jni_SodiumJNI_crypto_1sign_1ed25519_1sk_1to_1pk", false⟩]

/-- The prefix of every JNI symbol of the class `org.libsodium.jni.SodiumJNI`. -/
def jniPrefix : String := "Java_org_libsodium_jni_SodiumJNI_"

/-- JNI name mangling read backwards: `_1` stands for `_`. -/
def demangleChars : List Char → List Char
  | '_' :: '1' :: rest => '_' :: demangleChars rest
  | c :: rest => c :: demangleChars rest
  | [] => []

/-- The method name behind a JNI symbol: the part after the class prefix, demangled. -/
def operationName (symbol : String) : String :=
  String.mk (demangleChars (symbol.data.drop jniPrefix.length))

/-- The operations forwarded by the JNI shim: the exports other than the constant
accessors. -/
def jniOperations : List String :=
  (jniExports.filter (fun e => !e.constantOnly)).map (fun e => operationName e.symbol)

/-- The methods declared by `@interface RCTSodium` in `RCTSodium.h`, in the order of the
file. -/
def rctSodiumMethods : List String :=
  ["sodium_version_string",
   "randombytes_random",
   "randombytes_uniform",
   "randombytes_buf",
   "randombytes_close",
   "randombytes_stir",
   "crypto_secretbox_keygen",
   "crypto_secretbox_easy",
   "crypto_secretbox_open_easy",
   "crypto_auth_keygen",
   "crypto_auth",
   "crypto_auth_verify",
   "crypto_box_keypair",
   "crypto_box_beforenm",
   "crypto_box_easy",
   "crypto_box_easy_afternm",
   "crypto_box_open_easy",
   "crypto_box_open_easy_afternm",
   "crypto_pwhash",
   "crypto_scalarmult_base",
   "crypto_scalarmult",
   "crypto_sign_keypair",
   "crypto_sign_ed25519_sk_to_pk",
   "crypto_box_seal",
   "crypto_box_seal_open",
   "crypto_aead_xchacha20poly1305_ietf_keygen",
   "crypto_aead_xchacha20poly1305_ietf_encrypt",
   "crypto_aead_xchacha20poly1305_ietf_decrypt"]

/-! ## The password-hashing limit accessors

The six wrappers `crypto_pwhash_opslimit_*` / `crypto_pwhash_memlimit_*` return
`(jint) CONSTANT` for a constant of `sodium.h`. -/

/-- A build target of the shim: its `size_t` has 32 or 64 bits. -/
inductive Target where
  | bits32
  | bits64
  deriving DecidableEq, Repr

/-- Modelled from the spec: the constant `crypto_pwhash_OPSLIMIT_MIN` of `sodium.h`, which
is not in the repository; the specification gives its value as 1. -/
def crypto_pwhash_OPSLIMIT_MIN : Nat := 1

/-- Modelled from the spec: the constant `crypto_pwhash_OPSLIMIT_MODERATE` of `sodium.h`,
which is not in the repository; the specification gives its value as 3. -/
def crypto_pwhash_OPSLIMIT_MODERATE : Nat := 3

/-- Modelled from the spec: the constant `crypto_pwhash_OPSLIMIT_MAX` of `sodium.h`, which
is not in the repository; the specification gives its value as 4294967295. -/
def crypto_pwhash_OPSLIMIT_MAX : Nat := 4294967295

/-- Modelled from the spec: the constant `crypto_pwhash_MEMLIMIT_MIN` of `sodium.h`, which
is not in the repository; the specification gives its value as 8192. -/
def crypto_pwhash_MEMLIMIT_MIN : Nat := 8192

/-- Modelled from the spec: the constant `crypto_pwhash_MEMLIMIT_MODERATE` of `sodium.h`,
which is not in the repository; the specification gives its value as 268435456. -/
def crypto_pwhash_MEMLIMIT_MODERATE : Nat := 268435456

/-- Modelled from the spec: the constant `crypto_pwhash_MEMLIMIT_MAX` of `sodium.h`, which
is not in the repository; the specification gives its value as 4398046510080 on a 64-bit
target and 2147483648 on a 32-bit target. -/
def crypto_pwhash_MEMLIMIT_MAX : Target → Nat
  | .bits64 => 4398046510080
  | .bits32 => 2147483648

/-- The JNI wrapper `crypto_1pwhash_1opslimit_1moderate` of `sodium-jni.c`. -/
def Java_org_libsodium_jni_SodiumJNI_crypto_1pwhash_1opslimit_1moderate (_jenv : JNIEnv) :
    Int :=
  toJint crypto_pwhash_OPSLIMIT_MODERATE

/-- The JNI wrapper `crypto_1pwhash_1opslimit_1min` of `sodium-jni.c`. -/
def Java_org_libsodium_jni_SodiumJNI_crypto_1pwhash_1opslimit_1min (_jenv : JNIEnv) : Int :=
  toJint crypto_pwhash_OPSLIMIT_MIN

/-- The JNI wrapper `crypto_1pwhash_1opslimit_1max` of `sodium-jni.c`. -/
def Java_org_libsodium_jni_SodiumJNI_crypto_1pwhash_1opslimit_1max (_jenv : JNIEnv) : Int :=
  toJint crypto_pwhash_OPSLIMIT_MAX

/-- The JNI wrapper `crypto_1pwhash_1memlimit_1moderate` of `sodium-jni.c`. -/
def Java_org_libsodium_jni_SodiumJNI_crypto_1pwhash_1memlimit_1moderate (_jenv : JNIEnv) :
    Int :=
  toJint crypto_pwhash_MEMLIMIT_MODERATE

/-- The JNI wrapper `crypto_1pwhash_1memlimit_1min` of `sodium-jni.c`. -/
def Java_org_libsodium_jni_SodiumJNI_crypto_1pwhash_1memlimit_1min (_jenv : JNIEnv) : Int :=
  toJint crypto_pwhash_MEMLIMIT_MIN

/-- The JNI wrapper `crypto_1pwhash_1memlimit_1max` of `sodium-jni.c`, built for `target`. -/
def Java_org_libsodium_jni_SodiumJNI_crypto_1pwhash_1memlimit_1max (target : Target)
    (_jenv : JNIEnv) : Int :=
  toJint (crypto_pwhash_MEMLIMIT_MAX target)

/-! ## Lengths, limits and output buffers -/

/-- The `unsigned long long` length and limit arguments of a library call, in the order of
the call. -/
def LibCall.lengths : LibCall → List Nat
  | .randombytes_buf _ size => [size]
  | .crypto_secretbox_easy _ _ mlen _ _ => [mlen]
  | .crypto_secretbox_open_easy _ _ clen _ _ => [clen]
  | .crypto_auth _ _ inlen _ => [inlen]
  | .crypto_auth_verify _ _ inlen _ => [inlen]
  | .crypto_box_easy _ _ mlen _ _ _ => [mlen]
  | .crypto_box_open_easy _ _ clen _ _ _ => [clen]
  | .crypto_box_easy_afternm _ _ mlen _ _ => [mlen]
  | .crypto_box_open_easy_afternm _ _ clen _ _ => [clen]
  | .crypto_box_seal _ _ mlen _ => [mlen]
  | .crypto_box_seal_open _ _ clen _ _ => [clen]
  | .crypto_pwhash _ outlen _ passwdlen _ opslimit memlimit _ =>
    [outlen, passwdlen, opslimit, memlimit]
  | .crypto_sign_detached _ _ _ mlen _ => [mlen]
  | .crypto_sign_verify_detached _ _ mlen _ => [mlen]
  | _ => []

/-- The Java length and limit parameters of a wrapper call (`jlong`, and `jint` for
`randombytes_buf` and `crypto_sign_detached`), in the order of the C signature. -/
def JCall.lengths : JCall → List Int
  | .sodium_init => []
  | .randombytes_random => []
  | .randombytes_uniform _ => []
  | .randombytes_buf _ j_size => [j_size]
  | .randombytes_close => []
  | .randombytes_stir => []
  | .crypto_secretbox_keygen _ => []
  | .crypto_secretbox_easy _ _ j_mlen _ _ => [j_mlen]
  | .crypto_secretbox_open_easy _ _ j_clen _ _ => [j_clen]
  | .crypto_auth_keygen _ => []
  | .crypto_auth _ _ j_inlen _ => [j_inlen]
  | .crypto_auth_verify _ _ j_inlen _ => [j_inlen]
  | .crypto_box_keypair _ _ => []
  | .crypto_box_easy _ _ j_mlen _ _ _ => [j_mlen]
  | .crypto_box_open_easy _ _ j_clen _ _ _ => [j_clen]
  | .crypto_box_beforenm _ _ _ => []
  | .crypto_box_easy_afternm _ _ j_mlen _ _ => [j_mlen]
  | .crypto_box_open_easy_afternm _ _ j_clen _ _ => [j_clen]
  | .crypto_box_seal _ _ j_mlen _ => [j_mlen]
  | .crypto_box_seal_open _ _ j_clen _ _ => [j_clen]
  | .crypto_pwhash _ j_olong _ j_plen _ j_opslimit jmemlimit _ =>
    [j_olong, j_plen, j_opslimit, jmemlimit]
  | .crypto_scalarmult_base _ _ => []
  | .crypto_scalarmult _ _ _ => []
  | .crypto_sign_detached _ _ j_msg_len _ => [j_msg_len]
  | .crypto_sign_verify_detached _ _ j_msg_len _ => [j_msg_len]
  | .crypto_sign_keypair _ _ => []
  | .crypto_sign_seed_keypair _ _ _ => []
  | .crypto_sign_ed25519_sk_to_seed _ _ => []
  | .crypto_sign_ed25519_pk_to_curve25519 _ _ => []
  | .crypto_sign_ed25519_sk_to_curve25519 _ _ => []
  | .crypto_sign_ed25519_sk_to_pk _ _ => []

/-- Modelled from the spec: the buffers a libsodium function writes, which `sodium.h` (not in
the repository) declares without `const`; the specification calls them the output buffers:
`c`, `m`, `out`, `q`, the shared key, `sig` (and `siglen_p`), `pk`/`sk` of the key generators,
`seed`, `curve`, the generated key or random buffer. -/
def LibCall.outputs : LibCall → List Ptr
  | .randombytes_buf buf _ => [buf]
  | .crypto_secretbox_keygen k => [k]
  | .crypto_secretbox_easy c _ _ _ _ => [c]
  | .crypto_secretbox_open_easy m _ _ _ _ => [m]
  | .crypto_auth_keygen k => [k]
  | .crypto_auth out _ _ _ => [out]
  | .crypto_box_keypair pk sk => [pk, sk]
  | .crypto_box_easy c _ _ _ _ _ => [c]
  | .crypto_box_open_easy m _ _ _ _ _ => [m]
  | .crypto_box_beforenm k _ _ => [k]
  | .crypto_box_easy_afternm c _ _ _ _ => [c]
  | .crypto_box_open_easy_afternm m _ _ _ _ => [m]
  | .crypto_box_seal c _ _ _ => [c]
  | .crypto_box_seal_open m _ _ _ _ => [m]
  | .crypto_pwhash out _ _ _ _ _ _ _ => [out]
  | .crypto_scalarmult_base q _ => [q]
  | .crypto_scalarmult q _ _ => [q]
  | .crypto_sign_detached sig siglen_p _ _ _ => [sig, siglen_p]
  | .crypto_sign_keypair pk sk => [pk, sk]
  | .crypto_sign_seed_keypair pk sk _ => [pk, sk]
  | .crypto_sign_ed25519_sk_to_seed seed _ => [seed]
  | .crypto_sign_ed25519_pk_to_curve25519 curve _ => [curve]
  | .crypto_sign_ed25519_sk_to_curve25519 curve _ => [curve]
  | .crypto_sign_ed25519_sk_to_pk pk _ => [pk]
  | _ => []

/-- The library writes only to its output buffers, whatever it returns. -/
def WritesOnlyOutputs (sodium : Lib) : Prop :=
  ∀ (c : LibCall) (N : Native) (p : Ptr), p ∉ c.outputs → (sodium c N).1.mem p = N.mem p

/-- The output arrays of a wrapper call: the `jbyteArray` parameters whose pinned buffer the
wrapper passes in an output position of its library call. -/
def JCall.outputs : JCall → List JArray
  | .sodium_init => []
  | .randombytes_random => []
  | .randombytes_uniform _ => []
  | .randombytes_buf j_buf _ => [j_buf]
  | .randombytes_close => []
  | .randombytes_stir => []
  | .crypto_secretbox_keygen j_key => [j_key]
  | .crypto_secretbox_easy j_c _ _ _ _ => [j_c]
  | .crypto_secretbox_open_easy j_m _ _ _ _ => [j_m]
  | .crypto_auth_keygen j_key => [j_key]
  | .crypto_auth j_out _ _ _ => [j_out]
  | .crypto_auth_verify _ _ _ _ => []
  | .crypto_box_keypair j_pk j_sk => [j_pk, j_sk]
  | .crypto_box_easy j_c _ _ _ _ _ => [j_c]
  | .crypto_box_open_easy j_m _ _ _ _ _ => [j_m]
  | .crypto_box_beforenm j_s _ _ => [j_s]
  | .crypto_box_easy_afternm j_c _ _ _ _ => [j_c]
  | .crypto_box_open_easy_afternm j_m _ _ _ _ => [j_m]
  | .crypto_box_seal j_c _ _ _ => [j_c]
  | .crypto_box_seal_open j_m _ _ _ _ => [j_m]
  | .crypto_pwhash j_out _ _ _ _ _ _ _ => [j_out]
  | .crypto_scalarmult_base j_q _ => [j_q]
  | .crypto_scalarmult j_q _ _ => [j_q]
  | .crypto_sign_detached j_sig _ _ _ => [j_sig]
  | .crypto_sign_verify_detached _ _ _ _ => []
  | .crypto_sign_keypair j_pk j_sk => [j_pk, j_sk]
  | .crypto_sign_seed_keypair j_pk j_sk _ => [j_pk, j_sk]
  | .crypto_sign_ed25519_sk_to_seed j_seed _ => [j_seed]
  | .crypto_sign_ed25519_pk_to_curve25519 j_curve _ => [j_curve]
  | .crypto_sign_ed25519_sk_to_curve25519 j_curve _ => [j_curve]
  | .crypto_sign_ed25519_sk_to_pk _ j_pk => [j_pk]

/-- The output arrays as the specification lists them: `c`, `m`, `out`, `q`, `s`, `sig`,
`pk`/`sk` of the keypair functions, `seed` of `sk_to_seed`, `curve` of the `*_to_curve25519`
functions. The list names no array of `randombytes_buf`, `crypto_secretbox_keygen`,
`crypto_auth_keygen` and `crypto_sign_ed25519_sk_to_pk`. -/
def JCall.designatedOutputs : JCall → List JArray
  | .sodium_init => []
  | .randombytes_random => []
  | .randombytes_uniform _ => []
  | .randombytes_buf _ _ => []
  | .randombytes_close => []
  | .randombytes_stir => []
  | .crypto_secretbox_keygen _ => []
  | .crypto_secretbox_easy j_c _ _ _ _ => [j_c]
  | .crypto_secretbox_open_easy j_m _ _ _ _ => [j_m]
  | .crypto_auth_keygen _ => []
  | .crypto_auth j_out _ _ _ => [j_out]
  | .crypto_auth_verify _ _ _ _ => []
  | .crypto_box_keypair j_pk j_sk => [j_pk, j_sk]
  | .crypto_box_easy j_c _ _ _ _ _ => [j_c]
  | .crypto_box_open_easy j_m _ _ _ _ _ => [j_m]
  | .crypto_box_beforenm j_s _ _ => [j_s]
  | .crypto_box_easy_afternm j_c _ _ _ _ => [j_c]
  | .crypto_box_open_easy_afternm j_m _ _ _ _ => [j_m]
  | .crypto_box_seal j_c _ _ _ => [j_c]
  | .crypto_box_seal_open j_m _ _ _ _ => [j_m]
  | .crypto_pwhash j_out _ _ _ _ _ _ _ => [j_out]
  | .crypto_scalarmult_base j_q _ => [j_q]
  | .crypto_scalarmult j_q _ _ => [j_q]
  | .crypto_sign_detached j_sig _ _ _ => [j_sig]
  | .crypto_sign_verify_detached _ _ _ _ => []
  | .crypto_sign_keypair j_pk j_sk => [j_pk, j_sk]
  | .crypto_sign_seed_keypair j_pk j_sk _ => [j_pk, j_sk]
  | .crypto_sign_ed25519_sk_to_seed j_seed _ => [j_seed]
  | .crypto_sign_ed25519_pk_to_curve25519 j_curve _ => [j_curve]
  | .crypto_sign_ed25519_sk_to_curve25519 j_curve _ => [j_curve]
  | .crypto_sign_ed25519_sk_to_pk _ _ => []

/-- Contract of `crypto_sign_seed_keypair`, `crypto_sign_ed25519_sk_to_seed` and
`crypto_sign_ed25519_sk_to_pk`: the key pair of a 32-byte seed is `(pkOf seed, skOf seed)`
(32 and 64 bytes); from the secret key of a seed, `sk_to_seed` writes the seed and `sk_to_pk`
writes the public key; all return `0` and write nothing else. -/
structure Ed25519Contract (sodium : Lib) (pkOf skOf : List Byte → List Byte) : Prop where
  length_pk : ∀ seed, seed.length = 32 → (pkOf seed).length = 32
  length_sk : ∀ seed, seed.length = 32 → (skOf seed).length = 64
  seed_keypair : ∀ (N : Native) (pk sk seed : Ptr),
    GoodBufs [pk, sk, seed] → (N.mem seed).length = 32 → 32 ≤ (N.mem pk).length →
    64 ≤ (N.mem sk).length →
    LibWrites sodium (.crypto_sign_seed_keypair pk sk seed) N 0
      [(pk, pkOf (N.mem seed)), (sk, skOf (N.mem seed))]
  sk_to_seed : ∀ (N : Native) (seed sk : Ptr) (sd : List Byte),
    GoodBufs [seed, sk] → sd.length = 32 → N.mem sk = skOf sd → 32 ≤ (N.mem seed).length →
    LibWrites sodium (.crypto_sign_ed25519_sk_to_seed seed sk) N 0 [(seed, sd)]
  sk_to_pk : ∀ (N : Native) (pk sk : Ptr) (sd : List Byte),
    GoodBufs [pk, sk] → sd.length = 32 → N.mem sk = skOf sd → 32 ≤ (N.mem pk).length →
    LibWrites sodium (.crypto_sign_ed25519_sk_to_pk pk sk) N 0 [(pk, pkOf sd)]

/-- A key pair from `crypto_sign_seed_keypair(pk, sk, seed)`, then
`crypto_sign_ed25519_sk_to_seed(seed2, sk)` and `crypto_sign_ed25519_sk_to_pk(sk, pk2)`. -/
def seedDerivation (sodium : Lib) (jenv : JNIEnv) (j_pk j_sk j_seed j_seed2 j_pk2 : JArray) :
    JNI (List Int) := do
  let r1 ← Java_org_libsodium_jni_SodiumJNI_crypto_1sign_1seed_1keypair sodium jenv
    j_pk j_sk j_seed
  let r2 ← Java_org_libsodium_jni_SodiumJNI_crypto_1sign_1ed25519_1sk_1to_1seed sodium jenv
    j_seed2 j_sk
  let r3 ← Java_org_libsodium_jni_SodiumJNI_crypto_1sign_1ed25519_1sk_1to_1pk sodium jenv
    j_sk j_pk2
  return [r1, r2, r3]

/-- Stand-in public key of a seed: every byte plus one. -/
def toyPk (seed : List Byte) : List Byte := seed.map (fun b => (b + 1) % 256)

/-- Stand-in secret key of a seed: the seed, then its public key. -/
def toySk (seed : List Byte) : List Byte := seed ++ toyPk seed

/-- The stand-in library with seeded signing keys: `crypto_sign_seed_keypair` and the two
derivations from the secret key; every other call is that of `toySodium`. The derivations are
those of libsodium, which copy out of the 64-byte secret key: `crypto_sign_ed25519_sk_to_seed`
copies bytes 0 to 31 of `sk` into `seed`, and `crypto_sign_ed25519_sk_to_pk` copies bytes 32
to 63 of `sk` into `pk`; both return 0. -/
def toyEd25519 : Lib := fun call N =>
  match call with
  | .crypto_sign_seed_keypair pk sk seed =>
    ((N.write pk (toyPk (N.mem seed))).write sk (toySk (N.mem seed)), 0)
  | .crypto_sign_ed25519_sk_to_seed seed sk => (N.write seed ((N.mem sk).take 32), 0)
  | .crypto_sign_ed25519_sk_to_pk pk sk => (N.write pk (((N.mem sk).drop 32).take 32), 0)
  | c => toySodium c N

/-- A sample process state with a signing key: the sample state, except that array 14 holds
a 64-byte secret key, 32 nines followed by 32 tens. Array 3 holds 32 nines, as in the sample
heap. -/
def sampleKeyState : JState :=
  ⟨fun a => if a = 14 then toyBytes 32 9 ++ toyBytes 32 10 else sampleHeap a,
    ⟨fun _ => [], 0⟩, 0, []⟩

/-- A library whose every call returns the same value and changes nothing. -/
def constSodium (v : Int) : Lib := fun _ N => (N, v)

/-! ## Basic facts -/

@[simp] theorem JNI.pure_apply {α : Type} (a : α) (s : JState) :
    (pure a : JNI α) s = (a, s) := rfl

@[simp] theorem JNI.bind_apply {α β : Type} (m : JNI α) (f : α → JNI β) (s : JState) :
    (m >>= f) s = f (m s).1 (m s).2 := rfl

@[simp] theorem JNI.map_apply {α β : Type} (f : α → β) (m : JNI α) (s : JState) :
    (f <$> m) s = (f (m s).1, (m s).2) := rfl

theorem toJint_of_isJint {r : Int} (h : IsJint r) : toJint r = r := by
  unfold IsJint at h
  unfold toJint wrapSigned
  omega

@[simp] theorem toJint_toJint (r : Int) : toJint (toJint r) = toJint r := by
  unfold toJint wrapSigned
  omega

theorem toULL_natCast {n : Nat} (h : n < 2 ^ 64) : toULL (n : Int) = n := by
  unfold toULL wrapUnsigned
  omega

theorem mem_callsOf (c : LibCall) (r : Int) (t : List Event) :
    Event.call c r ∈ t ↔ (c, r) ∈ callsOf t := by
  induction t with
  | nil => simp [callsOf]
  | cons e t ih => cases e <;> simp [callsOf, ih]

/-! ## The trace of a wrapper -/

/-- A wrapper only appends to the trace. -/
theorem run_trace (sodium : Lib) (jenv : JNIEnv) (w : JCall) (s : JState) :
    (w.run sodium jenv s).2.trace = s.trace ++ w.events sodium jenv s := by
  cases w <;>
    simp [JCall.events, JCall.run,
      Java_org_libsodium_jni_SodiumJNI_sodium_1init,
      Java_org_libsodium_jni_SodiumJNI_randombytes_1random,
      Java_org_libsodium_jni_SodiumJNI_randombytes_1uniform,
      Java_org_libsodium_jni_SodiumJNI_randombytes_1buf,
      Java_org_libsodium_jni_SodiumJNI_randombytes_1close,
      Java_org_libsodium_jni_SodiumJNI_randombytes_1stir,
      Java_org_libsodium_jni_SodiumJNI_crypto_1secretbox_1keygen,
      Java_org_libsodium_jni_SodiumJNI_crypto_1secretbox_1easy,
      Java_org_libsodium_jni_SodiumJNI_crypto_1secretbox_1open_1easy,
      Java_org_libsodium_jni_SodiumJNI_crypto_1auth_1keygen,
      Java_org_libsodium_jni_SodiumJNI_crypto_1auth,
      Java_org_libsodium_jni_SodiumJNI_crypto_1auth_1verify,
      Java_org_libsodium_jni_SodiumJNI_crypto_1box_1keypair,
      Java_org_libsodium_jni_SodiumJNI_crypto_1box_1easy,
      Java_org_libsodium_jni_SodiumJNI_crypto_1box_1open_1easy,
      Java_org_libsodium_jni_SodiumJNI_crypto_1box_1beforenm,
      Java_org_libsodium_jni_SodiumJNI_crypto_1box_1easy_1afternm,
      Java_org_libsodium_jni_SodiumJNI_crypto_1box_1open_1easy_1afternm,
      Java_org_libsodium_jni_SodiumJNI_crypto_1box_1seal,
      Java_org_libsodium_jni_SodiumJNI_crypto_1box_1seal_1open,
      Java_org_libsodium_jni_SodiumJNI_crypto_1pwhash,
      Java_org_libsodium_jni_SodiumJNI_crypto_1scalarmult_1base,
      Java_org_libsodium_jni_SodiumJNI_crypto_1scalarmult,
      Java_org_libsodium_jni_SodiumJNI_crypto_1sign_1detached,
      Java_org_libsodium_jni_SodiumJNI_crypto_1sign_1verify_1detached,
      Java_org_libsodium_jni_SodiumJNI_crypto_1sign_1keypair,
      Java_org_libsodium_jni_SodiumJNI_crypto_1sign_1seed_1keypair,
      Java_org_libsodium_jni_SodiumJNI_crypto_1sign_1ed25519_1sk_1to_1seed,
      Java_org_libsodium_jni_SodiumJNI_crypto_1sign_1ed25519_1pk_1to_1curve25519,
      Java_org_libsodium_jni_SodiumJNI_crypto_1sign_1ed25519_1sk_1to_1curve25519,
      Java_org_libsodium_jni_SodiumJNI_crypto_1sign_1ed25519_1sk_1to_1pk,
      GetByteArrayElements, ReleaseByteArrayElements, libcall]

set_option maxHeartbeats 4000000 in
/-- The events of a wrapper call: pins of the array parameters with the pointers of the
environment, one library call on those pointers, releases of the same pairs with mode `0`;
a `jint` wrapper returns the library's value through `(jint)`. -/
theorem run_shape (sodium : Lib) (jenv : JNIEnv) (w : JCall) (s : JState) :
    pinsCallReleases (w.events sodium jenv s) = true ∧
    ((pinsOf (w.events sodium jenv s)).map Prod.fst).Perm w.arrays ∧
    (releasesOf (w.events sodium jenv s)).Perm (pinsOf (w.events sodium jenv s)) ∧
    (pinsOf (w.events sodium jenv s)).map Prod.snd = jenv.nextPins s w.arrays.length ∧
    (∀ m ∈ releaseModesOf (w.events sodium jenv s), m = 0) ∧
    (callsOf (w.events sodium jenv s)).length = 1 ∧
    ∀ cr ∈ callsOf (w.events sodium jenv s),
      cr.1.bufs.Perm ((pinsOf (w.events sodium jenv s)).map Prod.snd) ∧
      (w.returnsJint = true → (w.run sodium jenv s).1 = JValue.jint (toJint cr.2)) := by
  cases w <;>
    simp [JCall.events, JCall.run, JCall.arrays, JCall.returnsJint,
      Java_org_libsodium_jni_SodiumJNI_sodium_1init,
      Java_org_libsodium_jni_SodiumJNI_randombytes_1random,
      Java_org_libsodium_jni_SodiumJNI_randombytes_1uniform,
      Java_org_libsodium_jni_SodiumJNI_randombytes_1buf,
      Java_org_libsodium_jni_SodiumJNI_randombytes_1close,
      Java_org_libsodium_jni_SodiumJNI_randombytes_1stir,
      Java_org_libsodium_jni_SodiumJNI_crypto_1secretbox_1keygen,
      Java_org_libsodium_jni_SodiumJNI_crypto_1secretbox_1easy,
      Java_org_libsodium_jni_SodiumJNI_crypto_1secretbox_1open_1easy,
      Java_org_libsodium_jni_SodiumJNI_crypto_1auth_1keygen,
      Java_org_libsodium_jni_SodiumJNI_crypto_1auth,
      Java_org_libsodium_jni_SodiumJNI_crypto_1auth_1verify,
      Java_org_libsodium_jni_SodiumJNI_crypto_1box_1keypair,
      Java_org_libsodium_jni_SodiumJNI_crypto_1box_1easy,
      Java_org_libsodium_jni_SodiumJNI_crypto_1box_1open_1easy,
      Java_org_libsodium_jni_SodiumJNI_crypto_1box_1beforenm,
      Java_org_libsodium_jni_SodiumJNI_crypto_1box_1easy_1afternm,
      Java_org_libsodium_jni_SodiumJNI_crypto_1box_1open_1easy_1afternm,
      Java_org_libsodium_jni_SodiumJNI_crypto_1box_1seal,
      Java_org_libsodium_jni_SodiumJNI_crypto_1box_1seal_1open,
      Java_org_libsodium_jni_SodiumJNI_crypto_1pwhash,
      Java_org_libsodium_jni_SodiumJNI_crypto_1scalarmult_1base,
      Java_org_libsodium_jni_SodiumJNI_crypto_1scalarmult,
      Java_org_libsodium_jni_SodiumJNI_crypto_1sign_1detached,
      Java_org_libsodium_jni_SodiumJNI_crypto_1sign_1verify_1detached,
      Java_org_libsodium_jni_SodiumJNI_crypto_1sign_1keypair,
      Java_org_libsodium_jni_SodiumJNI_crypto_1sign_1seed_1keypair,
      Java_org_libsodium_jni_SodiumJNI_crypto_1sign_1ed25519_1sk_1to_1seed,
      Java_org_libsodium_jni_SodiumJNI_crypto_1sign_1ed25519_1pk_1to_1curve25519,
      Java_org_libsodium_jni_SodiumJNI_crypto_1sign_1ed25519_1sk_1to_1curve25519,
      Java_org_libsodium_jni_SodiumJNI_crypto_1sign_1ed25519_1sk_1to_1pk,
      GetByteArrayElements, ReleaseByteArrayElements, libcall, pinsOf, releasesOf, callsOf,
      pinsCallReleases, onlyReleases, releaseModesOf, JNIEnv.nextPins, List.range_succ,
      LibCall.bufs] <;>
    simp [List.perm_iff_count, List.count_cons, add_comm, add_left_comm, add_assoc]

/-- The single library call of a wrapper call. -/
theorem run_call (sodium : Lib) (jenv : JNIEnv) (w : JCall) (s : JState) :
    ∃ c r, callsOf (w.events sodium jenv s) = [(c, r)] ∧
      c.bufs.Perm ((pinsOf (w.events sodium jenv s)).map Prod.snd) ∧
      (w.returnsJint = true → (w.run sodium jenv s).1 = JValue.jint (toJint r)) := by
  obtain ⟨_, _, _, _, _, hlen, hall⟩ := run_shape sodium jenv w s
  obtain ⟨⟨c, r⟩, hcr⟩ := List.length_eq_one.mp hlen
  exact ⟨c, r, hcr, hall (c, r) (by simp [hcr])⟩

/-! ## C1: return codes -/

/-- C1. A wrapper declared `jint` that forwards an operation returns exactly the `int` that
its libsodium call returned: whenever the library call of the run returned `r`, a value of
C type `int`, that call is the only library call of the run and the wrapper returns `r`. -/
theorem return_code_forwarded (sodium : Lib) (jenv : JNIEnv) (w : JCall) (s : JState)
    (hw : w.returnsJint = true) (c : LibCall) (r : Int)
    (hcall : Event.call c r ∈ w.events sodium jenv s) (hr : IsJint r) :
    callsOf (w.events sodium jenv s) = [(c, r)] ∧
    (w.run sodium jenv s).1 = JValue.jint r := by
  obtain ⟨c0, r0, hcalls, _, hret⟩ := run_call sodium jenv w s
  rw [mem_callsOf, hcalls] at hcall
  simp only [List.mem_singleton, Prod.mk.injEq] at hcall
  obtain ⟨rfl, rfl⟩ := hcall
  exact ⟨hcalls, by rw [hret hw, toJint_of_isJint hr]⟩

/-- C1 at a sample input: the stand-in library rejects a forged ciphertext with `-1`, and
the wrapper `crypto_secretbox_open_easy` returns `-1`. -/
theorem return_code_forwarded_witness :
    ((JCall.crypto_secretbox_open_easy 20 1 3 2 3).run toySodium sampleEnv sampleState).1
      = JValue.jint (-1) :=
  (return_code_forwarded toySodium sampleEnv (JCall.crypto_secretbox_open_easy 20 1 3 2 3)
    sampleState rfl (LibCall.crypto_secretbox_open_easy 1 2 3 3 4) (-1)
    (by decide) (by decide)).2

/-! ## C2: pins and releases -/

/-- C2. In the events of any wrapper call, for any library: all pins come first, then the
single library call, then the releases; the pinned arrays are the `jbyteArray` parameters,
each pinned once per occurrence; the releases are the pins again as (array, pointer) pairs,
so every pin is released exactly once with the pointer it produced and none stays pinned;
and with distinct arrays no array is pinned or released twice. -/
theorem pin_release_balance (sodium : Lib) (jenv : JNIEnv) (w : JCall) (s : JState) :
    (w.run sodium jenv s).2.trace = s.trace ++ w.events sodium jenv s ∧
    pinsCallReleases (w.events sodium jenv s) = true ∧
    ((pinsOf (w.events sodium jenv s)).map Prod.fst).Perm w.arrays ∧
    (releasesOf (w.events sodium jenv s)).Perm (pinsOf (w.events sodium jenv s)) ∧
    (w.arrays.Nodup →
      ((pinsOf (w.events sodium jenv s)).map Prod.fst).Nodup ∧
      ((releasesOf (w.events sodium jenv s)).map Prod.fst).Nodup) := by
  obtain ⟨hshape, hpins, hrel, _, _, _⟩ := run_shape sodium jenv w s
  refine ⟨run_trace sodium jenv w s, hshape, hpins, hrel, fun hnd => ?_⟩
  have h1 : ((pinsOf (w.events sodium jenv s)).map Prod.fst).Nodup := hpins.nodup_iff.mpr hnd
  exact ⟨h1, ((hrel.map Prod.fst).nodup_iff).mpr h1⟩

/-- C2 at a sample input: `crypto_box_seal_open` on four distinct arrays pins and releases
each array once, the pins in the order `c, m, pk, sk` and the releases in the order
`m, c, pk, sk`. -/
theorem pin_release_balance_witness :
    ((pinsOf ((JCall.crypto_box_seal_open 20 11 51 3 4).events toySodium sampleEnv
      sampleState)).map Prod.fst).Nodup ∧
    ((releasesOf ((JCall.crypto_box_seal_open 20 11 51 3 4).events toySodium sampleEnv
      sampleState)).map Prod.fst).Nodup :=
  (pin_release_balance toySodium sampleEnv (JCall.crypto_box_seal_open 20 11 51 3 4)
    sampleState).2.2.2.2 (by decide)

/-! ## C7: straight-line control flow -/

/-- C7. Whatever the pins return (also `NULL`) and whatever the library returns, the events
of a wrapper call are: the pins, whose pointers are the outcomes chosen by the environment;
exactly one library call, whose buffer arguments are exactly those pointers; and one release
with mode `0` for every pin, with the pin's array and pointer. -/
theorem straight_line (sodium : Lib) (jenv : JNIEnv) (w : JCall) (s : JState) :
    pinsCallReleases (w.events sodium jenv s) = true ∧
    (pinsOf (w.events sodium jenv s)).map Prod.snd = jenv.nextPins s w.arrays.length ∧
    (∃ c r, callsOf (w.events sodium jenv s) = [(c, r)] ∧
      c.bufs.Perm (jenv.nextPins s w.arrays.length)) ∧
    (releasesOf (w.events sodium jenv s)).Perm (pinsOf (w.events sodium jenv s)) ∧
    (releasesOf (w.events sodium jenv s)).length = w.arrays.length ∧
    (∀ m ∈ releaseModesOf (w.events sodium jenv s), m = 0) := by
  obtain ⟨hshape, hpins, hrel, hptr, hmode, _⟩ := run_shape sodium jenv w s
  obtain ⟨c, r, hcalls, hbufs, _⟩ := run_call sodium jenv w s
  refine ⟨hshape, hptr, ⟨c, r, hcalls, hptr ▸ hbufs⟩, hrel, ?_, hmode⟩
  rw [hrel.length_eq, ← hpins.length_eq, List.length_map]

/-- C7 at a sample input: when every pin returns `NULL`, `crypto_secretbox_easy` still makes
its single library call, on four `NULL` buffers, and still releases all four arrays. -/
theorem straight_line_witness :
    (∃ c r, callsOf ((JCall.crypto_secretbox_easy 10 1 3 2 3).events toySodium failingEnv
        sampleState) = [(c, r)] ∧
      c.bufs.Perm (failingEnv.nextPins sampleState
        (JCall.crypto_secretbox_easy 10 1 3 2 3).arrays.length)) ∧
    (releasesOf ((JCall.crypto_secretbox_easy 10 1 3 2 3).events toySodium failingEnv
      sampleState)).length = (JCall.crypto_secretbox_easy 10 1 3 2 3).arrays.length :=
  have h := straight_line toySodium failingEnv (JCall.crypto_secretbox_easy 10 1 3 2 3)
    sampleState
  ⟨h.2.2.1, h.2.2.2.2.1⟩

/-! ## Heap effects of the wrappers under the library contracts -/

theorem GoodEnv.alloc_eq_iff {jenv : JNIEnv} (h : GoodEnv jenv) (i j : Nat) :
    jenv.alloc i = jenv.alloc j ↔ i = j := h.1.eq_iff

theorem GoodEnv.alloc_ne_null {jenv : JNIEnv} (h : GoodEnv jenv) (i : Nat) :
    jenv.alloc i = 0 ↔ False := iff_false_intro (h.2 i)

theorem GoodEnv.null_ne_alloc {jenv : JNIEnv} (h : GoodEnv jenv) (i : Nat) :
    0 = jenv.alloc i ↔ False := iff_false_intro (fun e => h.2 i e.symm)

theorem overwrite_of_length_le {buf out : List Byte} (h : buf.length ≤ out.length) :
    overwrite buf out = out := by
  simp [overwrite, List.drop_eq_nil_of_le h]

theorem take_overwrite (buf out : List Byte) : (overwrite buf out).take out.length = out := by
  simp [overwrite]

theorem length_overwrite {buf out : List Byte} (h : out.length ≤ buf.length) :
    (overwrite buf out).length = buf.length := by
  simp [overwrite]; omega

theorem sampleEnv_good : GoodEnv sampleEnv :=
  ⟨fun i j h => by simpa [sampleEnv] using h, fun i => by simp [sampleEnv, NULL]⟩

/-- Effect of the wrapper `crypto_secretbox_easy` on the Java heap. -/
theorem secretbox_easy_effect {sodium : Lib}
    {enc : List Byte → List Byte → List Byte → List Byte}
    (hC : SecretboxContract sodium enc) {jenv : JNIEnv} (henv : GoodEnv jenv) (s : JState)
    (j_c j_m j_n j_k : JArray) (hd : [j_c, j_m, j_n, j_k].Nodup) (mlen : Nat)
    (hlen : mlen < 2 ^ 63) (hm : mlen ≤ (s.heap j_m).length) (hn : (s.heap j_n).length = 24)
    (hk : (s.heap j_k).length = 32) (hc : mlen + 16 ≤ (s.heap j_c).length) :
    (Java_org_libsodium_jni_SodiumJNI_crypto_1secretbox_1easy sodium jenv
      j_c j_m mlen j_n j_k s).1 = 0 ∧
    (Java_org_libsodium_jni_SodiumJNI_crypto_1secretbox_1easy sodium jenv
      j_c j_m mlen j_n j_k s).2.heap
      = Function.update s.heap j_c
          (overwrite (s.heap j_c) (enc ((s.heap j_m).take mlen) (s.heap j_n) (s.heap j_k))) := by
  have hull : toULL (mlen : Int) = mlen := toULL_natCast (by omega)
  simp only [List.nodup_cons, List.mem_cons, List.mem_singleton, not_or, List.not_mem_nil,
    not_false_eq_true, List.nodup_nil, and_true] at hd
  simp [Java_org_libsodium_jni_SodiumJNI_crypto_1secretbox_1easy, GetByteArrayElements,
    ReleaseByteArrayElements, libcall, henv.alloc_eq_iff, henv.alloc_ne_null, hull, JNI_ABORT,
    Nat.add_assoc]
  generalize hN : (Native.mk _ s.native.rng) = N
  have e0 : N.mem (jenv.alloc s.npins) = s.heap j_c := by
    subst hN; simp [Function.update_apply, henv.alloc_eq_iff]
  have e1 : N.mem (jenv.alloc (s.npins + 1)) = s.heap j_m := by
    subst hN; simp [Function.update_apply, henv.alloc_eq_iff]
  have e2 : N.mem (jenv.alloc (s.npins + 2)) = s.heap j_n := by
    subst hN; simp [Function.update_apply, henv.alloc_eq_iff]
  have e3 : N.mem (jenv.alloc (s.npins + 3)) = s.heap j_k := by
    subst hN; simp [Function.update_apply, henv.alloc_eq_iff]
  obtain ⟨hr, hmem⟩ := hC.easy N (jenv.alloc s.npins) (jenv.alloc (s.npins + 1)) mlen
    (jenv.alloc (s.npins + 2)) (jenv.alloc (s.npins + 3))
    (by simp [GoodBufs, henv.alloc_eq_iff, henv.null_ne_alloc])
    (by rw [e1]; exact hm) (by rw [e2]; exact hn) (by rw [e3]; exact hk) (by rw [e0]; exact hc)
  rw [hr, hmem]
  refine ⟨rfl, ?_⟩
  funext a
  simp [writeAll, Function.update_apply, henv.alloc_eq_iff, e0, e1, e2, e3]
  split_ifs <;> simp_all

/-- Effect of the wrapper `crypto_secretbox_open_easy` on the Java heap. -/
theorem secretbox_open_easy_effect {sodium : Lib}
    {enc : List Byte → List Byte → List Byte → List Byte}
    (hC : SecretboxContract sodium enc) {jenv : JNIEnv} (henv : GoodEnv jenv) (s : JState)
    (j_m j_c j_n j_k : JArray) (hd : [j_m, j_c, j_n, j_k].Nodup) (clen : Nat)
    (msg : List Byte) (hlen : clen < 2 ^ 63) (hc : clen ≤ (s.heap j_c).length)
    (hn : (s.heap j_n).length = 24) (hk : (s.heap j_k).length = 32)
    (henc : (s.heap j_c).take clen = enc msg (s.heap j_n) (s.heap j_k))
    (hm : msg.length ≤ (s.heap j_m).length) :
    (Java_org_libsodium_jni_SodiumJNI_crypto_1secretbox_1open_1easy sodium jenv
      j_m j_c clen j_n j_k s).1 = 0 ∧
    (Java_org_libsodium_jni_SodiumJNI_crypto_1secretbox_1open_1easy sodium jenv
      j_m j_c clen j_n j_k s).2.heap
      = Function.update s.heap j_m (overwrite (s.heap j_m) msg) := by
  have hull : toULL (clen : Int) = clen := toULL_natCast (by omega)
  simp only [List.nodup_cons, List.mem_cons, List.mem_singleton, not_or, List.not_mem_nil,
    not_false_eq_true, List.nodup_nil, and_true] at hd
  simp [Java_org_libsodium_jni_SodiumJNI_crypto_1secretbox_1open_1easy, GetByteArrayElements,
    ReleaseByteArrayElements, libcall, henv.alloc_eq_iff, henv.alloc_ne_null, hull, JNI_ABORT,
    Nat.add_assoc]
  generalize hN : (Native.mk _ s.native.rng) = N
  have e0 : N.mem (jenv.alloc s.npins) = s.heap j_m := by
    subst hN; simp [Function.update_apply, henv.alloc_eq_iff]
  have e1 : N.mem (jenv.alloc (s.npins + 1)) = s.heap j_c := by
    subst hN; simp [Function.update_apply, henv.alloc_eq_iff]
  have e2 : N.mem (jenv.alloc (s.npins + 2)) = s.heap j_n := by
    subst hN; simp [Function.update_apply, henv.alloc_eq_iff]
  have e3 : N.mem (jenv.alloc (s.npins + 3)) = s.heap j_k := by
    subst hN; simp [Function.update_apply, henv.alloc_eq_iff]
  obtain ⟨hr, hmem⟩ := hC.open_easy N (jenv.alloc s.npins) (jenv.alloc (s.npins + 1)) clen
    (jenv.alloc (s.npins + 2)) (jenv.alloc (s.npins + 3)) msg
    (by simp [GoodBufs, henv.alloc_eq_iff, henv.null_ne_alloc])
    (by rw [e1]; exact hc) (by rw [e2]; exact hn) (by rw [e3]; exact hk)
    (by rw [e1, e2, e3]; exact henc) (by rw [e0]; exact hm)
  rw [hr, hmem]
  refine ⟨rfl, ?_⟩
  funext a
  simp [writeAll, Function.update_apply, henv.alloc_eq_iff, e0, e1, e2, e3]
  split_ifs <;> simp_all

/-! ## C3: secret-box round trip -/

/-- C3. Under libsodium's secretbox contract and with pins that succeed: for a message array
`j_m` of `mlen` bytes, a 24-byte nonce array, a 32-byte key array, a ciphertext array of
`mlen + 16` bytes and an output array `j_m2` of at least `mlen` bytes, all distinct, the
wrapper `crypto_secretbox_easy(c, m, mlen, n, k)` returns `0`, the wrapper
`crypto_secretbox_open_easy(m2, c, mlen + 16, n, k)` run after it returns `0`, and the first
`mlen` bytes of `j_m2` are then the message. -/
theorem secretbox_roundtrip (sodium : Lib)
    (enc : List Byte → List Byte → List Byte → List Byte)
    (hC : SecretboxContract sodium enc) (jenv : JNIEnv) (henv : GoodEnv jenv) (s : JState)
    (j_c j_m j_n j_k j_m2 : JArray) (hd : [j_c, j_m, j_n, j_k, j_m2].Nodup) (mlen : Nat)
    (hlen : mlen + 16 < 2 ^ 63) (hm : (s.heap j_m).length = mlen)
    (hn : (s.heap j_n).length = 24) (hk : (s.heap j_k).length = 32)
    (hc : (s.heap j_c).length = mlen + 16) (hm2 : mlen ≤ (s.heap j_m2).length) :
    (Java_org_libsodium_jni_SodiumJNI_crypto_1secretbox_1easy sodium jenv
      j_c j_m mlen j_n j_k s).1 = 0 ∧
    (Java_org_libsodium_jni_SodiumJNI_crypto_1secretbox_1open_1easy sodium jenv
      j_m2 j_c (mlen + 16 : Nat) j_n j_k
      (Java_org_libsodium_jni_SodiumJNI_crypto_1secretbox_1easy sodium jenv
        j_c j_m mlen j_n j_k s).2).1 = 0 ∧
    ((Java_org_libsodium_jni_SodiumJNI_crypto_1secretbox_1open_1easy sodium jenv
      j_m2 j_c (mlen + 16 : Nat) j_n j_k
      (Java_org_libsodium_jni_SodiumJNI_crypto_1secretbox_1easy sodium jenv
        j_c j_m mlen j_n j_k s).2).2.heap j_m2).take mlen = s.heap j_m := by
  simp only [List.nodup_cons, List.mem_cons, List.mem_singleton, not_or, List.not_mem_nil,
    not_false_eq_true, List.nodup_nil, and_true] at hd
  obtain ⟨⟨hcm, hcn, hck, hcm2⟩, ⟨hmn, hmk, hmm2⟩, ⟨hnk, hnm2⟩, hkm2⟩ := hd
  obtain ⟨h1r, h1h⟩ := secretbox_easy_effect hC henv s j_c j_m j_n j_k
    (by simp [hcm, hcn, hck, hmn, hmk, hnk]) mlen (by omega) (by omega) hn hk (by omega)
  generalize (Java_org_libsodium_jni_SodiumJNI_crypto_1secretbox_1easy sodium jenv
    j_c j_m mlen j_n j_k s).2 = s1 at h1h ⊢
  have hmsg : (s.heap j_m).take mlen = s.heap j_m := by rw [← hm, List.take_length]
  have hct : s1.heap j_c = enc (s.heap j_m) (s.heap j_n) (s.heap j_k) := by
    rw [h1h, Function.update_same, hmsg]
    exact overwrite_of_length_le (by rw [hC.length_enc, hc, hm])
  have h1n : s1.heap j_n = s.heap j_n := by rw [h1h, Function.update_noteq (Ne.symm hcn)]
  have h1k : s1.heap j_k = s.heap j_k := by rw [h1h, Function.update_noteq (Ne.symm hck)]
  have h1m2 : s1.heap j_m2 = s.heap j_m2 := by rw [h1h, Function.update_noteq (Ne.symm hcm2)]
  obtain ⟨h2r, h2h⟩ := secretbox_open_easy_effect hC henv s1 j_m2 j_c j_n j_k
    (by simp [hcn, hck, hnk, Ne.symm hcm2, Ne.symm hnm2, Ne.symm hkm2]) (mlen + 16) (s.heap j_m)
    (by omega) (by rw [hct, hC.length_enc, hm]) (by rw [h1n]; exact hn) (by rw [h1k]; exact hk)
    (by rw [h1n, h1k, hct, List.take_of_length_le (by rw [hC.length_enc, hm])])
    (by rw [h1m2, hm]; exact hm2)
  refine ⟨h1r, h2r, ?_⟩
  rw [h2h, Function.update_same, ← hm, take_overwrite]

/-- Effect of the wrapper `crypto_box_keypair` on the Java heap. -/
theorem box_keypair_effect {sodium : Lib} {KeyPair : List Byte → List Byte → Prop}
    (hK : BoxKeypairContract sodium KeyPair) {jenv : JNIEnv} (henv : GoodEnv jenv) (s : JState)
    (j_pk j_sk : JArray) (hpk : (s.heap j_pk).length = 32)
    (hsk : (s.heap j_sk).length = 32) :
    ∃ pkb skb, KeyPair pkb skb ∧
      (Java_org_libsodium_jni_SodiumJNI_crypto_1box_1keypair sodium jenv j_pk j_sk s).1 = 0 ∧
      (Java_org_libsodium_jni_SodiumJNI_crypto_1box_1keypair sodium jenv j_pk j_sk s).2.heap
        = Function.update (Function.update s.heap j_pk pkb) j_sk skb := by
  simp [Java_org_libsodium_jni_SodiumJNI_crypto_1box_1keypair, GetByteArrayElements,
    ReleaseByteArrayElements, libcall, henv.alloc_eq_iff, henv.alloc_ne_null, JNI_ABORT,
    Nat.add_assoc]
  generalize hN : (Native.mk _ s.native.rng) = N
  have e0 : N.mem (jenv.alloc s.npins) = s.heap j_pk := by
    subst hN; simp [Function.update_apply, henv.alloc_eq_iff]
  have e1 : N.mem (jenv.alloc (s.npins + 1)) = s.heap j_sk := by
    subst hN; simp [Function.update_apply, henv.alloc_eq_iff]
  obtain ⟨pkb, skb, hkp, hr, hmem⟩ := hK.keypair N (jenv.alloc s.npins)
    (jenv.alloc (s.npins + 1))
    (by simp [GoodBufs, henv.alloc_eq_iff, henv.null_ne_alloc])
    (by rw [e0, hpk]) (by rw [e1, hsk])
  obtain ⟨hlpk, hlsk⟩ := hK.length_keys pkb skb hkp
  refine ⟨pkb, skb, hkp, ?_⟩
  rw [hr, hmem]
  refine ⟨rfl, ?_⟩
  have o0 : overwrite (s.heap j_pk) pkb = pkb := overwrite_of_length_le (by omega)
  have o1 : overwrite (s.heap j_sk) skb = skb := overwrite_of_length_le (by omega)
  simp [writeAll, Function.update_apply, henv.alloc_eq_iff, e0, e1, o0, o1]

/-- Effect of the wrapper `crypto_box_easy` on the Java heap. -/
theorem box_easy_effect {sodium : Lib} {KeyPair : List Byte → List Byte → Prop}
    {box : List Byte → List Byte → List Byte → List Byte → List Byte}
    (hB : BoxContract sodium KeyPair box) {jenv : JNIEnv} (henv : GoodEnv jenv) (s : JState)
    (j_c j_m j_n j_pk j_sk : JArray) (hd : [j_c, j_m, j_n, j_pk, j_sk].Nodup) (mlen : Nat)
    (hlen : mlen < 2 ^ 63) (hm : mlen ≤ (s.heap j_m).length) (hn : (s.heap j_n).length = 24)
    (hpk : ∃ sk0, KeyPair (s.heap j_pk) sk0) (hsk : ∃ pk0, KeyPair pk0 (s.heap j_sk))
    (hc : mlen + 16 ≤ (s.heap j_c).length) :
    (Java_org_libsodium_jni_SodiumJNI_crypto_1box_1easy sodium jenv
      j_c j_m mlen j_n j_pk j_sk s).1 = 0 ∧
    (Java_org_libsodium_jni_SodiumJNI_crypto_1box_1easy sodium jenv
      j_c j_m mlen j_n j_pk j_sk s).2.heap
      = Function.update s.heap j_c
          (overwrite (s.heap j_c)
            (box ((s.heap j_m).take mlen) (s.heap j_n) (s.heap j_pk) (s.heap j_sk))) := by
  have hull : toULL (mlen : Int) = mlen := toULL_natCast (by omega)
  simp only [List.nodup_cons, List.mem_cons, List.mem_singleton, not_or, List.not_mem_nil,
    not_false_eq_true, List.nodup_nil, and_true] at hd
  simp [Java_org_libsodium_jni_SodiumJNI_crypto_1box_1easy, GetByteArrayElements,
    ReleaseByteArrayElements, libcall, henv.alloc_eq_iff, henv.alloc_ne_null, hull, JNI_ABORT,
    Nat.add_assoc]
  generalize hN : (Native.mk _ s.native.rng) = N
  have e0 : N.mem (jenv.alloc s.npins) = s.heap j_c := by
    subst hN; simp [Function.update_apply, henv.alloc_eq_iff]
  have e1 : N.mem (jenv.alloc (s.npins + 1)) = s.heap j_m := by
    subst hN; simp [Function.update_apply, henv.alloc_eq_iff]
  have e2 : N.mem (jenv.alloc (s.npins + 2)) = s.heap j_n := by
    subst hN; simp [Function.update_apply, henv.alloc_eq_iff]
  have e3 : N.mem (jenv.alloc (s.npins + 3)) = s.heap j_pk := by
    subst hN; simp [Function.update_apply, henv.alloc_eq_iff]
  have e4 : N.mem (jenv.alloc (s.npins + 4)) = s.heap j_sk := by
    subst hN; simp [Function.update_apply, henv.alloc_eq_iff]
  obtain ⟨hr, hmem⟩ := hB.easy N (jenv.alloc s.npins) (jenv.alloc (s.npins + 1)) mlen
    (jenv.alloc (s.npins + 2)) (jenv.alloc (s.npins + 3)) (jenv.alloc (s.npins + 4))
    (by simp [GoodBufs, henv.alloc_eq_iff, henv.null_ne_alloc])
    (by rw [e1]; exact hm) (by rw [e2]; exact hn) (by rw [e3]; exact hpk)
    (by rw [e4]; exact hsk) (by rw [e0]; exact hc)
  rw [hr, hmem]
  refine ⟨rfl, ?_⟩
  funext a
  simp [writeAll, Function.update_apply, henv.alloc_eq_iff, e0, e1, e2, e3, e4]
  split_ifs <;> simp_all

/-- Effect of the wrapper `crypto_box_open_easy` on the Java heap. -/
theorem box_open_easy_effect {sodium : Lib} {KeyPair : List Byte → List Byte → Prop}
    {box : List Byte → List Byte → List Byte → List Byte → List Byte}
    (hB : BoxContract sodium KeyPair box) {jenv : JNIEnv} (henv : GoodEnv jenv) (s : JState)
    (j_m j_c j_n j_pk j_sk : JArray) (hd : [j_m, j_c, j_n, j_pk, j_sk].Nodup) (clen : Nat)
    (msg skSender pkRecipient : List Byte) (hlen : clen < 2 ^ 63)
    (hc : clen ≤ (s.heap j_c).length) (hn : (s.heap j_n).length = 24)
    (hpk : KeyPair (s.heap j_pk) skSender) (hsk : KeyPair pkRecipient (s.heap j_sk))
    (hbox : (s.heap j_c).take clen = box msg (s.heap j_n) pkRecipient skSender)
    (hm : msg.length ≤ (s.heap j_m).length) :
    (Java_org_libsodium_jni_SodiumJNI_crypto_1box_1open_1easy sodium jenv
      j_m j_c clen j_n j_pk j_sk s).1 = 0 ∧
    (Java_org_libsodium_jni_SodiumJNI_crypto_1box_1open_1easy sodium jenv
      j_m j_c clen j_n j_pk j_sk s).2.heap
      = Function.update s.heap j_m (overwrite (s.heap j_m) msg) := by
  have hull : toULL (clen : Int) = clen := toULL_natCast (by omega)
  simp only [List.nodup_cons, List.mem_cons, List.mem_singleton, not_or, List.not_mem_nil,
    not_false_eq_true, List.nodup_nil, and_true] at hd
  simp [Java_org_libsodium_jni_SodiumJNI_crypto_1box_1open_1easy, GetByteArrayElements,
    ReleaseByteArrayElements, libcall, henv.alloc_eq_iff, henv.alloc_ne_null, hull, JNI_ABORT,
    Nat.add_assoc]
  generalize hN : (Native.mk _ s.native.rng) = N
  have e0 : N.mem (jenv.alloc s.npins) = s.heap j_m := by
    subst hN; simp [Function.update_apply, henv.alloc_eq_iff]
  have e1 : N.mem (jenv.alloc (s.npins + 1)) = s.heap j_c := by
    subst hN; simp [Function.update_apply, henv.alloc_eq_iff]
  have e2 : N.mem (jenv.alloc (s.npins + 2)) = s.heap j_n := by
    subst hN; simp [Function.update_apply, henv.alloc_eq_iff]
  have e3 : N.mem (jenv.alloc (s.npins + 3)) = s.heap j_pk := by
    subst hN; simp [Function.update_apply, henv.alloc_eq_iff]
  have e4 : N.mem (jenv.alloc (s.npins + 4)) = s.heap j_sk := by
    subst hN; simp [Function.update_apply, henv.alloc_eq_iff]
  obtain ⟨hr, hmem⟩ := hB.open_easy N (jenv.alloc s.npins) (jenv.alloc (s.npins + 1)) clen
    (jenv.alloc (s.npins + 2)) (jenv.alloc (s.npins + 3)) (jenv.alloc (s.npins + 4))
    msg skSender pkRecipient
    (by simp [GoodBufs, henv.alloc_eq_iff, henv.null_ne_alloc])
    (by rw [e1]; exact hc) (by rw [e2]; exact hn) (by rw [e3]; exact hpk)
    (by rw [e4]; exact hsk) (by rw [e1, e2]; exact hbox) (by rw [e0]; exact hm)
  rw [hr, hmem]
  refine ⟨rfl, ?_⟩
  funext a
  simp [writeAll, Function.update_apply, henv.alloc_eq_iff, e0, e1, e2, e3, e4]
  split_ifs <;> simp_all

/-! ## C4: public-key box round trip -/

/-- C4. Under libsodium's contract for `crypto_box_keypair`, `crypto_box_easy` and
`crypto_box_open_easy` and with pins that succeed: with distinct arrays (32-byte key arrays,
a 24-byte nonce array, a message array of `mlen` bytes, a ciphertext array of at least
`mlen + 16` bytes and an output array `j_m2` of `mlen` bytes), the two `crypto_box_keypair`
calls, `crypto_box_easy(c, m, mlen, n, pkB, skA)` and
`crypto_box_open_easy(m2, c, mlen + 16, n, pkA, skB)` all return `0`, and `j_m2` then holds
the message. -/
theorem keypair_box_roundtrip (sodium : Lib) (KeyPair : List Byte → List Byte → Prop)
    (box : List Byte → List Byte → List Byte → List Byte → List Byte)
    (hK : BoxKeypairContract sodium KeyPair) (hB : BoxContract sodium KeyPair box)
    (jenv : JNIEnv) (henv : GoodEnv jenv) (s : JState)
    (j_pkA j_skA j_pkB j_skB j_c j_m j_n j_m2 : JArray)
    (hd : [j_pkA, j_skA, j_pkB, j_skB, j_c, j_m, j_n, j_m2].Nodup) (mlen : Nat)
    (hlen : mlen + 16 < 2 ^ 63)
    (hpkA : (s.heap j_pkA).length = 32) (hskA : (s.heap j_skA).length = 32)
    (hpkB : (s.heap j_pkB).length = 32) (hskB : (s.heap j_skB).length = 32)
    (hm : (s.heap j_m).length = mlen) (hn : (s.heap j_n).length = 24)
    (hc : mlen + 16 ≤ (s.heap j_c).length) (hm2 : (s.heap j_m2).length = mlen) :
    (boxRoundTrip sodium jenv j_pkA j_skA j_pkB j_skB j_c j_m mlen j_n j_m2 s).1
      = [0, 0, 0, 0] ∧
    (boxRoundTrip sodium jenv j_pkA j_skA j_pkB j_skB j_c j_m mlen j_n j_m2 s).2.heap j_m2
      = s.heap j_m := by
  have hd' := List.nodup_reverse.mpr hd
  simp only [List.reverse_cons, List.reverse_nil, List.nil_append, List.cons_append,
    List.nodup_cons, List.mem_cons, List.mem_singleton, not_or, List.not_mem_nil,
    not_false_eq_true, List.nodup_nil, and_true] at hd hd'
  simp only [boxRoundTrip, JNI.bind_apply, JNI.pure_apply]
  obtain ⟨pkA, skA, hkA, h1r, h1h⟩ := box_keypair_effect hK henv s j_pkA j_skA hpkA hskA
  generalize (Java_org_libsodium_jni_SodiumJNI_crypto_1box_1keypair sodium jenv
    j_pkA j_skA s) = x1 at h1r h1h ⊢
  obtain ⟨pkB, skB, hkB, h2r, h2h⟩ := box_keypair_effect hK henv x1.2 j_pkB j_skB
    (by simpa [h1h, Function.update_apply, hd, hd'] using hpkB)
    (by simpa [h1h, Function.update_apply, hd, hd'] using hskB)
  generalize (Java_org_libsodium_jni_SodiumJNI_crypto_1box_1keypair sodium jenv
    j_pkB j_skB x1.2) = x2 at h2r h2h ⊢
  have v2pkA : x2.2.heap j_pkA = pkA := by simp [h2h, h1h, Function.update_apply, hd, hd']
  have v2skA : x2.2.heap j_skA = skA := by simp [h2h, h1h, Function.update_apply, hd, hd']
  have v2pkB : x2.2.heap j_pkB = pkB := by simp [h2h, h1h, Function.update_apply, hd, hd']
  have v2skB : x2.2.heap j_skB = skB := by simp [h2h, h1h, Function.update_apply, hd, hd']
  have v2m : x2.2.heap j_m = s.heap j_m := by simp [h2h, h1h, Function.update_apply, hd, hd']
  have v2n : x2.2.heap j_n = s.heap j_n := by simp [h2h, h1h, Function.update_apply, hd, hd']
  have v2c : x2.2.heap j_c = s.heap j_c := by simp [h2h, h1h, Function.update_apply, hd, hd']
  have v2m2 : x2.2.heap j_m2 = s.heap j_m2 := by
    simp [h2h, h1h, Function.update_apply, hd, hd']
  obtain ⟨h3r, h3h⟩ := box_easy_effect hB henv x2.2 j_c j_m j_n j_pkB j_skA
    (by simp [hd, hd']) mlen (by omega) (by rw [v2m, hm]) (by rw [v2n]; exact hn)
    ⟨skB, by rw [v2pkB]; exact hkB⟩ ⟨pkA, by rw [v2skA]; exact hkA⟩ (by rw [v2c]; exact hc)
  generalize (Java_org_libsodium_jni_SodiumJNI_crypto_1box_1easy sodium jenv
    j_c j_m mlen j_n j_pkB j_skA x2.2) = x3 at h3r h3h ⊢
  have v3n : x3.2.heap j_n = s.heap j_n := by simp [h3h, Function.update_apply, hd, hd', v2n]
  have v3pkA : x3.2.heap j_pkA = pkA := by simp [h3h, Function.update_apply, hd, hd', v2pkA]
  have v3skB : x3.2.heap j_skB = skB := by simp [h3h, Function.update_apply, hd, hd', v2skB]
  have v3m2 : x3.2.heap j_m2 = s.heap j_m2 := by
    simp [h3h, Function.update_apply, hd, hd', v2m2]
  have hmsg : (s.heap j_m).take mlen = s.heap j_m := by rw [← hm, List.take_length]
  have v3c : (x3.2.heap j_c).take (mlen + 16) = box (s.heap j_m) (s.heap j_n) pkB skA := by
    rw [h3h, Function.update_same, v2m, v2n, v2pkB, v2skA, v2c, hmsg]
    have := take_overwrite (s.heap j_c) (box (s.heap j_m) (s.heap j_n) pkB skA)
    rwa [hB.length_box, hm] at this
  have l3c : mlen + 16 ≤ (x3.2.heap j_c).length := by
    rw [h3h, Function.update_same,
      length_overwrite (by rw [hB.length_box, List.length_take, v2c]; omega), v2c]
    exact hc
  obtain ⟨h4r, h4h⟩ := box_open_easy_effect hB henv x3.2 j_m2 j_c j_n j_pkA j_skB
    (by simp [hd, hd']) (mlen + 16) (s.heap j_m) skA pkB (by omega) l3c
    (by rw [v3n]; exact hn) (by rw [v3pkA]; exact hkA) (by rw [v3skB]; exact hkB)
    (by rw [v3n]; exact v3c) (by rw [v3m2, hm2, hm])
  generalize (Java_org_libsodium_jni_SodiumJNI_crypto_1box_1open_1easy sodium jenv
    j_m2 j_c (mlen + 16 : Nat) j_n j_pkA j_skB x3.2) = x4 at h4r h4h ⊢
  refine ⟨by rw [h1r, h2r, h3r, h4r], ?_⟩
  rw [h4h, Function.update_same, v3m2]
  exact overwrite_of_length_le (by rw [hm2, hm])

/-- Effect of the wrapper `crypto_box_seal` on the Java heap. -/
theorem box_seal_effect {sodium : Lib} {KeyPair : List Byte → List Byte → Prop}
    {Sealed : List Byte → List Byte → List Byte → Prop}
    (hS : SealContract sodium KeyPair Sealed) {jenv : JNIEnv} (henv : GoodEnv jenv)
    (s : JState) (j_c j_m j_pk : JArray) (hd : [j_c, j_m, j_pk].Nodup) (mlen : Nat)
    (hlen : mlen < 2 ^ 63) (hm : mlen ≤ (s.heap j_m).length)
    (hpk : ∃ sk0, KeyPair (s.heap j_pk) sk0) (hc : mlen + 48 ≤ (s.heap j_c).length) :
    ∃ ct, Sealed ct ((s.heap j_m).take mlen) (s.heap j_pk) ∧ ct.length = mlen + 48 ∧
      (Java_org_libsodium_jni_SodiumJNI_crypto_1box_1seal sodium jenv
        j_c j_m mlen j_pk s).1 = 0 ∧
      (Java_org_libsodium_jni_SodiumJNI_crypto_1box_1seal sodium jenv
        j_c j_m mlen j_pk s).2.heap = Function.update s.heap j_c (overwrite (s.heap j_c) ct) := by
  have hull : toULL (mlen : Int) = mlen := toULL_natCast (by omega)
  simp only [List.nodup_cons, List.mem_cons, List.mem_singleton, not_or, List.not_mem_nil,
    not_false_eq_true, List.nodup_nil, and_true] at hd
  simp [Java_org_libsodium_jni_SodiumJNI_crypto_1box_1seal, GetByteArrayElements,
    ReleaseByteArrayElements, libcall, henv.alloc_eq_iff, henv.alloc_ne_null, hull, JNI_ABORT,
    Nat.add_assoc]
  generalize hN : (Native.mk _ s.native.rng) = N
  have e0 : N.mem (jenv.alloc s.npins) = s.heap j_m := by
    subst hN; simp [Function.update_apply, henv.alloc_eq_iff]
  have e1 : N.mem (jenv.alloc (s.npins + 1)) = s.heap j_c := by
    subst hN; simp [Function.update_apply, henv.alloc_eq_iff]
  have e2 : N.mem (jenv.alloc (s.npins + 2)) = s.heap j_pk := by
    subst hN; simp [Function.update_apply, henv.alloc_eq_iff]
  obtain ⟨ct, hct, hctl, hr, hmem⟩ := hS.box_seal N (jenv.alloc (s.npins + 1))
    (jenv.alloc s.npins) mlen (jenv.alloc (s.npins + 2))
    (by simp [GoodBufs, henv.alloc_eq_iff, henv.null_ne_alloc])
    (by rw [e0]; exact hm) (by rw [e2]; exact hpk) (by rw [e1]; exact hc)
  rw [e0, e2] at hct
  refine ⟨ct, hct, hctl, ?_⟩
  rw [hr, hmem]
  refine ⟨rfl, ?_⟩
  funext a
  simp [writeAll, Function.update_apply, henv.alloc_eq_iff, e0, e1, e2]
  split_ifs <;> simp_all

/-- Effect of the wrapper `crypto_box_seal_open` on the Java heap. -/
theorem box_seal_open_effect {sodium : Lib} {KeyPair : List Byte → List Byte → Prop}
    {Sealed : List Byte → List Byte → List Byte → Prop}
    (hS : SealContract sodium KeyPair Sealed) {jenv : JNIEnv} (henv : GoodEnv jenv)
    (s : JState) (j_m j_c j_pk j_sk : JArray) (hd : [j_m, j_c, j_pk, j_sk].Nodup) (clen : Nat)
    (msg : List Byte) (hlen : clen < 2 ^ 63) (hc : clen ≤ (s.heap j_c).length)
    (hkp : KeyPair (s.heap j_pk) (s.heap j_sk))
    (hct : Sealed ((s.heap j_c).take clen) msg (s.heap j_pk))
    (hm : msg.length ≤ (s.heap j_m).length) :
    (Java_org_libsodium_jni_SodiumJNI_crypto_1box_1seal_1open sodium jenv
      j_m j_c clen j_pk j_sk s).1 = 0 ∧
    (Java_org_libsodium_jni_SodiumJNI_crypto_1box_1seal_1open sodium jenv
      j_m j_c clen j_pk j_sk s).2.heap
      = Function.update s.heap j_m (overwrite (s.heap j_m) msg) := by
  have hull : toULL (clen : Int) = clen := toULL_natCast (by omega)
  simp only [List.nodup_cons, List.mem_cons, List.mem_singleton, not_or, List.not_mem_nil,
    not_false_eq_true, List.nodup_nil, and_true] at hd
  simp [Java_org_libsodium_jni_SodiumJNI_crypto_1box_1seal_1open, GetByteArrayElements,
    ReleaseByteArrayElements, libcall, henv.alloc_eq_iff, henv.alloc_ne_null, hull, JNI_ABORT,
    Nat.add_assoc]
  generalize hN : (Native.mk _ s.native.rng) = N
  have e0 : N.mem (jenv.alloc s.npins) = s.heap j_c := by
    subst hN; simp [Function.update_apply, henv.alloc_eq_iff]
  have e1 : N.mem (jenv.alloc (s.npins + 1)) = s.heap j_m := by
    subst hN; simp [Function.update_apply, henv.alloc_eq_iff]
  have e2 : N.mem (jenv.alloc (s.npins + 2)) = s.heap j_pk := by
    subst hN; simp [Function.update_apply, henv.alloc_eq_iff]
  have e3 : N.mem (jenv.alloc (s.npins + 3)) = s.heap j_sk := by
    subst hN; simp [Function.update_apply, henv.alloc_eq_iff]
  obtain ⟨hr, hmem⟩ := hS.box_seal_open N (jenv.alloc (s.npins + 1)) (jenv.alloc s.npins) clen
    (jenv.alloc (s.npins + 2)) (jenv.alloc (s.npins + 3)) msg
    (by simp [GoodBufs, henv.alloc_eq_iff, henv.null_ne_alloc])
    (by rw [e0]; exact hc) (by rw [e2, e3]; exact hkp) (by rw [e0, e2]; exact hct)
    (by rw [e1]; exact hm)
  rw [hr, hmem]
  refine ⟨rfl, ?_⟩
  funext a
  simp [writeAll, Function.update_apply, henv.alloc_eq_iff, e0, e1, e2, e3]
  split_ifs <;> simp_all

/-! ## C6: sealed-box round trip -/

/-- C6. Under libsodium's contract for `crypto_box_keypair`, `crypto_box_seal` and
`crypto_box_seal_open` and with pins that succeed: with distinct arrays (32-byte key arrays,
a message array of `mlen` bytes, a ciphertext array of `mlen + 48` bytes and an output array
`j_m2` of `mlen` bytes), `crypto_box_keypair(pk, sk)`, `crypto_box_seal(c, m, mlen, pk)` and
`crypto_box_seal_open(m2, c, mlen + 48, pk, sk)` all return `0`, the array `j_c` holds a
sealed box of the message for the generated public key, and `j_m2` holds the message. -/
theorem seal_roundtrip (sodium : Lib) (KeyPair : List Byte → List Byte → Prop)
    (Sealed : List Byte → List Byte → List Byte → Prop)
    (hK : BoxKeypairContract sodium KeyPair) (hS : SealContract sodium KeyPair Sealed)
    (jenv : JNIEnv) (henv : GoodEnv jenv) (s : JState) (j_pk j_sk j_c j_m j_m2 : JArray)
    (hd : [j_pk, j_sk, j_c, j_m, j_m2].Nodup) (mlen : Nat) (hlen : mlen + 48 < 2 ^ 63)
    (hpk : (s.heap j_pk).length = 32) (hsk : (s.heap j_sk).length = 32)
    (hm : (s.heap j_m).length = mlen) (hc : (s.heap j_c).length = mlen + 48)
    (hm2 : (s.heap j_m2).length = mlen) :
    (sealRoundTrip sodium jenv j_pk j_sk j_c j_m mlen j_m2 s).1 = [0, 0, 0] ∧
    Sealed ((sealRoundTrip sodium jenv j_pk j_sk j_c j_m mlen j_m2 s).2.heap j_c) (s.heap j_m)
      ((sealRoundTrip sodium jenv j_pk j_sk j_c j_m mlen j_m2 s).2.heap j_pk) ∧
    (sealRoundTrip sodium jenv j_pk j_sk j_c j_m mlen j_m2 s).2.heap j_m2 = s.heap j_m := by
  have hd' := List.nodup_reverse.mpr hd
  simp only [List.reverse_cons, List.reverse_nil, List.nil_append, List.cons_append,
    List.nodup_cons, List.mem_cons, List.mem_singleton, not_or, List.not_mem_nil,
    not_false_eq_true, List.nodup_nil, and_true] at hd hd'
  simp only [sealRoundTrip, JNI.bind_apply, JNI.pure_apply]
  obtain ⟨pk, sk, hkp, h1r, h1h⟩ := box_keypair_effect hK henv s j_pk j_sk hpk hsk
  generalize (Java_org_libsodium_jni_SodiumJNI_crypto_1box_1keypair sodium jenv
    j_pk j_sk s) = x1 at h1r h1h ⊢
  have v1pk : x1.2.heap j_pk = pk := by simp [h1h, Function.update_apply, hd, hd']
  have v1sk : x1.2.heap j_sk = sk := by simp [h1h, Function.update_apply, hd, hd']
  have v1m : x1.2.heap j_m = s.heap j_m := by simp [h1h, Function.update_apply, hd, hd']
  have v1c : x1.2.heap j_c = s.heap j_c := by simp [h1h, Function.update_apply, hd, hd']
  have v1m2 : x1.2.heap j_m2 = s.heap j_m2 := by simp [h1h, Function.update_apply, hd, hd']
  have hmsg : (s.heap j_m).take mlen = s.heap j_m := by rw [← hm, List.take_length]
  obtain ⟨ct, hct, hctl, h2r, h2h⟩ := box_seal_effect hS henv x1.2 j_c j_m j_pk
    (by simp [hd, hd']) mlen (by omega) (by rw [v1m, hm]) ⟨sk, by rw [v1pk]; exact hkp⟩
    (by rw [v1c, hc])
  rw [v1m, v1pk, hmsg] at hct
  generalize (Java_org_libsodium_jni_SodiumJNI_crypto_1box_1seal sodium jenv
    j_c j_m mlen j_pk x1.2) = x2 at h2r h2h ⊢
  have v2c : x2.2.heap j_c = ct := by
    rw [h2h, Function.update_same, v1c]
    exact overwrite_of_length_le (by rw [hc, hctl])
  have v2pk : x2.2.heap j_pk = pk := by simp [h2h, Function.update_apply, hd, hd', v1pk]
  have v2sk : x2.2.heap j_sk = sk := by simp [h2h, Function.update_apply, hd, hd', v1sk]
  have v2m2 : x2.2.heap j_m2 = s.heap j_m2 := by
    simp [h2h, Function.update_apply, hd, hd', v1m2]
  obtain ⟨h3r, h3h⟩ := box_seal_open_effect hS henv x2.2 j_m2 j_c j_pk j_sk
    (by simp [hd, hd']) (mlen + 48) (s.heap j_m) (by omega) (by rw [v2c, hctl])
    (by rw [v2pk, v2sk]; exact hkp)
    (by rw [v2c, v2pk, List.take_of_length_le (by rw [hctl])]; exact hct)
    (by rw [v2m2, hm2, hm])
  generalize (Java_org_libsodium_jni_SodiumJNI_crypto_1box_1seal_1open sodium jenv
    j_m2 j_c (mlen + 48 : Nat) j_pk j_sk x2.2) = x3 at h3r h3h ⊢
  refine ⟨by rw [h1r, h2r, h3r], ?_, ?_⟩
  · have e1 : x3.2.heap j_c = ct := by simp [h3h, Function.update_apply, hd, hd', v2c]
    have e2 : x3.2.heap j_pk = pk := by simp [h3h, Function.update_apply, hd, hd', v2pk]
    rw [e1, e2]; exact hct
  · rw [h3h, Function.update_same, v2m2]
    exact overwrite_of_length_le (by rw [hm2, hm])

/-- Effect of the wrapper `crypto_sign_keypair` on the Java heap. -/
theorem sign_keypair_effect {sodium : Lib} {KeyPair : List Byte → List Byte → Prop}
    {sign : List Byte → List Byte → List Byte} (hG : SignContract sodium KeyPair sign)
    {jenv : JNIEnv} (henv : GoodEnv jenv) (s : JState) (j_pk j_sk : JArray)
    (hpk : (s.heap j_pk).length = 32) (hsk : (s.heap j_sk).length = 64) :
    ∃ pkb skb, KeyPair pkb skb ∧
      (Java_org_libsodium_jni_SodiumJNI_crypto_1sign_1keypair sodium jenv j_pk j_sk s).1 = 0 ∧
      (Java_org_libsodium_jni_SodiumJNI_crypto_1sign_1keypair sodium jenv j_pk j_sk s).2.heap
        = Function.update (Function.update s.heap j_pk pkb) j_sk skb := by
  simp [Java_org_libsodium_jni_SodiumJNI_crypto_1sign_1keypair, GetByteArrayElements,
    ReleaseByteArrayElements, libcall, henv.alloc_eq_iff, henv.alloc_ne_null, JNI_ABORT,
    Nat.add_assoc]
  generalize hN : (Native.mk _ s.native.rng) = N
  have e0 : N.mem (jenv.alloc s.npins) = s.heap j_sk := by
    subst hN; simp [Function.update_apply, henv.alloc_eq_iff]
  have e1 : N.mem (jenv.alloc (s.npins + 1)) = s.heap j_pk := by
    subst hN; simp [Function.update_apply, henv.alloc_eq_iff]
  obtain ⟨pkb, skb, hkp, hr, hmem⟩ := hG.keypair N (jenv.alloc (s.npins + 1))
    (jenv.alloc s.npins)
    (by simp [GoodBufs, henv.alloc_eq_iff, henv.null_ne_alloc])
    (by rw [e1, hpk]) (by rw [e0, hsk])
  obtain ⟨hlpk, hlsk⟩ := hG.length_keys pkb skb hkp
  refine ⟨pkb, skb, hkp, ?_⟩
  rw [hr, hmem]
  refine ⟨rfl, ?_⟩
  have o0 : overwrite (s.heap j_pk) pkb = pkb := overwrite_of_length_le (by omega)
  have o1 : overwrite (s.heap j_sk) skb = skb := overwrite_of_length_le (by omega)
  simp [writeAll, Function.update_apply, henv.alloc_eq_iff, e0, e1, o0, o1]

/-- Effect of the wrapper `crypto_sign_detached` on the Java heap. -/
theorem sign_detached_effect {sodium : Lib} {KeyPair : List Byte → List Byte → Prop}
    {sign : List Byte → List Byte → List Byte} (hG : SignContract sodium KeyPair sign)
    {jenv : JNIEnv} (henv : GoodEnv jenv) (s : JState) (j_sig j_msg j_sk : JArray)
    (hd : [j_sig, j_msg, j_sk].Nodup) (len : Nat) (hlen : len < 2 ^ 31)
    (hm : len ≤ (s.heap j_msg).length) (hsk : ∃ pk0, KeyPair pk0 (s.heap j_sk))
    (hsig : 64 ≤ (s.heap j_sig).length) :
    (Java_org_libsodium_jni_SodiumJNI_crypto_1sign_1detached sodium jenv
      j_sig j_msg len j_sk s).1 = 0 ∧
    (Java_org_libsodium_jni_SodiumJNI_crypto_1sign_1detached sodium jenv
      j_sig j_msg len j_sk s).2.heap
      = Function.update s.heap j_sig
          (overwrite (s.heap j_sig) (sign ((s.heap j_msg).take len) (s.heap j_sk))) := by
  have hull : toULL (len : Int) = len := toULL_natCast (by omega)
  simp only [List.nodup_cons, List.mem_cons, List.mem_singleton, not_or, List.not_mem_nil,
    not_false_eq_true, List.nodup_nil, and_true] at hd
  simp [Java_org_libsodium_jni_SodiumJNI_crypto_1sign_1detached, GetByteArrayElements,
    ReleaseByteArrayElements, libcall, henv.alloc_eq_iff, henv.alloc_ne_null, hull, JNI_ABORT,
    Nat.add_assoc]
  generalize hN : (Native.mk _ s.native.rng) = N
  have e0 : N.mem (jenv.alloc s.npins) = s.heap j_sig := by
    subst hN; simp [Function.update_apply, henv.alloc_eq_iff]
  have e1 : N.mem (jenv.alloc (s.npins + 1)) = s.heap j_msg := by
    subst hN; simp [Function.update_apply, henv.alloc_eq_iff]
  have e2 : N.mem (jenv.alloc (s.npins + 2)) = s.heap j_sk := by
    subst hN; simp [Function.update_apply, henv.alloc_eq_iff]
  obtain ⟨hr, hmem⟩ := hG.detached N (jenv.alloc s.npins) (jenv.alloc (s.npins + 1)) len
    (jenv.alloc (s.npins + 2))
    (by simp [GoodBufs, henv.alloc_eq_iff, henv.null_ne_alloc])
    (by rw [e1]; exact hm) (by rw [e2]; exact hsk) (by rw [e0]; exact hsig)
  rw [hr, hmem]
  refine ⟨rfl, ?_⟩
  funext a
  simp [writeAll, Function.update_apply, henv.alloc_eq_iff, e0, e1, e2]
  split_ifs <;> simp_all

/-- Effect of the wrapper `crypto_sign_verify_detached` on the Java heap. -/
theorem sign_verify_detached_effect {sodium : Lib} {KeyPair : List Byte → List Byte → Prop}
    {sign : List Byte → List Byte → List Byte} (hG : SignContract sodium KeyPair sign)
    {jenv : JNIEnv} (henv : GoodEnv jenv) (s : JState) (j_sig j_msg j_pk : JArray)
    (hd : [j_sig, j_msg, j_pk].Nodup) (len : Nat) (sk : List Byte) (hlen : len < 2 ^ 63)
    (hm : len ≤ (s.heap j_msg).length) (hpk : KeyPair (s.heap j_pk) sk)
    (hsig : (s.heap j_sig).take 64 = sign ((s.heap j_msg).take len) sk) :
    (Java_org_libsodium_jni_SodiumJNI_crypto_1sign_1verify_1detached sodium jenv
      j_sig j_msg len j_pk s).1 = 0 ∧
    (Java_org_libsodium_jni_SodiumJNI_crypto_1sign_1verify_1detached sodium jenv
      j_sig j_msg len j_pk s).2.heap = s.heap := by
  have hull : toULL (len : Int) = len := toULL_natCast (by omega)
  simp only [List.nodup_cons, List.mem_cons, List.mem_singleton, not_or, List.not_mem_nil,
    not_false_eq_true, List.nodup_nil, and_true] at hd
  simp [Java_org_libsodium_jni_SodiumJNI_crypto_1sign_1verify_1detached, GetByteArrayElements,
    ReleaseByteArrayElements, libcall, henv.alloc_eq_iff, henv.alloc_ne_null, hull, JNI_ABORT,
    Nat.add_assoc]
  generalize hN : (Native.mk _ s.native.rng) = N
  have e0 : N.mem (jenv.alloc s.npins) = s.heap j_sig := by
    subst hN; simp [Function.update_apply, henv.alloc_eq_iff]
  have e1 : N.mem (jenv.alloc (s.npins + 1)) = s.heap j_msg := by
    subst hN; simp [Function.update_apply, henv.alloc_eq_iff]
  have e2 : N.mem (jenv.alloc (s.npins + 2)) = s.heap j_pk := by
    subst hN; simp [Function.update_apply, henv.alloc_eq_iff]
  obtain ⟨hr, hmem⟩ := hG.verify_detached N (jenv.alloc s.npins) (jenv.alloc (s.npins + 1))
    len (jenv.alloc (s.npins + 2)) sk
    (by simp [GoodBufs, henv.alloc_eq_iff, henv.null_ne_alloc])
    (by rw [e1]; exact hm) (by rw [e2]; exact hpk) (by rw [e0, e1]; exact hsig)
  rw [hr, hmem]
  refine ⟨rfl, ?_⟩
  funext a
  simp [writeAll, Function.update_apply, henv.alloc_eq_iff, e0, e1, e2]
  rintro rfl
  rfl

/-- The library calls of the signing scenario, whatever the library does. -/
theorem signRoundTrip_calls (sodium : Lib) (jenv : JNIEnv) (s : JState)
    (j_pk j_sk j_sig j_msg : JArray) (len : Nat) (hlen : len < 2 ^ 31) :
    (callsOf (((signRoundTrip sodium jenv j_pk j_sk j_sig j_msg len s).2.trace).drop
      s.trace.length)).map Prod.fst =
      [LibCall.crypto_sign_keypair (jenv.alloc (s.npins + 1)) (jenv.alloc s.npins),
       LibCall.crypto_sign_detached (jenv.alloc (s.npins + 2)) NULL (jenv.alloc (s.npins + 3))
         len (jenv.alloc (s.npins + 4)),
       LibCall.crypto_sign_verify_detached (jenv.alloc (s.npins + 5))
         (jenv.alloc (s.npins + 6)) len (jenv.alloc (s.npins + 7))] := by
  have hull : toULL (len : Int) = len := toULL_natCast (by omega)
  simp [signRoundTrip, Java_org_libsodium_jni_SodiumJNI_crypto_1sign_1keypair,
    Java_org_libsodium_jni_SodiumJNI_crypto_1sign_1detached,
    Java_org_libsodium_jni_SodiumJNI_crypto_1sign_1verify_1detached, GetByteArrayElements,
    ReleaseByteArrayElements, libcall, callsOf, hull, Nat.add_assoc]

/-! ## C5: detached-signature round trip -/

/-- C5. Under libsodium's contract for `crypto_sign_keypair`, `crypto_sign_detached` and
`crypto_sign_verify_detached` and with pins that succeed: with distinct arrays (a 32-byte
public-key array, 64-byte secret-key and signature arrays, a message array of `len` bytes,
`len < 2^31`), `crypto_sign_keypair(pk, sk)`, `crypto_sign_detached(sig, msg, len, sk)` and
`crypto_sign_verify_detached(sig, msg, len, pk)` all return `0`, the array `j_sig` holds the
64-byte signature of the message under the generated secret key, and both library calls
receive the message length `len`. -/
theorem sign_roundtrip (sodium : Lib) (KeyPair : List Byte → List Byte → Prop)
    (sign : List Byte → List Byte → List Byte) (hG : SignContract sodium KeyPair sign)
    (jenv : JNIEnv) (henv : GoodEnv jenv) (s : JState) (j_pk j_sk j_sig j_msg : JArray)
    (hd : [j_pk, j_sk, j_sig, j_msg].Nodup) (len : Nat) (hlen : len < 2 ^ 31)
    (hpk : (s.heap j_pk).length = 32) (hsk : (s.heap j_sk).length = 64)
    (hsig : (s.heap j_sig).length = 64) (hm : (s.heap j_msg).length = len) :
    (signRoundTrip sodium jenv j_pk j_sk j_sig j_msg len s).1 = [0, 0, 0] ∧
    (signRoundTrip sodium jenv j_pk j_sk j_sig j_msg len s).2.heap j_sig
      = sign (s.heap j_msg)
          ((signRoundTrip sodium jenv j_pk j_sk j_sig j_msg len s).2.heap j_sk) ∧
    ((signRoundTrip sodium jenv j_pk j_sk j_sig j_msg len s).2.heap j_sig).length = 64 ∧
    (callsOf (((signRoundTrip sodium jenv j_pk j_sk j_sig j_msg len s).2.trace).drop
      s.trace.length)).map Prod.fst =
      [LibCall.crypto_sign_keypair (jenv.alloc (s.npins + 1)) (jenv.alloc s.npins),
       LibCall.crypto_sign_detached (jenv.alloc (s.npins + 2)) NULL (jenv.alloc (s.npins + 3))
         len (jenv.alloc (s.npins + 4)),
       LibCall.crypto_sign_verify_detached (jenv.alloc (s.npins + 5))
         (jenv.alloc (s.npins + 6)) len (jenv.alloc (s.npins + 7))] := by
  refine ⟨?_, ?_, ?_, signRoundTrip_calls sodium jenv s j_pk j_sk j_sig j_msg len hlen⟩
  all_goals
    have hd' := List.nodup_reverse.mpr hd
    simp only [List.reverse_cons, List.reverse_nil, List.nil_append, List.cons_append,
      List.nodup_cons, List.mem_cons, List.mem_singleton, not_or, List.not_mem_nil,
      not_false_eq_true, List.nodup_nil, and_true] at hd hd'
    simp only [signRoundTrip, JNI.bind_apply, JNI.pure_apply]
    obtain ⟨pk, sk, hkp, h1r, h1h⟩ := sign_keypair_effect hG henv s j_pk j_sk hpk hsk
    generalize (Java_org_libsodium_jni_SodiumJNI_crypto_1sign_1keypair sodium jenv
      j_pk j_sk s) = x1 at h1r h1h ⊢
    have v1pk : x1.2.heap j_pk = pk := by simp [h1h, Function.update_apply, hd, hd']
    have v1sk : x1.2.heap j_sk = sk := by simp [h1h, Function.update_apply, hd, hd']
    have v1m : x1.2.heap j_msg = s.heap j_msg := by simp [h1h, Function.update_apply, hd, hd']
    have v1sig : x1.2.heap j_sig = s.heap j_sig := by
      simp [h1h, Function.update_apply, hd, hd']
    have hmsg : (s.heap j_msg).take len = s.heap j_msg := by rw [← hm, List.take_length]
    obtain ⟨h2r, h2h⟩ := sign_detached_effect hG henv x1.2 j_sig j_msg j_sk
      (by simp [hd, hd']) len hlen (by rw [v1m, hm]) ⟨pk, by rw [v1sk]; exact hkp⟩
      (by rw [v1sig, hsig])
    rw [v1m, v1sk, v1sig, hmsg,
      overwrite_of_length_le (by rw [hsig, hG.length_sign])] at h2h
    generalize (Java_org_libsodium_jni_SodiumJNI_crypto_1sign_1detached sodium jenv
      j_sig j_msg len j_sk x1.2) = x2 at h2r h2h ⊢
    have v2sig : x2.2.heap j_sig = sign (s.heap j_msg) sk := by
      simp [h2h, Function.update_apply, hd, hd']
    have v2pk : x2.2.heap j_pk = pk := by simp [h2h, Function.update_apply, hd, hd', v1pk]
    have v2sk : x2.2.heap j_sk = sk := by simp [h2h, Function.update_apply, hd, hd', v1sk]
    have v2m : x2.2.heap j_msg = s.heap j_msg := by
      simp [h2h, Function.update_apply, hd, hd', v1m]
    obtain ⟨h3r, h3h⟩ := sign_verify_detached_effect hG henv x2.2 j_sig j_msg j_pk
      (by simp [hd, hd']) len sk (by omega) (by rw [v2m, hm]) (by rw [v2pk]; exact hkp)
      (by rw [v2sig, v2m, hmsg, List.take_of_length_le (by rw [hG.length_sign])])
    generalize (Java_org_libsodium_jni_SodiumJNI_crypto_1sign_1verify_1detached sodium jenv
      j_sig j_msg len j_pk x2.2) = x3 at h3r h3h ⊢
  · rw [h1r, h2r, h3r]
  · rw [h3h, v2sig, v2sk]
  · rw [h3h, v2sig, hG.length_sign]

/-- Effect of the wrapper `crypto_box_beforenm` on the Java heap. -/
theorem box_beforenm_effect {sodium : Lib} {KeyPair : List Byte → List Byte → Prop}
    {box : List Byte → List Byte → List Byte → List Byte → List Byte}
    {shared : List Byte → List Byte → List Byte}
    {afternm : List Byte → List Byte → List Byte → List Byte}
    (hA : AfternmContract sodium KeyPair box shared afternm) {jenv : JNIEnv}
    (henv : GoodEnv jenv) (s : JState) (j_s j_pk j_sk : JArray) (hd : [j_s, j_pk, j_sk].Nodup)
    (hpk : ∃ sk0, KeyPair (s.heap j_pk) sk0) (hsk : ∃ pk0, KeyPair pk0 (s.heap j_sk))
    (hs : (s.heap j_s).length = 32) :
    (Java_org_libsodium_jni_SodiumJNI_crypto_1box_1beforenm sodium jenv j_s j_pk j_sk s).1 = 0 ∧
    (Java_org_libsodium_jni_SodiumJNI_crypto_1box_1beforenm sodium jenv j_s j_pk j_sk s).2.heap
      = Function.update s.heap j_s (shared (s.heap j_pk) (s.heap j_sk)) := by
  simp only [List.nodup_cons, List.mem_cons, List.mem_singleton, not_or, List.not_mem_nil,
    not_false_eq_true, List.nodup_nil, and_true] at hd
  simp [Java_org_libsodium_jni_SodiumJNI_crypto_1box_1beforenm, GetByteArrayElements,
    ReleaseByteArrayElements, libcall, henv.alloc_eq_iff, henv.alloc_ne_null, JNI_ABORT,
    Nat.add_assoc]
  generalize hN : (Native.mk _ s.native.rng) = N
  have e0 : N.mem (jenv.alloc s.npins) = s.heap j_s := by
    subst hN; simp [Function.update_apply, henv.alloc_eq_iff]
  have e1 : N.mem (jenv.alloc (s.npins + 1)) = s.heap j_pk := by
    subst hN; simp [Function.update_apply, henv.alloc_eq_iff]
  have e2 : N.mem (jenv.alloc (s.npins + 2)) = s.heap j_sk := by
    subst hN; simp [Function.update_apply, henv.alloc_eq_iff]
  obtain ⟨hr, hmem⟩ := hA.beforenm N (jenv.alloc s.npins) (jenv.alloc (s.npins + 1))
    (jenv.alloc (s.npins + 2))
    (by simp [GoodBufs, henv.alloc_eq_iff, henv.null_ne_alloc])
    (by rw [e1]; exact hpk) (by rw [e2]; exact hsk) (by rw [e0, hs])
  rw [hr, hmem]
  refine ⟨rfl, ?_⟩
  have o0 : overwrite (s.heap j_s) (shared (s.heap j_pk) (s.heap j_sk))
      = shared (s.heap j_pk) (s.heap j_sk) :=
    overwrite_of_length_le (by rw [hs, hA.length_shared])
  funext a
  simp [writeAll, Function.update_apply, henv.alloc_eq_iff, e0, e1, e2, o0]
  split_ifs <;> simp_all

/-- Effect of the wrapper `crypto_box_easy_afternm` on the Java heap. -/
theorem box_easy_afternm_effect {sodium : Lib} {KeyPair : List Byte → List Byte → Prop}
    {box : List Byte → List Byte → List Byte → List Byte → List Byte}
    {shared : List Byte → List Byte → List Byte}
    {afternm : List Byte → List Byte → List Byte → List Byte}
    (hA : AfternmContract sodium KeyPair box shared afternm) {jenv : JNIEnv}
    (henv : GoodEnv jenv) (s : JState) (j_c j_m j_n j_k : JArray)
    (hd : [j_c, j_m, j_n, j_k].Nodup) (mlen : Nat) (hlen : mlen < 2 ^ 63)
    (hm : mlen ≤ (s.heap j_m).length) (hn : (s.heap j_n).length = 24)
    (hk : (s.heap j_k).length = 32) (hc : mlen + 16 ≤ (s.heap j_c).length) :
    (Java_org_libsodium_jni_SodiumJNI_crypto_1box_1easy_1afternm sodium jenv
      j_c j_m mlen j_n j_k s).1 = 0 ∧
    (Java_org_libsodium_jni_SodiumJNI_crypto_1box_1easy_1afternm sodium jenv
      j_c j_m mlen j_n j_k s).2.heap
      = Function.update s.heap j_c
          (overwrite (s.heap j_c)
            (afternm ((s.heap j_m).take mlen) (s.heap j_n) (s.heap j_k))) := by
  have hull : toULL (mlen : Int) = mlen := toULL_natCast (by omega)
  simp only [List.nodup_cons, List.mem_cons, List.mem_singleton, not_or, List.not_mem_nil,
    not_false_eq_true, List.nodup_nil, and_true] at hd
  simp [Java_org_libsodium_jni_SodiumJNI_crypto_1box_1easy_1afternm, GetByteArrayElements,
    ReleaseByteArrayElements, libcall, henv.alloc_eq_iff, henv.alloc_ne_null, hull, JNI_ABORT,
    Nat.add_assoc]
  generalize hN : (Native.mk _ s.native.rng) = N
  have e0 : N.mem (jenv.alloc s.npins) = s.heap j_c := by
    subst hN; simp [Function.update_apply, henv.alloc_eq_iff]
  have e1 : N.mem (jenv.alloc (s.npins + 1)) = s.heap j_m := by
    subst hN; simp [Function.update_apply, henv.alloc_eq_iff]
  have e2 : N.mem (jenv.alloc (s.npins + 2)) = s.heap j_n := by
    subst hN; simp [Function.update_apply, henv.alloc_eq_iff]
  have e3 : N.mem (jenv.alloc (s.npins + 3)) = s.heap j_k := by
    subst hN; simp [Function.update_apply, henv.alloc_eq_iff]
  obtain ⟨hr, hmem⟩ := hA.easy_afternm N (jenv.alloc s.npins) (jenv.alloc (s.npins + 1)) mlen
    (jenv.alloc (s.npins + 2)) (jenv.alloc (s.npins + 3))
    (by simp [GoodBufs, henv.alloc_eq_iff, henv.null_ne_alloc])
    (by rw [e1]; exact hm) (by rw [e2]; exact hn) (by rw [e3]; exact hk) (by rw [e0]; exact hc)
  rw [hr, hmem]
  refine ⟨rfl, ?_⟩
  funext a
  simp [writeAll, Function.update_apply, henv.alloc_eq_iff, e0, e1, e2, e3]
  split_ifs <;> simp_all

/-- Effect of the wrapper `crypto_box_open_easy_afternm` on the Java heap. -/
theorem box_open_easy_afternm_effect {sodium : Lib}
    {KeyPair : List Byte → List Byte → Prop}
    {box : List Byte → List Byte → List Byte → List Byte → List Byte}
    {shared : List Byte → List Byte → List Byte}
    {afternm : List Byte → List Byte → List Byte → List Byte}
    (hA : AfternmContract sodium KeyPair box shared afternm) {jenv : JNIEnv}
    (henv : GoodEnv jenv) (s : JState) (j_m j_c j_n j_k : JArray)
    (hd : [j_m, j_c, j_n, j_k].Nodup) (clen : Nat) (msg : List Byte) (hlen : clen < 2 ^ 63)
    (hc : clen ≤ (s.heap j_c).length) (hn : (s.heap j_n).length = 24)
    (hk : (s.heap j_k).length = 32)
    (henc : (s.heap j_c).take clen = afternm msg (s.heap j_n) (s.heap j_k))
    (hm : msg.length ≤ (s.heap j_m).length) :
    (Java_org_libsodium_jni_SodiumJNI_crypto_1box_1open_1easy_1afternm sodium jenv
      j_m j_c clen j_n j_k s).1 = 0 ∧
    (Java_org_libsodium_jni_SodiumJNI_crypto_1box_1open_1easy_1afternm sodium jenv
      j_m j_c clen j_n j_k s).2.heap
      = Function.update s.heap j_m (overwrite (s.heap j_m) msg) := by
  have hull : toULL (clen : Int) = clen := toULL_natCast (by omega)
  simp only [List.nodup_cons, List.mem_cons, List.mem_singleton, not_or, List.not_mem_nil,
    not_false_eq_true, List.nodup_nil, and_true] at hd
  simp [Java_org_libsodium_jni_SodiumJNI_crypto_1box_1open_1easy_1afternm,
    GetByteArrayElements, ReleaseByteArrayElements, libcall, henv.alloc_eq_iff,
    henv.alloc_ne_null, hull, JNI_ABORT, Nat.add_assoc]
  generalize hN : (Native.mk _ s.native.rng) = N
  have e0 : N.mem (jenv.alloc s.npins) = s.heap j_m := by
    subst hN; simp [Function.update_apply, henv.alloc_eq_iff]
  have e1 : N.mem (jenv.alloc (s.npins + 1)) = s.heap j_c := by
    subst hN; simp [Function.update_apply, henv.alloc_eq_iff]
  have e2 : N.mem (jenv.alloc (s.npins + 2)) = s.heap j_n := by
    subst hN; simp [Function.update_apply, henv.alloc_eq_iff]
  have e3 : N.mem (jenv.alloc (s.npins + 3)) = s.heap j_k := by
    subst hN; simp [Function.update_apply, henv.alloc_eq_iff]
  obtain ⟨hr, hmem⟩ := hA.open_easy_afternm N (jenv.alloc s.npins) (jenv.alloc (s.npins + 1))
    clen (jenv.alloc (s.npins + 2)) (jenv.alloc (s.npins + 3)) msg
    (by simp [GoodBufs, henv.alloc_eq_iff, henv.null_ne_alloc])
    (by rw [e1]; exact hc) (by rw [e2]; exact hn) (by rw [e3]; exact hk)
    (by rw [e1, e2, e3]; exact henc) (by rw [e0]; exact hm)
  rw [hr, hmem]
  refine ⟨rfl, ?_⟩
  funext a
  simp [writeAll, Function.update_apply, henv.alloc_eq_iff, e0, e1, e2, e3]
  split_ifs <;> simp_all

/-! ## C9: precomputed shared key -/

/-- C9. Under libsodium's contract for `crypto_box_easy`, `crypto_box_beforenm` and the
`_afternm` pair (the box is the `afternm` encryption under the shared key, and both parties
compute the same shared key) and with pins that succeed: with distinct arrays holding the key
pairs of A and B, a message of `mlen` bytes, a 24-byte nonce, 32-byte arrays `j_s`, `j_s2`,
ciphertext arrays `j_c`, `j_c2` of `mlen + 16` bytes and an output array `j_m2` of `mlen`
bytes, all five calls of the scenario return `0`; `crypto_box_beforenm(s, pkB, skA)` leaves
the shared key in `j_s`; `crypto_box_easy_afternm(c, m, mlen, n, s)` and
`crypto_box_easy(c2, m, mlen, n, pkB, skA)` leave the same bytes in `j_c` and `j_c2`; and
`crypto_box_open_easy_afternm(m2, c, mlen + 16, n, s2)` with B's shared key leaves the message
in `j_m2`. -/
theorem afternm_interop (sodium : Lib) (KeyPair : List Byte → List Byte → Prop)
    (box : List Byte → List Byte → List Byte → List Byte → List Byte)
    (shared : List Byte → List Byte → List Byte)
    (afternm : List Byte → List Byte → List Byte → List Byte)
    (hB : BoxContract sodium KeyPair box)
    (hA : AfternmContract sodium KeyPair box shared afternm)
    (jenv : JNIEnv) (henv : GoodEnv jenv) (s : JState)
    (j_s j_s2 j_pkA j_skA j_pkB j_skB j_c j_c2 j_m j_n j_m2 : JArray)
    (hd : [j_s, j_s2, j_pkA, j_skA, j_pkB, j_skB, j_c, j_c2, j_m, j_n, j_m2].Nodup)
    (mlen : Nat) (hlen : mlen + 16 < 2 ^ 63)
    (hkA : KeyPair (s.heap j_pkA) (s.heap j_skA)) (hkB : KeyPair (s.heap j_pkB) (s.heap j_skB))
    (hs : (s.heap j_s).length = 32) (hs2 : (s.heap j_s2).length = 32)
    (hm : (s.heap j_m).length = mlen) (hn : (s.heap j_n).length = 24)
    (hc : (s.heap j_c).length = mlen + 16) (hc2 : (s.heap j_c2).length = mlen + 16)
    (hm2 : (s.heap j_m2).length = mlen) :
    (afternmScenario sodium jenv j_s j_s2 j_pkA j_skA j_pkB j_skB j_c j_c2 j_m mlen j_n j_m2
      s).1 = [0, 0, 0, 0, 0] ∧
    (afternmScenario sodium jenv j_s j_s2 j_pkA j_skA j_pkB j_skB j_c j_c2 j_m mlen j_n j_m2
      s).2.heap j_s = shared (s.heap j_pkB) (s.heap j_skA) ∧
    (afternmScenario sodium jenv j_s j_s2 j_pkA j_skA j_pkB j_skB j_c j_c2 j_m mlen j_n j_m2
      s).2.heap j_c =
    (afternmScenario sodium jenv j_s j_s2 j_pkA j_skA j_pkB j_skB j_c j_c2 j_m mlen j_n j_m2
      s).2.heap j_c2 ∧
    (afternmScenario sodium jenv j_s j_s2 j_pkA j_skA j_pkB j_skB j_c j_c2 j_m mlen j_n j_m2
      s).2.heap j_m2 = s.heap j_m := by
  have hd' := List.nodup_reverse.mpr hd
  simp only [List.reverse_cons, List.reverse_nil, List.nil_append, List.cons_append,
    List.nodup_cons, List.mem_cons, List.mem_singleton, not_or, List.not_mem_nil,
    not_false_eq_true, List.nodup_nil, and_true] at hd hd'
  simp only [afternmScenario, JNI.bind_apply, JNI.pure_apply]
  have hmsg : (s.heap j_m).take mlen = s.heap j_m := by rw [← hm, List.take_length]
  -- A's shared key
  obtain ⟨h1r, h1h⟩ := box_beforenm_effect hA henv s j_s j_pkB j_skA (by simp [hd, hd'])
    ⟨_, hkB⟩ ⟨_, hkA⟩ hs
  generalize (Java_org_libsodium_jni_SodiumJNI_crypto_1box_1beforenm sodium jenv
    j_s j_pkB j_skA s) = x1 at h1r h1h ⊢
  have v1 : ∀ a, a ≠ j_s → x1.2.heap a = s.heap a := fun a h => by
    rw [h1h, Function.update_noteq h]
  have v1s : x1.2.heap j_s = shared (s.heap j_pkB) (s.heap j_skA) := by
    rw [h1h, Function.update_same]
  -- encryption under the shared key
  obtain ⟨h2r, h2h⟩ := box_easy_afternm_effect hA henv x1.2 j_c j_m j_n j_s (by simp [hd, hd'])
    mlen (by omega) (by rw [v1 j_m (by simp [hd, hd']), hm])
    (by rw [v1 j_n (by simp [hd, hd']), hn]) (by rw [v1s, hA.length_shared])
    (by rw [v1 j_c (by simp [hd, hd']), hc])
  rw [v1 j_m (by simp [hd, hd']), v1 j_n (by simp [hd, hd']), v1 j_c (by simp [hd, hd']), v1s,
    hmsg, overwrite_of_length_le (by rw [hc, hA.length_afternm, hm])] at h2h
  generalize (Java_org_libsodium_jni_SodiumJNI_crypto_1box_1easy_1afternm sodium jenv
    j_c j_m mlen j_n j_s x1.2) = x2 at h2r h2h ⊢
  have v2 : ∀ a, a ≠ j_s → a ≠ j_c → x2.2.heap a = s.heap a := fun a h h' => by
    rw [h2h, Function.update_noteq h', v1 a h]
  have v2c : x2.2.heap j_c
      = afternm (s.heap j_m) (s.heap j_n) (shared (s.heap j_pkB) (s.heap j_skA)) := by
    rw [h2h, Function.update_same]
  have v2s : x2.2.heap j_s = shared (s.heap j_pkB) (s.heap j_skA) := by
    rw [h2h, Function.update_noteq (by simp [hd, hd']), v1s]
  -- encryption with the key pair
  obtain ⟨h3r, h3h⟩ := box_easy_effect hB henv x2.2 j_c2 j_m j_n j_pkB j_skA
    (by simp [hd, hd']) mlen (by omega)
    (by rw [v2 j_m (by simp [hd, hd']) (by simp [hd, hd']), hm])
    (by rw [v2 j_n (by simp [hd, hd']) (by simp [hd, hd']), hn])
    ⟨_, by rw [v2 j_pkB (by simp [hd, hd']) (by simp [hd, hd'])]; exact hkB⟩
    ⟨_, by rw [v2 j_skA (by simp [hd, hd']) (by simp [hd, hd'])]; exact hkA⟩
    (by rw [v2 j_c2 (by simp [hd, hd']) (by simp [hd, hd']), hc2])
  rw [v2 j_m (by simp [hd, hd']) (by simp [hd, hd']),
    v2 j_n (by simp [hd, hd']) (by simp [hd, hd']),
    v2 j_pkB (by simp [hd, hd']) (by simp [hd, hd']),
    v2 j_skA (by simp [hd, hd']) (by simp [hd, hd']),
    v2 j_c2 (by simp [hd, hd']) (by simp [hd, hd']), hmsg,
    overwrite_of_length_le (by rw [hc2, hB.length_box, hm])] at h3h
  generalize (Java_org_libsodium_jni_SodiumJNI_crypto_1box_1easy sodium jenv
    j_c2 j_m mlen j_n j_pkB j_skA x2.2) = x3 at h3r h3h ⊢
  have v3 : ∀ a, a ≠ j_s → a ≠ j_c → a ≠ j_c2 → x3.2.heap a = s.heap a :=
    fun a h h' h'' => by
    rw [h3h, Function.update_noteq h'', v2 a h h']
  have v3c : x3.2.heap j_c
      = afternm (s.heap j_m) (s.heap j_n) (shared (s.heap j_pkB) (s.heap j_skA)) := by
    rw [h3h, Function.update_noteq (by simp [hd, hd']), v2c]
  have v3c2 : x3.2.heap j_c2 = box (s.heap j_m) (s.heap j_n) (s.heap j_pkB) (s.heap j_skA) := by
    rw [h3h, Function.update_same]
  have v3s : x3.2.heap j_s = shared (s.heap j_pkB) (s.heap j_skA) := by
    rw [h3h, Function.update_noteq (by simp [hd, hd']), v2s]
  -- B's shared key
  obtain ⟨h4r, h4h⟩ := box_beforenm_effect hA henv x3.2 j_s2 j_pkA j_skB (by simp [hd, hd'])
    ⟨_, by
      rw [v3 j_pkA (by simp [hd, hd']) (by simp [hd, hd']) (by simp [hd, hd'])]; exact hkA⟩
    ⟨_, by
      rw [v3 j_skB (by simp [hd, hd']) (by simp [hd, hd']) (by simp [hd, hd'])]; exact hkB⟩
    (by rw [v3 j_s2 (by simp [hd, hd']) (by simp [hd, hd']) (by simp [hd, hd']), hs2])
  rw [v3 j_pkA (by simp [hd, hd']) (by simp [hd, hd']) (by simp [hd, hd']),
    v3 j_skB (by simp [hd, hd']) (by simp [hd, hd']) (by simp [hd, hd']),
    ← hA.shared_comm _ _ _ _ hkA hkB] at h4h
  generalize (Java_org_libsodium_jni_SodiumJNI_crypto_1box_1beforenm sodium jenv
    j_s2 j_pkA j_skB x3.2) = x4 at h4r h4h ⊢
  have v4 : ∀ a, a ≠ j_s2 → x4.2.heap a = x3.2.heap a := fun a h => by
    rw [h4h, Function.update_noteq h]
  have v4s2 : x4.2.heap j_s2 = shared (s.heap j_pkB) (s.heap j_skA) := by
    rw [h4h, Function.update_same]
  have v4c : x4.2.heap j_c
      = afternm (s.heap j_m) (s.heap j_n) (shared (s.heap j_pkB) (s.heap j_skA)) := by
    rw [v4 j_c (by simp [hd, hd']), v3c]
  have v4n : x4.2.heap j_n = s.heap j_n := by
    rw [v4 j_n (by simp [hd, hd']),
      v3 j_n (by simp [hd, hd']) (by simp [hd, hd']) (by simp [hd, hd'])]
  have v4m2 : x4.2.heap j_m2 = s.heap j_m2 := by
    rw [v4 j_m2 (by simp [hd, hd']),
      v3 j_m2 (by simp [hd, hd']) (by simp [hd, hd']) (by simp [hd, hd'])]
  -- B opens
  obtain ⟨h5r, h5h⟩ := box_open_easy_afternm_effect hA henv x4.2 j_m2 j_c j_n j_s2
    (by simp [hd, hd']) (mlen + 16) (s.heap j_m) (by omega)
    (by rw [v4c, hA.length_afternm, hm]) (by rw [v4n, hn])
    (by rw [v4s2, hA.length_shared])
    (by rw [v4c, v4n, v4s2, List.take_of_length_le (by rw [hA.length_afternm, hm])])
    (by rw [v4m2, hm2, hm])
  generalize (Java_org_libsodium_jni_SodiumJNI_crypto_1box_1open_1easy_1afternm sodium jenv
    j_m2 j_c (mlen + 16 : Nat) j_n j_s2 x4.2) = x5 at h5r h5h ⊢
  have v5 : ∀ a, a ≠ j_m2 → x5.2.heap a = x4.2.heap a := fun a h => by
    rw [h5h, Function.update_noteq h]
  refine ⟨by rw [h1r, h2r, h3r, h4r, h5r], ?_, ?_, ?_⟩
  · rw [v5 j_s (by simp [hd, hd']), v4 j_s (by simp [hd, hd']), v3s]
  · rw [v5 j_c (by simp [hd, hd']), v4c, v5 j_c2 (by simp [hd, hd']),
      v4 j_c2 (by simp [hd, hd']), v3c2, hA.box_eq]
  · rw [h5h, Function.update_same, v4m2]
    exact overwrite_of_length_le (by rw [hm2, hm])

/-! ## C10: range of `randombytes_uniform` -/

/-- C10. Under libsodium's contract for `randombytes_uniform`, for every upper bound
`j_upper_bound > 0` (also one of `2^32` or more, which the wrapper narrows to `uint32_t`),
the wrapper `randombytes_uniform` returns `r` with `0 ≤ r < j_upper_bound`. -/
theorem randombytes_uniform_range (sodium : Lib) (hU : UniformContract sodium) (jenv : JNIEnv)
    (s : JState) (j_upper_bound : Int) (hpos : 0 < j_upper_bound) :
    0 ≤ (Java_org_libsodium_jni_SodiumJNI_randombytes_1uniform sodium jenv j_upper_bound s).1 ∧
    (Java_org_libsodium_jni_SodiumJNI_randombytes_1uniform sodium jenv j_upper_bound s).1
      < j_upper_bound := by
  simp only [Java_org_libsodium_jni_SodiumJNI_randombytes_1uniform, libcall, JNI.bind_apply,
    JNI.pure_apply]
  have hb : toUint32 j_upper_bound < 2 ^ 32 := by
    unfold toUint32 wrapUnsigned; omega
  have hbj : (toUint32 j_upper_bound : Int) ≤ j_upper_bound := by
    unfold toUint32 wrapUnsigned; omega
  obtain ⟨h2, h0⟩ := hU s.native (toUint32 j_upper_bound) hb
  generalize (sodium (LibCall.randombytes_uniform (toUint32 j_upper_bound)) s.native).2 = r
    at h2 h0 ⊢
  have hr : 0 ≤ r ∧ r < 2 ^ 32 ∧ r < j_upper_bound := by
    by_cases hlt : toUint32 j_upper_bound < 2
    · have := h0 hlt; omega
    · have := h2 (by omega); omega
  have e1 : (toUint32 r : Int) = r := by
    unfold toUint32 wrapUnsigned; omega
  have e2 : toJlong (toUint32 r : Int) = r := by
    rw [e1]; unfold toJlong wrapSigned; omega
  rw [e2]
  exact ⟨hr.1, hr.2.2⟩

/-! ## The stand-in library meets the contracts -/

theorem toySodium_secretbox : SecretboxContract toySodium toyEnc where
  length_enc := fun m _ _ => by
    show (List.replicate 16 0 ++ m).length = m.length + 16
    rw [List.length_append, List.length_replicate, Nat.add_comm]
  easy := fun N c m mlen n k _ _ _ _ _ =>
    ⟨rfl, by simp [toySodium, Native.write, writeAll, toyEnc]⟩
  open_easy := fun N m c clen n k msg _ _ _ _ henc _ => by
    have h1 : ((N.mem c).take clen).take 16 = toyBytes 16 0 := by
      rw [henc]; simp [toyEnc, toyBytes]
    have h2 : ((N.mem c).take clen).drop 16 = msg := by
      rw [henc]; simp [toyEnc, toyBytes]
    exact ⟨by simp [toySodium, h1], by simp [toySodium, h1, h2, Native.write, writeAll]⟩

theorem toySodium_boxKeypair : BoxKeypairContract toySodium ToyBoxKeyPair where
  length_keys := fun _ _ h => h
  keypair := fun N pk sk hg _ _ => by
    refine ⟨toyBytes 32 1, toyBytes 32 2, ⟨by simp [toyBytes], by simp [toyBytes]⟩, rfl, ?_⟩
    have hne : sk ≠ pk := by
      simp only [GoodBufs, List.nodup_cons, List.mem_singleton] at hg
      exact fun h => hg.1.1 h.symm
    simp [toySodium, Native.write, writeAll, Function.update_noteq hne]

theorem toySodium_box : BoxContract toySodium ToyBoxKeyPair toyBox where
  length_box := fun m _ _ _ => by
    show (List.replicate 16 0 ++ m).length = m.length + 16
    rw [List.length_append, List.length_replicate, Nat.add_comm]
  easy := fun N c m mlen n pk sk _ _ _ _ _ _ =>
    ⟨rfl, by simp [toySodium, Native.write, writeAll, toyBox]⟩
  open_easy := fun N m c clen n pk sk msg skS pkR _ _ _ _ _ hbox _ => by
    have h1 : ((N.mem c).take clen).take 16 = toyBytes 16 0 := by
      rw [hbox]; simp [toyBox, toyBytes]
    have h2 : ((N.mem c).take clen).drop 16 = msg := by
      rw [hbox]; simp [toyBox, toyBytes]
    exact ⟨by simp [toySodium, h1], by simp [toySodium, h1, h2, Native.write, writeAll]⟩

theorem toySodium_afternm :
    AfternmContract toySodium ToyBoxKeyPair toyBox toyShared toyEnc where
  length_shared := fun _ _ => by simp [toyShared, toyBytes]
  length_afternm := fun m _ _ => by
    show (List.replicate 16 0 ++ m).length = m.length + 16
    rw [List.length_append, List.length_replicate, Nat.add_comm]
  box_eq := fun _ _ _ _ => rfl
  shared_comm := fun _ _ _ _ _ _ => rfl
  beforenm := fun N k pk sk _ _ _ _ =>
    ⟨rfl, by simp [toySodium, Native.write, writeAll, toyShared]⟩
  easy_afternm := fun N c m mlen n k _ _ _ _ _ =>
    ⟨rfl, by simp [toySodium, Native.write, writeAll, toyEnc]⟩
  open_easy_afternm := fun N m c clen n k msg _ _ _ _ henc _ => by
    have h1 : ((N.mem c).take clen).take 16 = toyBytes 16 0 := by
      rw [henc]; simp [toyEnc, toyBytes]
    have h2 : ((N.mem c).take clen).drop 16 = msg := by
      rw [henc]; simp [toyEnc, toyBytes]
    exact ⟨by simp [toySodium, h1], by simp [toySodium, h1, h2, Native.write, writeAll]⟩

theorem toySodium_seal : SealContract toySodium ToyBoxKeyPair ToySealed where
  box_seal := fun N c m mlen pk _ hm _ _ =>
    ⟨toyBytes 48 0 ++ (N.mem m).take mlen, rfl, by simp [toyBytes]; omega, rfl,
      by simp [toySodium, Native.write, writeAll]⟩
  box_seal_open := fun N m c clen pk sk msg _ _ _ hct _ => by
    have hct' : (N.mem c).take clen = toyBytes 48 0 ++ msg := hct
    have h1 : ((N.mem c).take clen).take 48 = toyBytes 48 0 := by
      rw [hct']; simp [toyBytes]
    have h2 : ((N.mem c).take clen).drop 48 = msg := by
      rw [hct']; simp [toyBytes]
    exact ⟨by simp [toySodium, h1], by simp [toySodium, h1, h2, Native.write, writeAll]⟩

theorem toySodium_sign : SignContract toySodium ToySignKeyPair toySign where
  length_keys := fun _ _ h => h
  length_sign := fun _ _ => by simp [toySign, toyBytes]
  keypair := fun N pk sk hg _ _ => by
    refine ⟨toyBytes 32 1, toyBytes 64 2, ⟨by simp [toyBytes], by simp [toyBytes]⟩, rfl, ?_⟩
    have hne : sk ≠ pk := by
      simp only [GoodBufs, List.nodup_cons, List.mem_singleton] at hg
      exact fun h => hg.1.1 h.symm
    simp [toySodium, Native.write, writeAll, Function.update_noteq hne]
  detached := fun N sig m mlen sk _ _ _ _ =>
    ⟨rfl, by simp [toySodium, Native.write, writeAll, toySign]⟩
  verify_detached := fun N sig m mlen pk sk _ _ _ hsig => by
    have h1 : (N.mem sig).take 64 = toyBytes 64 3 := hsig
    exact ⟨by simp [toySodium, h1], by simp [toySodium, writeAll]⟩

theorem toySodium_uniform : UniformContract toySodium := by
  intro N b _
  simp only [toySodium]
  refine ⟨fun h2 => ?_, fun h0 => ?_⟩
  · rw [if_neg (by omega)]
    exact ⟨by positivity, by exact_mod_cast Nat.mod_lt _ (by omega)⟩
  · rw [if_pos h0]

/-! ## The round trips on the sample process -/

/-- C3 at a sample input: a 3-byte message, the stand-in library. -/
theorem secretbox_roundtrip_witness :
    (Java_org_libsodium_jni_SodiumJNI_crypto_1secretbox_1easy toySodium sampleEnv
      10 1 (3 : Nat) 2 3 sampleState).1 = 0 ∧
    (Java_org_libsodium_jni_SodiumJNI_crypto_1secretbox_1open_1easy toySodium sampleEnv
      20 10 (3 + 16 : Nat) 2 3
      (Java_org_libsodium_jni_SodiumJNI_crypto_1secretbox_1easy toySodium sampleEnv
        10 1 (3 : Nat) 2 3 sampleState).2).1 = 0 ∧
    ((Java_org_libsodium_jni_SodiumJNI_crypto_1secretbox_1open_1easy toySodium sampleEnv
      20 10 (3 + 16 : Nat) 2 3
      (Java_org_libsodium_jni_SodiumJNI_crypto_1secretbox_1easy toySodium sampleEnv
        10 1 (3 : Nat) 2 3 sampleState).2).2.heap 20).take 3 = sampleState.heap 1 :=
  secretbox_roundtrip toySodium toyEnc toySodium_secretbox sampleEnv sampleEnv_good
    sampleState 10 1 2 3 20 (by decide) 3 (by norm_num) (by decide) (by decide) (by decide)
    (by decide) (by decide)

/-- C4 at a sample input: a 3-byte message, the stand-in library. -/
theorem keypair_box_roundtrip_witness :
    (boxRoundTrip toySodium sampleEnv 3 4 5 6 10 1 3 2 20 sampleState).1 = [0, 0, 0, 0] ∧
    (boxRoundTrip toySodium sampleEnv 3 4 5 6 10 1 3 2 20 sampleState).2.heap 20
      = sampleState.heap 1 :=
  keypair_box_roundtrip toySodium ToyBoxKeyPair toyBox toySodium_boxKeypair toySodium_box
    sampleEnv sampleEnv_good sampleState 3 4 5 6 10 1 2 20 (by decide) 3 (by norm_num) (by decide)
    (by decide) (by decide) (by decide) (by decide) (by decide) (by decide) (by decide)

/-- C5 at a sample input: a 3-byte message, the stand-in library. -/
theorem sign_roundtrip_witness :
    (signRoundTrip toySodium sampleEnv 3 7 12 1 3 sampleState).1 = [0, 0, 0] ∧
    (signRoundTrip toySodium sampleEnv 3 7 12 1 3 sampleState).2.heap 12
      = toySign (sampleState.heap 1)
          ((signRoundTrip toySodium sampleEnv 3 7 12 1 3 sampleState).2.heap 7) ∧
    ((signRoundTrip toySodium sampleEnv 3 7 12 1 3 sampleState).2.heap 12).length = 64 ∧
    (callsOf (((signRoundTrip toySodium sampleEnv 3 7 12 1 3 sampleState).2.trace).drop
      sampleState.trace.length)).map Prod.fst =
      [LibCall.crypto_sign_keypair (sampleEnv.alloc (sampleState.npins + 1))
         (sampleEnv.alloc sampleState.npins),
       LibCall.crypto_sign_detached (sampleEnv.alloc (sampleState.npins + 2)) NULL
         (sampleEnv.alloc (sampleState.npins + 3)) 3 (sampleEnv.alloc (sampleState.npins + 4)),
       LibCall.crypto_sign_verify_detached (sampleEnv.alloc (sampleState.npins + 5))
         (sampleEnv.alloc (sampleState.npins + 6)) 3
         (sampleEnv.alloc (sampleState.npins + 7))] :=
  sign_roundtrip toySodium ToySignKeyPair toySign toySodium_sign sampleEnv
    sampleEnv_good sampleState 3 7 12 1 (by decide) 3 (by norm_num) (by decide) (by decide)
    (by decide) (by decide)

/-- C6 at a sample input: a 3-byte message, the stand-in library. -/
theorem seal_roundtrip_witness :
    (sealRoundTrip toySodium sampleEnv 3 4 11 1 3 20 sampleState).1 = [0, 0, 0] ∧
    ToySealed ((sealRoundTrip toySodium sampleEnv 3 4 11 1 3 20 sampleState).2.heap 11)
      (sampleState.heap 1)
      ((sealRoundTrip toySodium sampleEnv 3 4 11 1 3 20 sampleState).2.heap 3) ∧
    (sealRoundTrip toySodium sampleEnv 3 4 11 1 3 20 sampleState).2.heap 20
      = sampleState.heap 1 :=
  seal_roundtrip toySodium ToyBoxKeyPair ToySealed toySodium_boxKeypair
    toySodium_seal sampleEnv sampleEnv_good sampleState 3 4 11 1 20 (by decide) 3
    (by norm_num) (by decide) (by decide) (by decide) (by decide) (by decide)

/-- C9 at a sample input: a 3-byte message, the stand-in library. -/
theorem afternm_interop_witness :
    (afternmScenario toySodium sampleEnv 3 4 5 6 8 9 10 13 1 3 2 20 sampleState).1
      = [0, 0, 0, 0, 0] ∧
    (afternmScenario toySodium sampleEnv 3 4 5 6 8 9 10 13 1 3 2 20 sampleState).2.heap 3
      = toyShared (sampleState.heap 8) (sampleState.heap 6) ∧
    (afternmScenario toySodium sampleEnv 3 4 5 6 8 9 10 13 1 3 2 20 sampleState).2.heap 10 =
    (afternmScenario toySodium sampleEnv 3 4 5 6 8 9 10 13 1 3 2 20 sampleState).2.heap 13 ∧
    (afternmScenario toySodium sampleEnv 3 4 5 6 8 9 10 13 1 3 2 20 sampleState).2.heap 20
      = sampleState.heap 1 :=
  afternm_interop toySodium ToyBoxKeyPair toyBox toyShared toyEnc toySodium_box
    toySodium_afternm sampleEnv sampleEnv_good sampleState 3 4 5 6 8 9 10 13 1 2 20
    (by decide) 3 (by norm_num) ⟨by decide, by decide⟩ ⟨by decide, by decide⟩ (by decide)
    (by decide) (by decide) (by decide) (by decide) (by decide) (by decide)

/-- C10 at a sample input: the bound `2^32 + 5`, which the wrapper narrows to `5`. -/
theorem randombytes_uniform_range_witness :
    0 ≤ (Java_org_libsodium_jni_SodiumJNI_randombytes_1uniform toySodium sampleEnv
      (2 ^ 32 + 5) sampleState).1 ∧
    (Java_org_libsodium_jni_SodiumJNI_randombytes_1uniform toySodium sampleEnv
      (2 ^ 32 + 5) sampleState).1 < 2 ^ 32 + 5 :=
  randombytes_uniform_range toySodium toySodium_uniform sampleEnv sampleState (2 ^ 32 + 5)
    (by norm_num)

/-! ## C8: the two forwarding surfaces -/

/-- C8 as stated fails: the header and the JNI shim do not declare the same operations;
`sodium_init` is forwarded by the JNI shim and absent from `RCTSodium.h`, and
`crypto_aead_xchacha20poly1305_ietf_encrypt` is declared by `RCTSodium.h` and has no JNI
wrapper. -/
theorem surfaces_not_equal :
    ¬ (∀ op : String, op ∈ rctSodiumMethods ↔ op ∈ jniOperations) ∧
    "sodium_init" ∈ jniOperations ∧ "sodium_init" ∉ rctSodiumMethods ∧
    "crypto_aead_xchacha20poly1305_ietf_encrypt" ∈ rctSodiumMethods ∧
    "crypto_aead_xchacha20poly1305_ietf_encrypt" ∉ jniOperations := by
  have h1 : "sodium_init" ∈ jniOperations := by decide
  have h2 : "sodium_init" ∉ rctSodiumMethods := by decide
  have h3 : "crypto_aead_xchacha20poly1305_ietf_encrypt" ∈ rctSodiumMethods := by decide
  have h4 : "crypto_aead_xchacha20poly1305_ietf_encrypt" ∉ jniOperations := by decide
  exact ⟨fun h => h2 ((h _).mpr h1), h1, h2, h3, h4⟩

/-- C8, amended. Leaving aside the constant accessors, the header `RCTSodium.h` and the JNI
shim share 25 operations; the header alone declares the three
`crypto_aead_xchacha20poly1305_ietf_*` methods; the JNI shim alone forwards `sodium_init`,
`crypto_sign_detached`, `crypto_sign_verify_detached`, `crypto_sign_seed_keypair`,
`crypto_sign_ed25519_sk_to_seed` and the two `*_to_curve25519` conversions. -/
theorem surfaces_compared :
    rctSodiumMethods.filter (fun op => op ∈ jniOperations) =
      ["sodium_version_string", "randombytes_random", "randombytes_uniform",
       "randombytes_buf", "randombytes_close", "randombytes_stir", "crypto_secretbox_keygen",
       "crypto_secretbox_easy", "crypto_secretbox_open_easy", "crypto_auth_keygen",
       "crypto_auth", "crypto_auth_verify", "crypto_box_keypair", "crypto_box_beforenm",
       "crypto_box_easy", "crypto_box_easy_afternm", "crypto_box_open_easy",
       "crypto_box_open_easy_afternm", "crypto_pwhash", "crypto_scalarmult_base",
       "crypto_scalarmult", "crypto_sign_keypair", "crypto_sign_ed25519_sk_to_pk",
       "crypto_box_seal", "crypto_box_seal_open"] ∧
    rctSodiumMethods.filter (fun op => op ∉ jniOperations) =
      ["crypto_aead_xchacha20poly1305_ietf_keygen",
       "crypto_aead_xchacha20poly1305_ietf_encrypt",
       "crypto_aead_xchacha20poly1305_ietf_decrypt"] ∧
    jniOperations.filter (fun op => op ∉ rctSodiumMethods) =
      ["sodium_init", "crypto_sign_detached", "crypto_sign_verify_detached",
       "crypto_sign_seed_keypair", "crypto_sign_ed25519_sk_to_seed",
       "crypto_sign_ed25519_pk_to_curve25519", "crypto_sign_ed25519_sk_to_curve25519"] := by
  refine ⟨?_, ?_, ?_⟩ <;> decide

/-! ## C11: unsigned 32-bit results -/

/-- C11. The wrappers `randombytes_random` and `randombytes_uniform` return the library's
`uint32_t` value unchanged: whenever the library call returns `v` with `0 ≤ v < 2^32`, the
`jlong` returned is `v`, so it lies in `[0, 2^32)` and is not negative, also for
`v ≥ 2^31`. -/
theorem uint32_result_widened (sodium : Lib) (jenv : JNIEnv) (s : JState) (v : Int)
    (hv0 : 0 ≤ v) (hv : v < 2 ^ 32) :
    ((sodium LibCall.randombytes_random s.native).2 = v →
      (Java_org_libsodium_jni_SodiumJNI_randombytes_1random sodium jenv s).1 = v) ∧
    (∀ j_upper_bound : Int,
      (sodium (LibCall.randombytes_uniform (toUint32 j_upper_bound)) s.native).2 = v →
      (Java_org_libsodium_jni_SodiumJNI_randombytes_1uniform sodium jenv j_upper_bound s).1
        = v) ∧
    0 ≤ (Java_org_libsodium_jni_SodiumJNI_randombytes_1random sodium jenv s).1 ∧
    (Java_org_libsodium_jni_SodiumJNI_randombytes_1random sodium jenv s).1 < 2 ^ 32 ∧
    (∀ j_upper_bound : Int,
      0 ≤ (Java_org_libsodium_jni_SodiumJNI_randombytes_1uniform sodium jenv
        j_upper_bound s).1 ∧
      (Java_org_libsodium_jni_SodiumJNI_randombytes_1uniform sodium jenv
        j_upper_bound s).1 < 2 ^ 32) := by
  have key : ∀ r : Int, 0 ≤ toJlong (toUint32 r : Int) ∧
      toJlong (toUint32 r : Int) < 2 ^ 32 ∧
      (0 ≤ r → r < 2 ^ 32 → toJlong (toUint32 r : Int) = r) := by
    intro r
    unfold toJlong toUint32 wrapSigned wrapUnsigned
    omega
  simp only [Java_org_libsodium_jni_SodiumJNI_randombytes_1random,
    Java_org_libsodium_jni_SodiumJNI_randombytes_1uniform, libcall, JNI.bind_apply,
    JNI.pure_apply]
  refine ⟨fun h => ?_, fun j h => ?_, (key _).1, (key _).2.1,
    fun j => ⟨(key _).1, (key _).2.1⟩⟩
  · rw [h]; exact (key v).2.2 hv0 hv
  · rw [h]; exact (key v).2.2 hv0 hv

/-- C11 at a sample input: a library that returns 3000000000, which is above `2^31`. -/
theorem uint32_result_widened_witness :
    (Java_org_libsodium_jni_SodiumJNI_randombytes_1random (constSodium 3000000000) sampleEnv
      sampleState).1 = 3000000000 :=
  (uint32_result_widened (constSodium 3000000000) sampleEnv sampleState 3000000000
    (by norm_num) (by norm_num)).1 rfl

/-! ## C12: the password-hashing limit accessors -/

/-- C12, the code evaluated. Four of the six accessors return their constant. The other two
do not: `crypto_pwhash_opslimit_max` returns `-1`, not 4294967295, and
`crypto_pwhash_memlimit_max` returns `-1024` on a 64-bit target, not 4398046510080, and
`-2147483648` on a 32-bit target, not 2147483648: the constant does not fit a `jint`. -/
theorem pwhash_limit_accessors (jenv : JNIEnv) :
    Java_org_libsodium_jni_SodiumJNI_crypto_1pwhash_1opslimit_1min jenv
      = crypto_pwhash_OPSLIMIT_MIN ∧
    Java_org_libsodium_jni_SodiumJNI_crypto_1pwhash_1opslimit_1moderate jenv
      = crypto_pwhash_OPSLIMIT_MODERATE ∧
    Java_org_libsodium_jni_SodiumJNI_crypto_1pwhash_1memlimit_1min jenv
      = crypto_pwhash_MEMLIMIT_MIN ∧
    Java_org_libsodium_jni_SodiumJNI_crypto_1pwhash_1memlimit_1moderate jenv
      = crypto_pwhash_MEMLIMIT_MODERATE ∧
    Java_org_libsodium_jni_SodiumJNI_crypto_1pwhash_1opslimit_1max jenv = -1 ∧
    Java_org_libsodium_jni_SodiumJNI_crypto_1pwhash_1opslimit_1max jenv
      ≠ crypto_pwhash_OPSLIMIT_MAX ∧
    Java_org_libsodium_jni_SodiumJNI_crypto_1pwhash_1memlimit_1max Target.bits64 jenv
      = -1024 ∧
    Java_org_libsodium_jni_SodiumJNI_crypto_1pwhash_1memlimit_1max Target.bits64 jenv
      ≠ crypto_pwhash_MEMLIMIT_MAX Target.bits64 ∧
    Java_org_libsodium_jni_SodiumJNI_crypto_1pwhash_1memlimit_1max Target.bits32 jenv
      = -2147483648 ∧
    Java_org_libsodium_jni_SodiumJNI_crypto_1pwhash_1memlimit_1max Target.bits32 jenv
      ≠ crypto_pwhash_MEMLIMIT_MAX Target.bits32 := by
  simp only [Java_org_libsodium_jni_SodiumJNI_crypto_1pwhash_1opslimit_1min,
    Java_org_libsodium_jni_SodiumJNI_crypto_1pwhash_1opslimit_1moderate,
    Java_org_libsodium_jni_SodiumJNI_crypto_1pwhash_1opslimit_1max,
    Java_org_libsodium_jni_SodiumJNI_crypto_1pwhash_1memlimit_1min,
    Java_org_libsodium_jni_SodiumJNI_crypto_1pwhash_1memlimit_1moderate,
    Java_org_libsodium_jni_SodiumJNI_crypto_1pwhash_1memlimit_1max]
  refine ⟨?_, ?_, ?_, ?_, ?_, ?_, ?_, ?_, ?_, ?_⟩ <;> decide

/-! ## C13: lengths and limits -/

theorem toULL_of_isJlong {v : Int} (h : IsJlong v) :
    (toULL v : Int) = v % 2 ^ 64 ∧ (0 ≤ v → (toULL v : Int) = v) ∧
    (v < 0 → (toULL v : Int) = 2 ^ 64 + v) := by
  unfold IsJlong at h
  unfold toULL wrapUnsigned
  omega

theorem isJlong_of_isJint {v : Int} (h : IsJint v) : IsJlong v := by
  unfold IsJint at h
  unfold IsJlong
  omega

set_option maxHeartbeats 4000000 in
/-- The length and limit arguments of the library call of a wrapper call. -/
theorem run_lengths (sodium : Lib) (jenv : JNIEnv) (w : JCall) (s : JState) :
    ∀ cr ∈ callsOf (w.events sodium jenv s), cr.1.lengths = w.lengths.map toULL := by
  cases w <;>
    simp [JCall.events, JCall.run, JCall.lengths, LibCall.lengths,
      Java_org_libsodium_jni_SodiumJNI_sodium_1init,
      Java_org_libsodium_jni_SodiumJNI_randombytes_1random,
      Java_org_libsodium_jni_SodiumJNI_randombytes_1uniform,
      Java_org_libsodium_jni_SodiumJNI_randombytes_1buf,
      Java_org_libsodium_jni_SodiumJNI_randombytes_1close,
      Java_org_libsodium_jni_SodiumJNI_randombytes_1stir,
      Java_org_libsodium_jni_SodiumJNI_crypto_1secretbox_1keygen,
      Java_org_libsodium_jni_SodiumJNI_crypto_1secretbox_1easy,
      Java_org_libsodium_jni_SodiumJNI_crypto_1secretbox_1open_1easy,
      Java_org_libsodium_jni_SodiumJNI_crypto_1auth_1keygen,
      Java_org_libsodium_jni_SodiumJNI_crypto_1auth,
      Java_org_libsodium_jni_SodiumJNI_crypto_1auth_1verify,
      Java_org_libsodium_jni_SodiumJNI_crypto_1box_1keypair,
      Java_org_libsodium_jni_SodiumJNI_crypto_1box_1easy,
      Java_org_libsodium_jni_SodiumJNI_crypto_1box_1open_1easy,
      Java_org_libsodium_jni_SodiumJNI_crypto_1box_1beforenm,
      Java_org_libsodium_jni_SodiumJNI_crypto_1box_1easy_1afternm,
      Java_org_libsodium_jni_SodiumJNI_crypto_1box_1open_1easy_1afternm,
      Java_org_libsodium_jni_SodiumJNI_crypto_1box_1seal,
      Java_org_libsodium_jni_SodiumJNI_crypto_1box_1seal_1open,
      Java_org_libsodium_jni_SodiumJNI_crypto_1pwhash,
      Java_org_libsodium_jni_SodiumJNI_crypto_1scalarmult_1base,
      Java_org_libsodium_jni_SodiumJNI_crypto_1scalarmult,
      Java_org_libsodium_jni_SodiumJNI_crypto_1sign_1detached,
      Java_org_libsodium_jni_SodiumJNI_crypto_1sign_1verify_1detached,
      Java_org_libsodium_jni_SodiumJNI_crypto_1sign_1keypair,
      Java_org_libsodium_jni_SodiumJNI_crypto_1sign_1seed_1keypair,
      Java_org_libsodium_jni_SodiumJNI_crypto_1sign_1ed25519_1sk_1to_1seed,
      Java_org_libsodium_jni_SodiumJNI_crypto_1sign_1ed25519_1pk_1to_1curve25519,
      Java_org_libsodium_jni_SodiumJNI_crypto_1sign_1ed25519_1sk_1to_1curve25519,
      Java_org_libsodium_jni_SodiumJNI_crypto_1sign_1ed25519_1sk_1to_1pk,
      GetByteArrayElements, ReleaseByteArrayElements, libcall, callsOf]

/-- C13. The library call of a wrapper receives each Java length or limit `v` as
`(unsigned long long) v`, whatever the arrays hold (the state `s` is arbitrary, the wrapper
never looks at an array's length): the value is `v mod 2^64`, that is `v` for `v ≥ 0` and
`2^64 + v` for `v < 0`, also for the 32-bit `jint` parameters, which are sign-extended. -/
theorem lengths_reach_library (sodium : Lib) (jenv : JNIEnv) (w : JCall) (s : JState) :
    (∃ c r, callsOf (w.events sodium jenv s) = [(c, r)] ∧
      c.lengths = w.lengths.map toULL) ∧
    (∀ v : Int, IsJlong v →
      (toULL v : Int) = v % 2 ^ 64 ∧ (0 ≤ v → (toULL v : Int) = v) ∧
      (v < 0 → (toULL v : Int) = 2 ^ 64 + v)) ∧
    (∀ v : Int, IsJint v → v < 0 →
      (toULL v : Int) = 2 ^ 64 + v ∧ (toULL v : Int) ≠ 2 ^ 32 + v) := by
  refine ⟨?_, fun v hv => toULL_of_isJlong hv, fun v hv hneg => ?_⟩
  · obtain ⟨c, r, hcr, _⟩ := run_call sodium jenv w s
    exact ⟨c, r, hcr, run_lengths sodium jenv w s (c, r) (by simp [hcr])⟩
  · have h := (toULL_of_isJlong (isJlong_of_isJint hv)).2.2 hneg
    exact ⟨h, by rw [h]; omega⟩

/-- C13 at a sample input: `randombytes_buf` with the `jint` size `-1` on a 3-byte array
hands the library the size `2^64 - 1`. -/
theorem lengths_reach_library_witness :
    (∃ c r, callsOf ((JCall.randombytes_buf 1 (-1)).events toySodium sampleEnv sampleState)
        = [(c, r)] ∧
      c.lengths = (JCall.randombytes_buf 1 (-1)).lengths.map toULL) ∧
    (toULL (-1) : Int) = 2 ^ 64 + (-1) ∧ (toULL (-1) : Int) ≠ 2 ^ 32 + (-1) :=
  have h := lengths_reach_library toySodium sampleEnv (JCall.randombytes_buf 1 (-1)) sampleState
  ⟨h.1, h.2.2 (-1) (by decide) (by decide)⟩

/-! ## C14: input arrays -/

set_option maxHeartbeats 8000000 in
/-- Frame of a wrapper call: with a library that writes only its output buffers, pins that
succeed and distinct arrays, every array outside the wrapper's output arrays is unchanged. -/
theorem run_frame (sodium : Lib) (hW : WritesOnlyOutputs sodium) (jenv : JNIEnv)
    (henv : GoodEnv jenv) (w : JCall) (s : JState) (hd : w.arrays.Nodup) (a : JArray)
    (ha : a ∉ w.outputs) : (w.run sodium jenv s).2.heap a = s.heap a := by
  have hd' := List.nodup_reverse.mpr hd
  have hW' : ∀ (c : LibCall) (N : Native) (p : Ptr), p ∉ c.outputs →
      (sodium c N).1.mem p = N.mem p := hW
  cases w <;>
    simp only [JCall.arrays, JCall.outputs, List.reverse_cons, List.reverse_nil,
      List.nil_append, List.cons_append, List.nodup_cons, List.mem_cons, List.mem_singleton,
      not_or, List.not_mem_nil, not_false_eq_true, List.nodup_nil, and_true] at hd hd' ha <;>
    simp [JCall.run,
      Java_org_libsodium_jni_SodiumJNI_sodium_1init,
      Java_org_libsodium_jni_SodiumJNI_randombytes_1random,
      Java_org_libsodium_jni_SodiumJNI_randombytes_1uniform,
      Java_org_libsodium_jni_SodiumJNI_randombytes_1buf,
      Java_org_libsodium_jni_SodiumJNI_randombytes_1close,
      Java_org_libsodium_jni_SodiumJNI_randombytes_1stir,
      Java_org_libsodium_jni_SodiumJNI_crypto_1secretbox_1keygen,
      Java_org_libsodium_jni_SodiumJNI_crypto_1secretbox_1easy,
      Java_org_libsodium_jni_SodiumJNI_crypto_1secretbox_1open_1easy,
      Java_org_libsodium_jni_SodiumJNI_crypto_1auth_1keygen,
      Java_org_libsodium_jni_SodiumJNI_crypto_1auth,
      Java_org_libsodium_jni_SodiumJNI_crypto_1auth_1verify,
      Java_org_libsodium_jni_SodiumJNI_crypto_1box_1keypair,
      Java_org_libsodium_jni_SodiumJNI_crypto_1box_1easy,
      Java_org_libsodium_jni_SodiumJNI_crypto_1box_1open_1easy,
      Java_org_libsodium_jni_SodiumJNI_crypto_1box_1beforenm,
      Java_org_libsodium_jni_SodiumJNI_crypto_1box_1easy_1afternm,
      Java_org_libsodium_jni_SodiumJNI_crypto_1box_1open_1easy_1afternm,
      Java_org_libsodium_jni_SodiumJNI_crypto_1box_1seal,
      Java_org_libsodium_jni_SodiumJNI_crypto_1box_1seal_1open,
      Java_org_libsodium_jni_SodiumJNI_crypto_1pwhash,
      Java_org_libsodium_jni_SodiumJNI_crypto_1scalarmult_1base,
      Java_org_libsodium_jni_SodiumJNI_crypto_1scalarmult,
      Java_org_libsodium_jni_SodiumJNI_crypto_1sign_1detached,
      Java_org_libsodium_jni_SodiumJNI_crypto_1sign_1verify_1detached,
      Java_org_libsodium_jni_SodiumJNI_crypto_1sign_1keypair,
      Java_org_libsodium_jni_SodiumJNI_crypto_1sign_1seed_1keypair,
      Java_org_libsodium_jni_SodiumJNI_crypto_1sign_1ed25519_1sk_1to_1seed,
      Java_org_libsodium_jni_SodiumJNI_crypto_1sign_1ed25519_1pk_1to_1curve25519,
      Java_org_libsodium_jni_SodiumJNI_crypto_1sign_1ed25519_1sk_1to_1curve25519,
      Java_org_libsodium_jni_SodiumJNI_crypto_1sign_1ed25519_1sk_1to_1pk,
      GetByteArrayElements, ReleaseByteArrayElements, libcall, henv.alloc_eq_iff,
      henv.alloc_ne_null, henv.null_ne_alloc, JNI_ABORT, Nat.add_assoc, Function.update_apply,
      hW', LibCall.outputs, hd, hd', ha] <;>
    (try split_ifs) <;>
    simp_all [Function.update_apply, hW', LibCall.outputs, henv.alloc_eq_iff,
      henv.alloc_ne_null, henv.null_ne_alloc]

theorem toyEd25519_writes : WritesOnlyOutputs toyEd25519 := by
  intro c N p hp
  cases c <;>
    simp only [LibCall.outputs, List.mem_cons, List.mem_singleton, not_or, List.not_mem_nil,
      not_false_eq_true, and_true] at hp <;>
    simp only [toyEd25519, toySodium, Native.write] <;>
    (try split_ifs) <;>
    simp [Function.update_apply, hp]

/-- C14 as stated fails: `crypto_sign_ed25519_sk_to_pk(sk, pk)` changes its `pk` array, which
the specification's list of designated outputs does not name; so do `randombytes_buf` with
`buf` and the two `keygen` wrappers with `key`. Here `j_sk` is array 14, a 64-byte secret key
of 32 nines followed by 32 tens, and `j_pk` is array 3, which holds 32 nines before the call.
With every library whose `crypto_sign_ed25519_sk_to_pk` copies bytes 32 to 63 of `sk` into
`pk` and returns 0, as that of libsodium does, the wrapper returns 0 and array 3 holds 32 tens
after the call: the release of `j_pk` with mode 0 writes the buffer back. The stand-in library
is one such library, and it writes only to its output buffers. -/
theorem designated_outputs_incomplete :
    ¬ (∀ (sodium : Lib) (jenv : JNIEnv) (w : JCall) (s : JState) (a : JArray),
        WritesOnlyOutputs sodium → GoodEnv jenv → w.arrays.Nodup →
        a ∉ w.designatedOutputs → (w.run sodium jenv s).2.heap a = s.heap a) ∧
    3 ∉ (JCall.crypto_sign_ed25519_sk_to_pk 14 3).designatedOutputs ∧
    sampleKeyState.heap 14 = List.replicate 32 9 ++ List.replicate 32 10 ∧
    sampleKeyState.heap 3 = List.replicate 32 9 ∧
    (∀ sodium : Lib,
      (∀ N pk sk, sodium (.crypto_sign_ed25519_sk_to_pk pk sk) N
        = (N.write pk (((N.mem sk).drop 32).take 32), 0)) →
      ((JCall.crypto_sign_ed25519_sk_to_pk 14 3).run sodium sampleEnv sampleKeyState).1
        = JValue.jint 0 ∧
      ((JCall.crypto_sign_ed25519_sk_to_pk 14 3).run sodium sampleEnv sampleKeyState).2.heap 3
        = List.replicate 32 10) ∧
    ((JCall.crypto_sign_ed25519_sk_to_pk 14 3).run toyEd25519 sampleEnv sampleKeyState).2.heap 3
      = List.replicate 32 10 ∧
    ((JCall.crypto_sign_ed25519_sk_to_pk 14 3).run toyEd25519 sampleEnv sampleKeyState).2.heap 3
      ≠ sampleKeyState.heap 3 := by
  have h1 : 3 ∉ (JCall.crypto_sign_ed25519_sk_to_pk 14 3).designatedOutputs := by decide
  have h2 : ((JCall.crypto_sign_ed25519_sk_to_pk 14 3).run toyEd25519 sampleEnv
      sampleKeyState).2.heap 3 ≠ sampleKeyState.heap 3 := by decide
  refine ⟨fun h => h2 (h toyEd25519 sampleEnv _ sampleKeyState 3 toyEd25519_writes
    sampleEnv_good (by decide) h1), h1, by decide, by decide, ?_, by decide, h2⟩
  intro sodium h
  have e : (JCall.crypto_sign_ed25519_sk_to_pk 14 3).run sodium sampleEnv sampleKeyState
      = (JCall.crypto_sign_ed25519_sk_to_pk 14 3).run toyEd25519 sampleEnv sampleKeyState := by
    simp [JCall.run, Java_org_libsodium_jni_SodiumJNI_crypto_1sign_1ed25519_1sk_1to_1pk,
      libcall, h, toyEd25519]
  rw [e]
  exact ⟨by decide, by decide⟩

/-- C14, amended. With a library that writes only to its output buffers (whatever it
returns), pins that succeed and pairwise distinct arrays, a wrapper call leaves every array
other than its output arrays as it was. The output arrays are those the specification
lists, and also `buf` of `randombytes_buf`, `key` of `crypto_secretbox_keygen` and
`crypto_auth_keygen`, and `pk` of `crypto_sign_ed25519_sk_to_pk`. -/
theorem inputs_unchanged (sodium : Lib) (hW : WritesOnlyOutputs sodium) (jenv : JNIEnv)
    (henv : GoodEnv jenv) (w : JCall) (s : JState) (hd : w.arrays.Nodup) :
    (∀ a, a ∉ w.outputs → (w.run sodium jenv s).2.heap a = s.heap a) ∧
    (∀ a ∈ w.outputs, a ∈ w.designatedOutputs ∨ (∃ n, w = JCall.randombytes_buf a n) ∨
      w = JCall.crypto_secretbox_keygen a ∨ w = JCall.crypto_auth_keygen a ∨
      ∃ sk, w = JCall.crypto_sign_ed25519_sk_to_pk sk a) ∧
    (∀ a ∈ w.designatedOutputs, a ∈ w.outputs) ∧
    (∀ a ∈ w.outputs, a ∈ w.arrays) := by
  refine ⟨fun a ha => run_frame sodium hW jenv henv w s hd a ha, ?_, ?_, ?_⟩ <;>
    cases w <;> simp [JCall.outputs, JCall.designatedOutputs, JCall.arrays]

/-- C14 at a sample input: `crypto_secretbox_easy` with the stand-in library leaves the
message, nonce and key arrays as they were. -/
theorem inputs_unchanged_witness :
    ((JCall.crypto_secretbox_easy 10 1 3 2 3).run toyEd25519 sampleEnv sampleState).2.heap 1
      = sampleState.heap 1 ∧
    ((JCall.crypto_secretbox_easy 10 1 3 2 3).run toyEd25519 sampleEnv sampleState).2.heap 2
      = sampleState.heap 2 ∧
    ((JCall.crypto_secretbox_easy 10 1 3 2 3).run toyEd25519 sampleEnv sampleState).2.heap 3
      = sampleState.heap 3 :=
  have h := (inputs_unchanged toyEd25519 toyEd25519_writes sampleEnv sampleEnv_good
    (JCall.crypto_secretbox_easy 10 1 3 2 3) sampleState (by decide)).1
  ⟨h 1 (by decide), h 2 (by decide), h 3 (by decide)⟩

/-! ## C15: signing-key derivations -/

/-- Effect of the wrapper `crypto_sign_seed_keypair` on the Java heap. -/
theorem sign_seed_keypair_effect {sodium : Lib} {pkOf skOf : List Byte → List Byte}
    (hE : Ed25519Contract sodium pkOf skOf) {jenv : JNIEnv} (henv : GoodEnv jenv) (s : JState)
    (j_pk j_sk j_seed : JArray) (hd : [j_pk, j_sk, j_seed].Nodup)
    (hseed : (s.heap j_seed).length = 32) (hpk : (s.heap j_pk).length = 32)
    (hsk : (s.heap j_sk).length = 64) :
    (Java_org_libsodium_jni_SodiumJNI_crypto_1sign_1seed_1keypair sodium jenv
      j_pk j_sk j_seed s).1 = 0 ∧
    (Java_org_libsodium_jni_SodiumJNI_crypto_1sign_1seed_1keypair sodium jenv
      j_pk j_sk j_seed s).2.heap
      = Function.update (Function.update s.heap j_pk (pkOf (s.heap j_seed))) j_sk
          (skOf (s.heap j_seed)) := by
  have hd' := List.nodup_reverse.mpr hd
  simp only [List.reverse_cons, List.reverse_nil, List.nil_append, List.cons_append,
    List.nodup_cons, List.mem_cons, List.mem_singleton, not_or, List.not_mem_nil,
    not_false_eq_true, List.nodup_nil, and_true] at hd hd'
  simp [Java_org_libsodium_jni_SodiumJNI_crypto_1sign_1seed_1keypair, GetByteArrayElements,
    ReleaseByteArrayElements, libcall, henv.alloc_eq_iff, henv.alloc_ne_null, JNI_ABORT,
    Nat.add_assoc]
  generalize hN : (Native.mk _ s.native.rng) = N
  have e0 : N.mem (jenv.alloc s.npins) = s.heap j_seed := by
    subst hN; simp [Function.update_apply, henv.alloc_eq_iff]
  have e1 : N.mem (jenv.alloc (s.npins + 1)) = s.heap j_sk := by
    subst hN; simp [Function.update_apply, henv.alloc_eq_iff]
  have e2 : N.mem (jenv.alloc (s.npins + 2)) = s.heap j_pk := by
    subst hN; simp [Function.update_apply, henv.alloc_eq_iff]
  obtain ⟨hr, hmem⟩ := hE.seed_keypair N (jenv.alloc (s.npins + 2)) (jenv.alloc (s.npins + 1))
    (jenv.alloc s.npins)
    (by simp [GoodBufs, henv.alloc_eq_iff, henv.null_ne_alloc])
    (by rw [e0, hseed]) (by rw [e2, hpk]) (by rw [e1, hsk])
  rw [hr, hmem]
  refine ⟨rfl, ?_⟩
  have o0 : overwrite (s.heap j_pk) (pkOf (s.heap j_seed)) = pkOf (s.heap j_seed) :=
    overwrite_of_length_le (by rw [hpk, hE.length_pk _ hseed])
  have o1 : overwrite (s.heap j_sk) (skOf (s.heap j_seed)) = skOf (s.heap j_seed) :=
    overwrite_of_length_le (by rw [hsk, hE.length_sk _ hseed])
  funext a
  simp [writeAll, Function.update_apply, henv.alloc_eq_iff, e0, e1, e2, o0, o1]

/-- Effect of the wrapper `crypto_sign_ed25519_sk_to_seed` on the Java heap. -/
theorem sign_sk_to_seed_effect {sodium : Lib} {pkOf skOf : List Byte → List Byte}
    (hE : Ed25519Contract sodium pkOf skOf) {jenv : JNIEnv} (henv : GoodEnv jenv) (s : JState)
    (j_seed j_sk : JArray) (hd : [j_seed, j_sk].Nodup) (sd : List Byte)
    (hsd : sd.length = 32) (hsk : s.heap j_sk = skOf sd) (hseed : (s.heap j_seed).length = 32) :
    (Java_org_libsodium_jni_SodiumJNI_crypto_1sign_1ed25519_1sk_1to_1seed sodium jenv
      j_seed j_sk s).1 = 0 ∧
    (Java_org_libsodium_jni_SodiumJNI_crypto_1sign_1ed25519_1sk_1to_1seed sodium jenv
      j_seed j_sk s).2.heap = Function.update s.heap j_seed sd := by
  simp only [List.nodup_cons, List.mem_cons, List.mem_singleton, not_or, List.not_mem_nil,
    not_false_eq_true, List.nodup_nil, and_true] at hd
  simp [Java_org_libsodium_jni_SodiumJNI_crypto_1sign_1ed25519_1sk_1to_1seed,
    GetByteArrayElements, ReleaseByteArrayElements, libcall, henv.alloc_eq_iff,
    henv.alloc_ne_null, JNI_ABORT, Nat.add_assoc]
  generalize hN : (Native.mk _ s.native.rng) = N
  have e0 : N.mem (jenv.alloc s.npins) = s.heap j_seed := by
    subst hN; simp [Function.update_apply, henv.alloc_eq_iff]
  have e1 : N.mem (jenv.alloc (s.npins + 1)) = s.heap j_sk := by
    subst hN; simp [Function.update_apply, henv.alloc_eq_iff]
  obtain ⟨hr, hmem⟩ := hE.sk_to_seed N (jenv.alloc s.npins) (jenv.alloc (s.npins + 1)) sd
    (by simp [GoodBufs, henv.alloc_eq_iff, henv.null_ne_alloc]) hsd
    (by rw [e1]; exact hsk) (by rw [e0, hseed])
  rw [hr, hmem]
  refine ⟨rfl, ?_⟩
  have o0 : overwrite (s.heap j_seed) sd = sd := overwrite_of_length_le (by rw [hseed, hsd])
  funext a
  simp [writeAll, Function.update_apply, henv.alloc_eq_iff, e0, e1, o0]
  split_ifs <;> simp_all

/-- Effect of the wrapper `crypto_sign_ed25519_sk_to_pk` on the Java heap. -/
theorem sign_sk_to_pk_effect {sodium : Lib} {pkOf skOf : List Byte → List Byte}
    (hE : Ed25519Contract sodium pkOf skOf) {jenv : JNIEnv} (henv : GoodEnv jenv) (s : JState)
    (j_sk j_pk : JArray) (sd : List Byte)
    (hsd : sd.length = 32) (hsk : s.heap j_sk = skOf sd) (hpk : (s.heap j_pk).length = 32) :
    (Java_org_libsodium_jni_SodiumJNI_crypto_1sign_1ed25519_1sk_1to_1pk sodium jenv
      j_sk j_pk s).1 = 0 ∧
    (Java_org_libsodium_jni_SodiumJNI_crypto_1sign_1ed25519_1sk_1to_1pk sodium jenv
      j_sk j_pk s).2.heap = Function.update s.heap j_pk (pkOf sd) := by
  simp [Java_org_libsodium_jni_SodiumJNI_crypto_1sign_1ed25519_1sk_1to_1pk,
    GetByteArrayElements, ReleaseByteArrayElements, libcall, henv.alloc_eq_iff,
    henv.alloc_ne_null, JNI_ABORT, Nat.add_assoc]
  generalize hN : (Native.mk _ s.native.rng) = N
  have e0 : N.mem (jenv.alloc s.npins) = s.heap j_sk := by
    subst hN; simp [Function.update_apply, henv.alloc_eq_iff]
  have e1 : N.mem (jenv.alloc (s.npins + 1)) = s.heap j_pk := by
    subst hN; simp [Function.update_apply, henv.alloc_eq_iff]
  obtain ⟨hr, hmem⟩ := hE.sk_to_pk N (jenv.alloc (s.npins + 1)) (jenv.alloc s.npins) sd
    (by simp [GoodBufs, henv.alloc_eq_iff, henv.null_ne_alloc]) hsd
    (by rw [e0]; exact hsk) (by rw [e1, hpk])
  rw [hr, hmem]
  refine ⟨rfl, ?_⟩
  have o0 : overwrite (s.heap j_pk) (pkOf sd) = pkOf sd :=
    overwrite_of_length_le (by rw [hpk, hE.length_pk _ hsd])
  funext a
  simp [writeAll, Function.update_apply, henv.alloc_eq_iff, e0, e1, o0]

/-- C15. Under libsodium's contract for seeded Ed25519 keys and with pins that succeed: with
distinct arrays (32-byte `j_pk`, `j_seed`, `j_seed2`, `j_pk2`, 64-byte `j_sk`),
`crypto_sign_seed_keypair(pk, sk, seed)`, `crypto_sign_ed25519_sk_to_seed(seed2, sk)` and
`crypto_sign_ed25519_sk_to_pk(sk, pk2)`, whose output array is its second parameter, all
return `0`; afterwards `j_seed2` holds the seed, `j_pk2` holds the same bytes as `j_pk`, and
`j_sk` holds what the key generation left in it. -/
theorem seed_derivations_agree (sodium : Lib) (pkOf skOf : List Byte → List Byte)
    (hE : Ed25519Contract sodium pkOf skOf) (jenv : JNIEnv) (henv : GoodEnv jenv) (s : JState)
    (j_pk j_sk j_seed j_seed2 j_pk2 : JArray)
    (hd : [j_pk, j_sk, j_seed, j_seed2, j_pk2].Nodup)
    (hseed : (s.heap j_seed).length = 32) (hpk : (s.heap j_pk).length = 32)
    (hsk : (s.heap j_sk).length = 64) (hseed2 : (s.heap j_seed2).length = 32)
    (hpk2 : (s.heap j_pk2).length = 32) :
    (seedDerivation sodium jenv j_pk j_sk j_seed j_seed2 j_pk2 s).1 = [0, 0, 0] ∧
    (seedDerivation sodium jenv j_pk j_sk j_seed j_seed2 j_pk2 s).2.heap j_seed2
      = s.heap j_seed ∧
    (seedDerivation sodium jenv j_pk j_sk j_seed j_seed2 j_pk2 s).2.heap j_pk2
      = (seedDerivation sodium jenv j_pk j_sk j_seed j_seed2 j_pk2 s).2.heap j_pk ∧
    (seedDerivation sodium jenv j_pk j_sk j_seed j_seed2 j_pk2 s).2.heap j_pk
      = (Java_org_libsodium_jni_SodiumJNI_crypto_1sign_1seed_1keypair sodium jenv
          j_pk j_sk j_seed s).2.heap j_pk ∧
    (seedDerivation sodium jenv j_pk j_sk j_seed j_seed2 j_pk2 s).2.heap j_sk
      = (Java_org_libsodium_jni_SodiumJNI_crypto_1sign_1seed_1keypair sodium jenv
          j_pk j_sk j_seed s).2.heap j_sk ∧
    (seedDerivation sodium jenv j_pk j_sk j_seed j_seed2 j_pk2 s).2.heap j_seed
      = s.heap j_seed := by
  have hd' := List.nodup_reverse.mpr hd
  simp only [List.reverse_cons, List.reverse_nil, List.nil_append, List.cons_append,
    List.nodup_cons, List.mem_cons, List.mem_singleton, not_or, List.not_mem_nil,
    not_false_eq_true, List.nodup_nil, and_true] at hd hd'
  simp only [seedDerivation, JNI.bind_apply, JNI.pure_apply]
  obtain ⟨h1r, h1h⟩ := sign_seed_keypair_effect hE henv s j_pk j_sk j_seed
    (by simp [hd, hd']) hseed hpk hsk
  generalize (Java_org_libsodium_jni_SodiumJNI_crypto_1sign_1seed_1keypair sodium jenv
    j_pk j_sk j_seed s) = x1 at h1r h1h ⊢
  have v1pk : x1.2.heap j_pk = pkOf (s.heap j_seed) := by
    simp [h1h, Function.update_apply, hd, hd']
  have v1sk : x1.2.heap j_sk = skOf (s.heap j_seed) := by
    simp [h1h, Function.update_apply, hd, hd']
  have v1seed : x1.2.heap j_seed = s.heap j_seed := by
    simp [h1h, Function.update_apply, hd, hd']
  have v1seed2 : x1.2.heap j_seed2 = s.heap j_seed2 := by
    simp [h1h, Function.update_apply, hd, hd']
  have v1pk2 : x1.2.heap j_pk2 = s.heap j_pk2 := by
    simp [h1h, Function.update_apply, hd, hd']
  obtain ⟨h2r, h2h⟩ := sign_sk_to_seed_effect hE henv x1.2 j_seed2 j_sk (by simp [hd, hd'])
    (s.heap j_seed) hseed v1sk (by rw [v1seed2, hseed2])
  generalize (Java_org_libsodium_jni_SodiumJNI_crypto_1sign_1ed25519_1sk_1to_1seed sodium jenv
    j_seed2 j_sk x1.2) = x2 at h2r h2h ⊢
  have v2pk : x2.2.heap j_pk = pkOf (s.heap j_seed) := by
    simp [h2h, Function.update_apply, hd, hd', v1pk]
  have v2sk : x2.2.heap j_sk = skOf (s.heap j_seed) := by
    simp [h2h, Function.update_apply, hd, hd', v1sk]
  have v2seed : x2.2.heap j_seed = s.heap j_seed := by
    simp [h2h, Function.update_apply, hd, hd', v1seed]
  have v2seed2 : x2.2.heap j_seed2 = s.heap j_seed := by
    simp [h2h, Function.update_apply, hd, hd']
  have v2pk2 : x2.2.heap j_pk2 = s.heap j_pk2 := by
    simp [h2h, Function.update_apply, hd, hd', v1pk2]
  obtain ⟨h3r, h3h⟩ := sign_sk_to_pk_effect hE henv x2.2 j_sk j_pk2
    (s.heap j_seed) hseed v2sk (by rw [v2pk2, hpk2])
  generalize (Java_org_libsodium_jni_SodiumJNI_crypto_1sign_1ed25519_1sk_1to_1pk sodium jenv
    j_sk j_pk2 x2.2) = x3 at h3r h3h ⊢
  refine ⟨by rw [h1r, h2r, h3r], ?_, ?_, ?_, ?_, ?_⟩
  · simp [h3h, Function.update_apply, hd, hd', v2seed2]
  · simp [h3h, Function.update_apply, hd, hd', v2pk]
  · simp [h3h, Function.update_apply, hd, hd', v2pk, v1pk]
  · simp [h3h, Function.update_apply, hd, hd', v2sk, v1sk]
  · simp [h3h, Function.update_apply, hd, hd', v2seed]

theorem toyEd25519_contract : Ed25519Contract toyEd25519 toyPk toySk where
  length_pk := fun seed h => by simp [toyPk, h]
  length_sk := fun seed h => by simp [toySk, toyPk, h]
  seed_keypair := fun N pk sk seed hg _ _ _ => by
    have hne : sk ≠ pk := by
      simp only [GoodBufs, List.nodup_cons, List.mem_cons, List.mem_singleton, not_or] at hg
      exact fun h => hg.1.1.1 h.symm
    exact ⟨rfl, by simp [toyEd25519, Native.write, writeAll, Function.update_noteq hne]⟩
  sk_to_seed := fun N seed sk sd _ hsd hsk _ => by
    have h : (N.mem sk).take 32 = sd := by rw [hsk, toySk, ← hsd, List.take_left']; rfl
    exact ⟨rfl, by simp [toyEd25519, Native.write, writeAll, h]⟩
  sk_to_pk := fun N pk sk sd _ hsd hsk _ => by
    have h : ((N.mem sk).drop 32).take 32 = toyPk sd := by
      rw [hsk, toySk, List.drop_left' hsd]
      exact List.take_of_length_le (by simp [toyPk, hsd])
    exact ⟨rfl, by simp [toyEd25519, Native.write, writeAll, h]⟩

/-- C15 at a sample input: a 32-byte seed of nines, the stand-in library. -/
theorem seed_derivations_agree_witness :
    (seedDerivation toyEd25519 sampleEnv 4 7 3 5 6 sampleState).1 = [0, 0, 0] ∧
    (seedDerivation toyEd25519 sampleEnv 4 7 3 5 6 sampleState).2.heap 5
      = sampleState.heap 3 ∧
    (seedDerivation toyEd25519 sampleEnv 4 7 3 5 6 sampleState).2.heap 6
      = (seedDerivation toyEd25519 sampleEnv 4 7 3 5 6 sampleState).2.heap 4 ∧
    (seedDerivation toyEd25519 sampleEnv 4 7 3 5 6 sampleState).2.heap 4
      = (Java_org_libsodium_jni_SodiumJNI_crypto_1sign_1seed_1keypair toyEd25519 sampleEnv
          4 7 3 sampleState).2.heap 4 ∧
    (seedDerivation toyEd25519 sampleEnv 4 7 3 5 6 sampleState).2.heap 7
      = (Java_org_libsodium_jni_SodiumJNI_crypto_1sign_1seed_1keypair toyEd25519 sampleEnv
          4 7 3 sampleState).2.heap 7 ∧
    (seedDerivation toyEd25519 sampleEnv 4 7 3 5 6 sampleState).2.heap 3
      = sampleState.heap 3 :=
  seed_derivations_agree toyEd25519 toyPk toySk toyEd25519_contract sampleEnv sampleEnv_good
    sampleState 4 7 3 5 6 (by decide) (by decide) (by decide) (by decide) (by decide)
    (by decide)

end SodiumJNI
